import Mathlib

/-! The Architect file watcher (`src/cli/_watcher.js`) and the WebSocket
connection listener (`src/http/register-websocket/connection.js`).

A shallow embedding of the handler that `runWatcher` registers on the
filesystem watcher, of the two debounce timers it drives, of the callbacks
those timers run and of the plugin pipeline; and of the `message` listener of
a WebSocket connection.  JavaScript values are modelled as follows.

* a string is a `String`; a value that may be `undefined` or `null` is an
  `Option`; an error value is the `String` that describes it;
* `fs.existsSync(pauseFile)` is a `Bool` sampled once per synchronous dispatch;
* `path.join`, `path.sep`, the inventory reader, the fingerprinter and the
  engine's `end`/`start` belong to the host and are fields of `Host`;
  `JSON.parse`, `get.ws` and the outcome of an invocation are fields of `WsHost`;
* every call on a collaborator (`update.*`, `rehydrate`, `setTimeout`, ...) is
  recorded, in program order, as an `Effect`.
-/

namespace ArcWatcher

/-! ## Strings -/

/-- Substring test on character lists: `t` occurs in `s` at some offset. -/
def includesChars : List Char → List Char → Bool
  | [], t => t.isPrefixOf []
  | c :: s, t => t.isPrefixOf (c :: s) || includesChars s t

/-- The method `String.prototype.includes`: `includes s t` is `s.includes(t)`. -/
def includes (s t : String) : Bool := includesChars s.data t.data

/-- Interpolation of a possibly missing string inside a template literal. -/
def interp : Option String → String
  | none => "undefined"
  | some s => s

/-! ## A POSIX `path.join`

Node's `path.posix.join`, for the concrete hosts of the examples: the non-empty
arguments are glued with `/` and the result is normalised. -/

/-- The segments of a path between its `/` separators. -/
def splitOnSlash : List Char → List (List Char)
  | [] => [[]]
  | c :: cs =>
    match splitOnSlash cs with
    | [] => [[]]
    | seg :: rest => if c = '/' then [] :: seg :: rest else (c :: seg) :: rest

/-- Node's `normalizeString` on segments: empty and `.` segments vanish, a `..`
removes the segment before it, or stays when there is none to remove and the
path is relative.  `acc` holds the kept segments, last one first. -/
def normalizeSegments (allowAboveRoot : Bool) :
    List (List Char) → List (List Char) → List (List Char)
  | acc, [] => acc.reverse
  | acc, seg :: rest =>
    if seg = [] || seg = ['.'] then normalizeSegments allowAboveRoot acc rest
    else if seg = ['.', '.'] then
      match acc with
      | [] => normalizeSegments allowAboveRoot (if allowAboveRoot then [seg] else []) rest
      | last :: before =>
        if last = ['.', '.'] then
          normalizeSegments allowAboveRoot (if allowAboveRoot then seg :: acc else acc) rest
        else normalizeSegments allowAboveRoot before rest
    else normalizeSegments allowAboveRoot (seg :: acc) rest

/-- Node's `path.posix.normalize`. -/
def posixNormalize (path : List Char) : List Char :=
  if path = [] then ['.']
  else
    let isAbsolute := path.head? = some '/'
    let trailing := path.getLast? = some '/'
    let body := ['/'].intercalate (normalizeSegments (!isAbsolute) [] (splitOnSlash path))
    if body = [] then
      if isAbsolute then ['/'] else if trailing then ['.', '/'] else ['.']
    else
      (if isAbsolute then ['/'] else []) ++ body ++ (if trailing then ['/'] else [])

/-- Node's `path.posix.join` on string arguments. -/
def posixJoin (args : List String) : String :=
  match (args.map String.data).filter (fun a => a != []) with
  | [] => "."
  | parts => String.mk (posixNormalize (['/'].intercalate parts))

/-! ## The project inventory -/

/-- A registered watcher plugin, known to the watcher by its declared name
(`plugin.plugin`). -/
structure Plugin where
  plugin : String
deriving DecidableEq, Repr

/-- The object `inv._project`, restricted to the fields the watcher reads. -/
structure Project where
  cwd : String
  manifest : Option String
  localPreferencesFile : Option String
  globalPreferencesFile : Option String
deriving DecidableEq, Repr

/-- The object `inv.static`. -/
structure StaticCfg where
  folder : Option String
deriving DecidableEq, Repr

/-- The objects `inv.shared` and `inv.views`. -/
structure SrcCfg where
  src : Option String
deriving DecidableEq, Repr

/-- The object `inventory.inv`; `watcher` is `inv.plugins?._methods?.sandbox?.watcher`. -/
structure Inv where
  project : Project
  static : Option StaticCfg
  shared : Option SrcCfg
  views : Option SrcCfg
  watcher : Option (List Plugin)
deriving DecidableEq, Repr

/-- The inventory object handed to the watcher and returned by the inventory reader. -/
structure Inventory where
  inv : Inv
deriving DecidableEq, Repr

/-! ## Collaborators and effects -/

/-- The argument object of a `rehydrate` call. -/
structure RehydrateArgs where
  timer : String
  only : Option String
  msg : Option String
  force : Bool
deriving DecidableEq, Repr

/-- The three closures the watcher hands to `setTimeout`. -/
inductive Callback where
  | manifestReload
  | preferencesReload
  | fingerprint
deriving DecidableEq, Repr

/-- One observable call made by the watcher. -/
inductive Effect where
  | debugStatus (msg : String)
  | status (msg : String)
  | warn (msg : String)
  | error (err : String)
  | done (msg : String)
  | rehydrate (a : RehydrateArgs)
  | clearTimeout (handle : Option Nat)
  | setTimeout (id : Nat) (cb : Callback) (delay : Nat)
  | runPlugins (filename event : String) (plugins : List Plugin)
  | ts
  | inventoryCall (cwd : String)
  | fingerprintCall (inventory : Inventory)
  | sandboxEnd
  | sandboxStart (cwd : String) (inventory : Inventory) (restart : Bool)
  | thrown (err : String)
  | invokePlugin (plugin : Plugin) (filename event : String)
  | rejected (err : String)
deriving DecidableEq, Repr

/-- What `runWatcher` receives and never changes: `cwd`, `args.debounce` and
`params.symlink`. -/
structure Config where
  cwd : String
  debounce : Nat
  symlink : Bool
deriving DecidableEq, Repr

/-- The host: Node's `path` module and the collaborators whose outcome the
watcher only observes.  An outcome requested at time `t` is the value of the
field at `t`. -/
structure Host where
  join : List String → String
  sep : String
  inventory : Nat → Except String Inventory
  fingerprint : Nat → Except String Bool
  fingerprintMs : Nat → Nat
  sandboxEnd : Nat → Option String
  sandboxStart : Nat → Option String
  restartMs : Nat → Nat

/-- The error `path.join` raises on an argument that is not a string. -/
def typeError : String :=
  "TypeError [ERR_INVALID_ARG_TYPE]: The \"path\" argument must be of type string"

/-- All arguments when every one of them is a string. -/
def allStrings : List (Option String) → Option (List String)
  | [] => some []
  | none :: _ => none
  | some s :: rest => (allStrings rest).map (fun l => s :: l)

/-- A call `join(a, b, ...)`: it throws unless every argument is a string. -/
def pathJoin (host : Host) (args : List (Option String)) : Except String String :=
  match allStrings args with
  | none => .error typeError
  | some l => .ok (host.join l)

/-! ## Timers -/

/-- A timer registered with the event loop and not yet fired or cleared. -/
structure Timer where
  id : Nat
  due : Nat
  cb : Callback
deriving DecidableEq, Repr

/-- The event loop's clock and timer list. -/
structure Loop where
  now : Nat
  nextId : Nat
  pending : List Timer
deriving DecidableEq, Repr

/-- The call `clearTimeout(handle)`: a missing or dead handle clears nothing. -/
def Loop.clearTimeout (l : Loop) (handle : Option Nat) : Loop :=
  match handle with
  | none => l
  | some i => { l with pending := l.pending.filter (fun t => t.id != i) }

/-- The call `setTimeout(cb, delay)`: a fresh handle, due `delay` from now. -/
def Loop.setTimeout (l : Loop) (cb : Callback) (delay : Nat) : Nat × Loop :=
  (l.nextId,
    { l with nextId := l.nextId + 1,
             pending := l.pending ++ [{ id := l.nextId, due := l.now + delay, cb := cb }] })

/-! ## Watcher state -/

/-- The object `timers`. -/
structure Timers where
  arcEvent : Option Nat
  fingerprint : Option Nat
deriving DecidableEq, Repr

/-- The variables `runWatcher` closes over. -/
structure Watcher where
  inventory : Inventory
  inv : Inv
  manifest : Option String
  staticFolder : Option String
  shared : Option String
  views : Option String
  watcherPlugins : Option (List Plugin)
  timers : Timers
  paused : Bool
  pluginsRunning : Bool
deriving DecidableEq, Repr

/-- The function `refreshInventory`: re-derive the cached paths from `inventory`. -/
def refreshInventory (w : Watcher) : Watcher :=
  let inv := w.inventory.inv
  { w with
    inv := inv
    manifest := inv.project.manifest
    staticFolder := inv.static.bind (fun s => s.folder)
    shared := inv.shared.bind (fun s => s.src)
    views := inv.views.bind (fun s => s.src)
    watcherPlugins := inv.watcher }

/-- The state `runWatcher` sets up before the first event. -/
def initWatcher (inventory : Inventory) : Watcher :=
  refreshInventory
    { inventory := inventory
      inv := inventory.inv
      manifest := none
      staticFolder := none
      shared := none
      views := none
      watcherPlugins := none
      timers := { arcEvent := none, fingerprint := none }
      paused := false
      pluginsRunning := false }

def ignoredEvents : List String := ["addDir", "unlinkDir", "ready", "raw"]

def pluginEvents : List String := ["add", "update", "remove"]

/-- The renormalisation of a raw event kind. -/
def normalize (event : String) : String :=
  if event = "change" then "update"
  else if event = "unlink" then "remove"
  else event

def fileUpdate (event : String) : Bool := event = "update"

def updateOrRemove (event : String) : Bool := event = "update" || event = "remove"

def anyChange (event : String) : Bool :=
  event = "add" || event = "update" || event = "remove"

/-! ## One dispatch of the `all` handler -/

/-- The locals of one dispatch while the rule chain runs. -/
structure Run where
  w : Watcher
  loop : Loop
  effects : List Effect
  ran : Bool
  restarting : Bool
deriving DecidableEq, Repr

/-- What one dispatch leaves behind: the new state, the calls it made in
order, and the error it threw, if any. -/
structure Outcome where
  w : Watcher
  loop : Loop
  effects : List Effect
  thrown : Option String
deriving DecidableEq, Repr

/-- The statements `clearTimeout(timers.arcEvent); timers.arcEvent = setTimeout(cb, debounce)`. -/
def scheduleArcEvent (cfg : Config) (cb : Callback) (r : Run) : Run :=
  let cleared := r.loop.clearTimeout r.w.timers.arcEvent
  let set := cleared.setTimeout cb cfg.debounce
  { r with
    loop := set.2
    w := { r.w with timers := { r.w.timers with arcEvent := some set.1 } }
    effects := r.effects ++
      [Effect.clearTimeout r.w.timers.arcEvent, Effect.setTimeout set.1 cb cfg.debounce] }

/-- The statements `clearTimeout(timers.fingerprint); timers.fingerprint = setTimeout(cb, debounce)`. -/
def scheduleFingerprint (cfg : Config) (r : Run) : Run :=
  let cleared := r.loop.clearTimeout r.w.timers.fingerprint
  let set := cleared.setTimeout Callback.fingerprint cfg.debounce
  { r with
    loop := set.2
    w := { r.w with timers := { r.w.timers with fingerprint := some set.1 } }
    effects := r.effects ++
      [Effect.clearTimeout r.w.timers.fingerprint,
       Effect.setTimeout set.1 Callback.fingerprint cfg.debounce] }

/-- Condition of the first rule: `fileUpdate && (filename === manifest)`. -/
def manifestCond (w : Watcher) (event filename : String) : Bool :=
  fileUpdate event && decide (some filename = w.manifest)

/-- Reload routes upon changes to the project manifest. -/
def manifestRule (cfg : Config) (event filename : String) (r : Run) : Run :=
  if manifestCond r.w event filename then
    scheduleArcEvent cfg Callback.manifestReload { r with ran := true, restarting := true }
  else r

/-- Condition of the second rule, without its `!ran` guard. -/
def preferencesCond (cfg : Config) (host : Host) (w : Watcher) (event filename : String) : Bool :=
  anyChange event &&
    (decide (filename = host.join [cfg.cwd, ".env"]) ||
     decide (some filename = w.inv.project.localPreferencesFile) ||
     decide (some filename = w.inv.project.globalPreferencesFile))

/-- Refresh the inventory if preferences or env vars may have changed. -/
def preferencesRule (cfg : Config) (host : Host) (event filename : String) (r : Run) : Run :=
  if !r.ran && preferencesCond cfg host r.w event filename then
    scheduleArcEvent cfg Callback.preferencesReload { r with ran := true, restarting := true }
  else r

/-- Condition `updateOrRemove && root && filename.includes(root)` of the shared
and views rules, for the root `root`. -/
def sourceCond (root : Option String) (event filename : String) : Bool :=
  updateOrRemove event &&
    match root with
    | none => false
    | some dir => dir != "" && includes filename dir

def rehydrateShared : RehydrateArgs :=
  { timer := "rehydrateShared", only := some "shared",
    msg := some "Shared file changed, rehydrating functions...", force := false }

def rehydrateViews : RehydrateArgs :=
  { timer := "rehydrateViews", only := some "views",
    msg := some "Views file changed, rehydrating views...", force := false }

def rehydrateStatic : RehydrateArgs :=
  { timer := "rehydrateStatic", only := some "staticJson", msg := none, force := false }

def rehydrateAll : RehydrateArgs :=
  { timer := "rehydrateAll", only := none,
    msg := some "Restoring shared file symlinks...", force := true }

/-- Rehydrate functions with shared files upon changes to `src/shared`. -/
def sharedRule (event filename : String) (r : Run) : Run :=
  if !r.ran && sourceCond r.w.shared event filename then
    { r with ran := true, effects := r.effects ++ [Effect.rehydrate rehydrateShared] }
  else r

/-- Rehydrate functions with shared files upon changes to `src/views`. -/
def viewsRule (event filename : String) (r : Run) : Run :=
  if !r.ran && sourceCond r.w.views event filename then
    { r with ran := true, effects := r.effects ++ [Effect.rehydrate rehydrateViews] }
  else r

/-- The local `isStaticAsset`, as its truth value. -/
def isStaticAsset (cfg : Config) (host : Host) (w : Watcher) (filename : String) :
    Except String Bool :=
  match w.inv.static with
  | none => .ok false
  | some _ =>
    match pathJoin host [some cfg.cwd, w.staticFolder] with
    | .error e => .error e
    | .ok dir => .ok (includes filename dir)

/-- The local `isStaticJson`, as its truth value; the second `join` is only
evaluated when the first test fails. -/
def isStaticJson (cfg : Config) (host : Host) (w : Watcher) (filename : String) :
    Except String Bool :=
  match w.inv.static with
  | none => .ok false
  | some _ =>
    match pathJoin host [some cfg.cwd, w.staticFolder, some "static.json"] with
    | .error e => .error e
    | .ok p =>
      if includes filename p then .ok true
      else
        match pathJoin host [w.shared, some "static.json"] with
        | .error e => .error e
        | .ok q => .ok (includes filename q)

/-- Regenerate `static.json` upon changes to the static folder. -/
def staticRule (cfg : Config) (event : String) (asset json : Bool) (r : Run) : Run :=
  if !r.ran && anyChange event && asset && !json then
    scheduleFingerprint cfg { r with ran := true }
  else r

/-- Truthiness of `watcherPlugins?.length`. -/
def hasPlugins : Option (List Plugin) → Bool
  | none => false
  | some l => !l.isEmpty

/-- The guard of the plugin pipeline and the synchronous start of `runPlugins`:
the busy flag is raised and the run begins with the registered plugins. -/
def pluginStage (event filename : String) (json : Bool) (r : Run) : Run :=
  if !r.w.pluginsRunning && !json && !r.restarting &&
      hasPlugins r.w.watcherPlugins && pluginEvents.contains event then
    { r with
      w := { r.w with pluginsRunning := true }
      effects := r.effects ++
        [Effect.runPlugins filename event (r.w.watcherPlugins.getD [])] }
  else r

def Run.finish (r : Run) (thrown : Option String) : Outcome :=
  { w := r.w, loop := r.loop, effects := r.effects, thrown := thrown }

/-- The rule chain, from the renormalised event on. -/
def rules (cfg : Config) (host : Host) (event filename : String) (r0 : Run) : Outcome :=
  let r1 := manifestRule cfg event filename r0
  let r2 := preferencesRule cfg host event filename r1
  let r3 := sharedRule event filename r2
  let r4 := viewsRule event filename r3
  match isStaticAsset cfg host r4.w filename with
  | .error e => r4.finish (some e)
  | .ok asset =>
    match isStaticJson cfg host r4.w filename with
    | .error e => r4.finish (some e)
    | .ok json =>
      (pluginStage event filename json (staticRule cfg event asset json r4)).finish none

/-- The unpause branch: leave the paused state and, with symlinking on, force a
full rehydration. -/
def unpause (cfg : Config) (w : Watcher) (exists_ : Bool) : Watcher × List Effect :=
  if w.paused && !exists_ then
    ({ w with paused := false },
      Effect.status "Watcher no longer paused" ::
        (if cfg.symlink then [Effect.rehydrate rehydrateAll] else []))
  else (w, [])

/-- The listener registered with `watcher.on('all', ...)`; `exists_` is the
value of `existsSync(pauseFile)` during this dispatch. -/
def handle (cfg : Config) (host : Host) (w : Watcher) (loop : Loop) (exists_ : Bool)
    (event filename : String) : Outcome :=
  if ignoredEvents.contains event then
    { w := w, loop := loop, thrown := none,
      effects := [Effect.debugStatus ("Watcher: ignored '" ++ event ++ "' on " ++ filename)] }
  else if w.pluginsRunning || (w.paused && exists_) then
    { w := w, loop := loop, effects := [], thrown := none }
  else if !w.paused && exists_ then
    { w := { w with paused := true }, loop := loop, thrown := none,
      effects := [Effect.status "Watcher temporarily paused"] }
  else
    let u := unpause cfg w exists_
    let ev := normalize event
    rules cfg host ev filename
      { w := u.1, loop := loop, ran := false, restarting := false,
        effects := u.2 ++ [Effect.debugStatus ("Watcher: '" ++ ev ++ "' on " ++ filename)] }

/-! ## Timer callbacks and the event loop

The reload, the fingerprint run and the engine's stop and start complete with
the outcome the host has for the time the timer fires; the calls they lead to
are recorded right after the call that starts them. -/

/-- The function `restart`: stop the engine, then start it with the inventory
and the restart flag; report every failure and, after a clean start, the time
taken. -/
def restart (host : Host) (now : Nat) (cwd : String) (inventory : Inventory) : List Effect :=
  [Effect.sandboxEnd] ++
    (match host.sandboxEnd now with
     | some err => [Effect.error err]
     | none => []) ++
    [Effect.sandboxStart cwd inventory true] ++
    (match host.sandboxStart now with
     | some err => [Effect.error err]
     | none =>
       [Effect.done ("Sandbox reloaded in " ++ toString (host.restartMs now) ++ "ms")])

/-- The closure the manifest and preferences rules hand to `setTimeout`; `msg`
is the status line of the rule. -/
def reloadCallback (cfg : Config) (host : Host) (msg : String) (now : Nat) (w : Watcher) :
    Watcher × List Effect :=
  match host.inventory now with
  | .error err => (w, [Effect.ts, Effect.inventoryCall cfg.cwd, Effect.error err])
  | .ok result =>
    (refreshInventory { w with inventory := result },
      [Effect.ts, Effect.inventoryCall cfg.cwd, Effect.status msg] ++
        restart host now cfg.cwd result)

/-- The closure the static rule hands to `setTimeout`. -/
def fingerprintCallback (host : Host) (now : Nat) (w : Watcher) : Watcher × List Effect :=
  match host.fingerprint now with
  | .error err => (w, [Effect.fingerprintCall w.inventory, Effect.error err])
  | .ok result =>
    if result then
      (w, [Effect.fingerprintCall w.inventory,
           Effect.status ("Regenerated " ++ interp w.staticFolder ++ host.sep ++
             "static.json in " ++ toString (host.fingerprintMs now) ++ "ms"),
           Effect.rehydrate rehydrateStatic])
    else (w, [Effect.fingerprintCall w.inventory])

/-- Run the closure of a timer at time `now`. -/
def runCallback (cfg : Config) (host : Host) (cb : Callback) (now : Nat) (w : Watcher) :
    Watcher × List Effect :=
  match cb with
  | .manifestReload =>
    reloadCallback cfg host "Loaded latest Architect project manifest" now w
  | .preferencesReload => reloadCallback cfg host "Loaded latest project preferences" now w
  | .fingerprint => fingerprintCallback host now w

/-- The watcher together with the event loop and the calls made so far, each
with the time it was made at. -/
structure Sys where
  w : Watcher
  loop : Loop
  log : List (Nat × Effect)
deriving DecidableEq, Repr

/-- Put the time on the calls of one step. -/
def stamp (now : Nat) (effects : List Effect) : List (Nat × Effect) :=
  effects.map (fun e => (now, e))

/-- A timer fires: the clock reaches its due time, the timer leaves the loop
and its closure runs. -/
def fire (cfg : Config) (host : Host) (s : Sys) (t : Timer) : Sys :=
  let now := max s.loop.now t.due
  let res := runCallback cfg host t.cb now s.w
  { w := res.1
    loop := { s.loop with now := now, pending := s.loop.pending.filter (fun u => u.id != t.id) }
    log := s.log ++ stamp now res.2 }

/-- Insert a timer in a list ordered by due time, after the timers due at the
same time. -/
def insertByDue (t : Timer) : List Timer → List Timer
  | [] => [t]
  | u :: rest => if t.due < u.due then t :: u :: rest else u :: insertByDue t rest

/-- The pending timers due at `time` or before, in firing order. -/
def dueTimers (pending : List Timer) (time : Nat) : List Timer :=
  (pending.filter (fun t => t.due ≤ time)).foldl (fun acc t => insertByDue t acc) []

/-- Let the clock reach `time`: every timer due by then fires, in order. -/
def advance (cfg : Config) (host : Host) (time : Nat) (s : Sys) : Sys :=
  let fired := (dueTimers s.loop.pending time).foldl (fire cfg host) s
  { fired with loop := { fired.loop with now := max fired.loop.now time } }

/-- A filesystem notification and the state of the pause sentinel when it is
delivered. -/
structure Notification where
  time : Nat
  exists_ : Bool
  event : String
  filename : String
deriving DecidableEq, Repr

/-- Deliver a notification: the clock reaches its time, then the handler runs.
An error the handler throws is logged after its calls; the timers it has set by
then stay in the loop. -/
def deliver (cfg : Config) (host : Host) (s : Sys) (n : Notification) : Sys :=
  let s1 := advance cfg host n.time s
  let o := handle cfg host s1.w s1.loop n.exists_ n.event n.filename
  { w := o.w
    loop := o.loop
    log := s1.log ++ stamp s1.loop.now o.effects ++
      (match o.thrown with
       | some err => [(s1.loop.now, Effect.thrown err)]
       | none => []) }

/-- Deliver a sequence of notifications in order. -/
def run (cfg : Config) (host : Host) (s : Sys) (ns : List Notification) : Sys :=
  ns.foldl (deliver cfg host) s

/-- A change notification for `path` at `time`, with the sentinel absent. -/
def changeAt (path : String) (time : Nat) : Notification :=
  { time := time, exists_ := false, event := "change", filename := path }

/-- The timer runs a configuration reload. -/
def isReloadTimer (t : Timer) : Bool :=
  t.cb = Callback.manifestReload || t.cb = Callback.preferencesReload

def isInventoryCall : Effect → Bool
  | .inventoryCall _ => true
  | _ => false

def isSandboxEnd : Effect → Bool
  | .sandboxEnd => true
  | _ => false

def isSandboxStart : Effect → Bool
  | .sandboxStart _ _ _ => true
  | _ => false

/-- The times at which the inventory reader was called. -/
def reloadTimes (log : List (Nat × Effect)) : List Nat :=
  (log.filter (fun e => isInventoryCall e.2)).map (fun e => e.1)

/-! ## The plugin pipeline

The body of `runPlugins` after its first statement: the loop over the
registered plugins and the statement that lowers the busy flag. -/

/-- What a plugin throws or rejects with: `undefined` or `null`, or any other
value, of which the handler reads the `message` property. -/
inductive Raised where
  | nullish
  | value (message : Option String)
deriving DecidableEq, Repr

/-- How the awaited call of one plugin ends. -/
inductive PluginOutcome where
  | completes
  | raises (v : Raised)
deriving DecidableEq, Repr

/-- The error of reading a property of `undefined` or `null`. -/
def messageError : String :=
  "TypeError: Cannot read properties of undefined (reading 'message')"

/-- The `catch` block: it reads `err.message`, which throws on `undefined` and
`null`, and otherwise warns with the plugin's name. -/
def catchBlock (plugin : Plugin) : Raised → Except String (List Effect)
  | .nullish => .error messageError
  | .value message =>
    .ok [Effect.warn ("Watcher plugin " ++ plugin.plugin ++ " failed: " ++ interp message)]

/-- The `for` loop of `runPlugins` from the plugin at position `index` on: each
plugin is called and awaited before the next one; a throw out of the `catch`
block ends the loop and rejects the run. The result is the calls made and the
error the run rejects with, if any. -/
def pluginLoop (outcome : Nat → PluginOutcome) (filename event : String) :
    Nat → List Plugin → List Effect × Option String
  | _, [] => ([], none)
  | index, plugin :: rest =>
    match outcome index with
    | .completes =>
      let next := pluginLoop outcome filename event (index + 1) rest
      (Effect.invokePlugin plugin filename event :: next.1, next.2)
    | .raises v =>
      match catchBlock plugin v with
      | .error err => ([Effect.invokePlugin plugin filename event], some err)
      | .ok warned =>
        let next := pluginLoop outcome filename event (index + 1) rest
        (Effect.invokePlugin plugin filename event :: (warned ++ next.1), next.2)

/-- The activation of `runPlugins` a dispatch has started. -/
structure PluginRun where
  filename : String
  event : String
  plugins : List Plugin
deriving DecidableEq, Repr

/-- The plugin run started among the calls of a dispatch, if any. -/
def startedRun : List Effect → Option PluginRun
  | [] => none
  | .runPlugins filename event plugins :: _ =>
    some { filename := filename, event := event, plugins := plugins }
  | _ :: rest => startedRun rest

/-- The system together with the plugin run that has not settled yet. -/
structure Session where
  sys : Sys
  running : Option PluginRun
deriving DecidableEq, Repr

/-- What can happen next: a notification is delivered, or the plugin run in
progress runs its plugins, which end as `outcome` tells by position. -/
inductive Step where
  | notify (n : Notification)
  | settle (outcome : Nat → PluginOutcome)

/-- The plugin run in progress settles: its plugins are called one after the
other; when the loop ends, `pluginsRunning = false` is executed; when the loop
is left by a throw, the run rejects and the flag stays as it is. -/
def settle (outcome : Nat → PluginOutcome) (ss : Session) : Session :=
  match ss.running with
  | none => ss
  | some r =>
    let res := pluginLoop outcome r.filename r.event 0 r.plugins
    match res.2 with
    | none =>
      { sys :=
          { ss.sys with
            w := { ss.sys.w with pluginsRunning := false }
            log := ss.sys.log ++ stamp ss.sys.loop.now res.1 }
        running := none }
    | some err =>
      { sys :=
          { ss.sys with
            log := ss.sys.log ++ stamp ss.sys.loop.now (res.1 ++ [Effect.rejected err]) }
        running := none }

/-- One step of a session. A delivered notification is handled as `deliver`
does, and a plugin run its dispatch starts becomes the run in progress. -/
def step (cfg : Config) (host : Host) (ss : Session) : Step → Session
  | .notify n =>
    let s1 := advance cfg host n.time ss.sys
    let o := handle cfg host s1.w s1.loop n.exists_ n.event n.filename
    { sys := deliver cfg host ss.sys n
      running :=
        match startedRun o.effects with
        | some r => some r
        | none => ss.running }
  | .settle outcome => settle outcome ss

/-- Run a session through a sequence of steps. -/
def steps (cfg : Config) (host : Host) (ss : Session) (l : List Step) : Session :=
  l.foldl (step cfg host) ss

/-- The notifications of a step sequence that arrive while no plugin run is in
progress, when every run that settles ends its loop: `busy` is the flag before
the first step. -/
def accepted : Bool → List Step → Nat
  | _, [] => 0
  | busy, .notify _ :: rest => (if busy then 0 else 1) + accepted true rest
  | _, .settle _ :: rest => accepted false rest

/-- The step sequence in which the run started by each notification settles,
as `outcome` tells, before the next notification arrives. -/
def settledEach (outcome : Nat → PluginOutcome) : List Notification → List Step
  | [] => []
  | n :: rest => Step.notify n :: Step.settle outcome :: settledEach outcome rest

def isInvokePlugin : Effect → Bool
  | .invokePlugin _ _ _ => true
  | _ => false

/-- The plugins called, in order of the calls. -/
def invoked : List Effect → List Plugin
  | [] => []
  | .invokePlugin plugin _ _ :: rest => plugin :: invoked rest
  | _ :: rest => invoked rest

/-- The log has no reload, stop or start call. -/
def Quiet (log : List (Nat × Effect)) : Prop :=
  ∀ e ∈ log, isInventoryCall e.2 = false ∧ isSandboxEnd e.2 = false ∧ isSandboxStart e.2 = false

/-- The state inside a burst of updates of the manifest `m` whose latest event
came at `time`: the watcher is open, exactly one timer is pending, the manifest
reload due one debounce after `time` and held in `timers.arcEvent`, and no
reload has happened yet. -/
def Armed (cfg : Config) (m : String) (time : Nat) (s : Sys) : Prop :=
  s.w.manifest = some m ∧ s.w.paused = false ∧ s.w.pluginsRunning = false ∧
    s.loop.now = time ∧
    (∃ id, s.w.timers.arcEvent = some id ∧
      s.loop.pending =
        [{ id := id, due := time + cfg.debounce, cb := Callback.manifestReload }]) ∧
    Quiet s.log

/-- How many calls of the log satisfy `p`. -/
def callCount (p : Effect → Bool) (log : List (Nat × Effect)) : Nat :=
  (log.filter (fun e => p e.2)).length

def isFingerprintCall : Effect → Bool
  | .fingerprintCall _ => true
  | _ => false

/-- The times at which the fingerprinter was called. -/
def fingerprintTimes (log : List (Nat × Effect)) : List Nat :=
  (log.filter (fun e => isFingerprintCall e.2)).map (fun e => e.1)

/-- The timer runs the fingerprint closure. -/
def isFingerprintTimer (t : Timer) : Bool := t.cb = Callback.fingerprint

/-- What holds of the timers in every state the watcher reaches: the pending
timers have distinct handles, all below the next handle, and are due no earlier
than the clock; the handles held in the two slots are below the next handle and
differ; and a pending timer is held in the slot of its closure. -/
def Sound (w : Watcher) (l : Loop) : Prop :=
  (l.pending.map (fun t => t.id)).Nodup ∧
    (∀ t ∈ l.pending, t.id < l.nextId ∧ l.now ≤ t.due) ∧
    (∀ i, w.timers.arcEvent = some i → i < l.nextId) ∧
    (∀ i, w.timers.fingerprint = some i → i < l.nextId) ∧
    (∀ t ∈ l.pending,
      if t.cb = Callback.fingerprint then w.timers.fingerprint = some t.id
      else w.timers.arcEvent = some t.id) ∧
    (∀ i, w.timers.arcEvent = some i → w.timers.fingerprint ≠ some i)

/-- The times at which the fingerprint timers of a firing sequence fire, for
a clock that starts at `now`. -/
def fingerprintFireTimes : Nat → List Timer → List Nat
  | _, [] => []
  | now, t :: rest =>
    (if t.cb = Callback.fingerprint then [max now t.due] else []) ++
      fingerprintFireTimes (max now t.due) rest

/-- The error a call reports through `update.error`, if it is such a call. -/
def errorOf : Effect → Option String
  | .error err => some err
  | _ => none

def isDone : Effect → Bool
  | .done _ => true
  | _ => false

/-! ## Observations on a dispatch -/

/-- Whether an event reaches the rule chain: it is not an ignored kind and none
of the two early returns of the pause gate is taken. -/
def passesGate (w : Watcher) (exists_ : Bool) (event : String) : Bool :=
  !ignoredEvents.contains event && !(w.pluginsRunning || (w.paused && exists_)) &&
    !(!w.paused && exists_)

/-- The five trigger rules, in the order of the handler. -/
inductive Rule where
  | manifest
  | preferences
  | shared
  | views
  | static
deriving DecidableEq, Repr

/-- The rule a call belongs to, when it is the action of a trigger rule. -/
def firedBy : Effect → Option Rule
  | .setTimeout _ .manifestReload _ => some .manifest
  | .setTimeout _ .preferencesReload _ => some .preferences
  | .setTimeout _ .fingerprint _ => some .static
  | .rehydrate a =>
    if a.only = some "shared" then some .shared
    else if a.only = some "views" then some .views
    else none
  | _ => none

/-- The trigger rules that acted in a dispatch, in order. -/
def fired (effects : List Effect) : List Rule := effects.filterMap firedBy

/-- Condition of the fifth rule: `anyChange && isStaticAsset && !isStaticJson`,
true only when both locals evaluate. -/
def staticCond (cfg : Config) (host : Host) (w : Watcher) (event filename : String) : Bool :=
  anyChange event &&
    (match isStaticAsset cfg host w filename with
     | .ok asset => asset
     | .error _ => false) &&
    (match isStaticJson cfg host w filename with
     | .ok json => !json
     | .error _ => false)

/-- The specification of the trigger resolver: the first rule, in the order
manifest, env/preferences, shared, views, static, whose condition is true. -/
def firstRule (cfg : Config) (host : Host) (w : Watcher) (event filename : String) :
    Option Rule :=
  ([ (Rule.manifest, manifestCond w event filename),
     (Rule.preferences, preferencesCond cfg host w event filename),
     (Rule.shared, sourceCond w.shared event filename),
     (Rule.views, sourceCond w.views event filename),
     (Rule.static, staticCond cfg host w event filename) ].find? (fun p => p.2)).map
    (fun p => p.1)

/-- The configuration-reload timer is scheduled by this call. -/
def isArcSchedule : Effect → Bool
  | .setTimeout _ .manifestReload _ => true
  | .setTimeout _ .preferencesReload _ => true
  | _ => false

/-- The fingerprint timer is scheduled by this call. -/
def isFingerprintSchedule : Effect → Bool
  | .setTimeout _ .fingerprint _ => true
  | _ => false

def isRehydrate : Effect → Bool
  | .rehydrate _ => true
  | _ => false

def isPluginRun : Effect → Bool
  | .runPlugins _ _ _ => true
  | _ => false

/-- The calls of the first four rules in closed form, for the state `w` and the
next timer handle `next`. -/
def chainEffects (cfg : Config) (host : Host) (w : Watcher) (next : Nat)
    (ev f : String) : List Effect :=
  if manifestCond w ev f then
    [Effect.clearTimeout w.timers.arcEvent,
     Effect.setTimeout next Callback.manifestReload cfg.debounce]
  else if preferencesCond cfg host w ev f then
    [Effect.clearTimeout w.timers.arcEvent,
     Effect.setTimeout next Callback.preferencesReload cfg.debounce]
  else if sourceCond w.shared ev f then [Effect.rehydrate rehydrateShared]
  else if sourceCond w.views ev f then [Effect.rehydrate rehydrateViews]
  else []

/-- One of the first four rules claims the event. -/
def claimed (cfg : Config) (host : Host) (w : Watcher) (ev f : String) : Bool :=
  manifestCond w ev f || preferencesCond cfg host w ev f ||
    sourceCond w.shared ev f || sourceCond w.views ev f

/-- The flag `restarting` after the rule chain. -/
def restartingAfter (cfg : Config) (host : Host) (w : Watcher) (ev f : String) : Bool :=
  manifestCond w ev f || preferencesCond cfg host w ev f

/-- The calls of the static rule and of the plugin stage in closed form, once
both locals have evaluated to `asset` and `json`. -/
def tailEffects (cfg : Config) (host : Host) (w : Watcher) (next : Nat)
    (ev f : String) (asset json : Bool) : List Effect :=
  (if !claimed cfg host w ev f && anyChange ev && asset && !json then
    [Effect.clearTimeout w.timers.fingerprint,
     Effect.setTimeout next Callback.fingerprint cfg.debounce]
   else []) ++
  (if !w.pluginsRunning && !json && !restartingAfter cfg host w ev f &&
      hasPlugins w.watcherPlugins && pluginEvents.contains ev then
    [Effect.runPlugins f ev (w.watcherPlugins.getD [])]
   else [])

/-- The notification is one only the plugins react to: the sentinel is
absent, the kind is add, update or remove after renormalisation, none of the
first four rules claims it, and the path is found to be neither a static asset
nor a `static.json`. -/
def pluginOnly (cfg : Config) (host : Host) (w : Watcher) (n : Notification) : Bool :=
  !n.exists_ && pluginEvents.contains (normalize n.event) &&
    !claimed cfg host w (normalize n.event) n.filename &&
    (match isStaticAsset cfg host w n.filename with
     | .ok asset => !asset
     | .error _ => false) &&
    (match isStaticJson cfg host w n.filename with
     | .ok json => !json
     | .error _ => false)

/-- The reading of "falls under the root" as a directory test, following the
spec's words: the root is a leading part of the path and ends at a path
separator or at the end of the path. -/
def underRoot (root path : String) : Bool :=
  root.data.isPrefixOf path.data &&
    ((path.data.drop root.data.length).isEmpty ||
      (path.data.drop root.data.length).head? = some '/' ||
      root.data.getLast? = some '/')

/-- The raw kinds the filesystem watcher reports. -/
inductive RawKind where
  | add
  | addDir
  | change
  | unlink
  | unlinkDir
  | ready
  | raw
deriving DecidableEq, Repr

/-- The string the filesystem watcher passes for a raw kind. -/
def RawKind.name : RawKind → String
  | .add => "add"
  | .addDir => "addDir"
  | .change => "change"
  | .unlink => "unlink"
  | .unlinkDir => "unlinkDir"
  | .ready => "ready"
  | .raw => "raw"

/-- The event normaliser as the spec words it: directory-add, directory-remove,
the ready signal and raw events are dropped, `change` becomes `update`,
`unlink` becomes `remove` and `add` passes through. -/
def normalizeRef : RawKind → Option String
  | .addDir => none
  | .unlinkDir => none
  | .ready => none
  | .raw => none
  | .change => some "update"
  | .unlink => some "remove"
  | .add => some "add"

/-! ## The WebSocket connection (`src/http/register-websocket/connection.js`)

The listener `connection` registers for the `message` event of a socket. -/

/-- A value read from a parsed message. -/
inductive JsValue where
  | undefined
  | null
  | bool (b : Bool)
  | number (n : Int)
  | string (s : String)
  | object
deriving DecidableEq, Repr

/-- Truthiness of a value. -/
def JsValue.truthy : JsValue → Bool
  | .undefined => false
  | .null => false
  | .bool b => b
  | .number n => n != 0
  | .string s => s != ""
  | .object => true

/-- What `JSON.parse` returns: `null`, a value without properties of its own
names (a boolean, number, string or array), or an object with its fields. -/
inductive Json where
  | null
  | plain
  | object (fields : List (String × JsValue))
deriving DecidableEq, Repr

/-- The expression `payload.action`: reading a property of `null` throws, a
value without the property gives `undefined`. -/
def Json.action : Json → Except String JsValue
  | .null => .error "TypeError: Cannot read properties of null (reading 'action')"
  | .plain => .ok .undefined
  | .object fields => .ok ((fields.lookup "action").getD .undefined)

/-- A WebSocket function of the inventory. -/
structure Lambda where
  name : String
deriving DecidableEq, Repr

/-- The value `msg`: the text of a text frame, the data of a binary frame. -/
inductive Body where
  | text (s : String)
  | buffer (data : String)
deriving DecidableEq, Repr

/-- The response an invocation calls back with. -/
structure Response where
  statusCode : Option Int
deriving DecidableEq, Repr

/-- The arguments `invoke` passes to its callback. -/
structure InvokeResult where
  err : Option String
  resp : Option Response
deriving DecidableEq, Repr

/-- The collaborators of a connection: `JSON.parse` (`none` when it throws),
the inventory getter `get.ws`, and the outcome of an invocation. -/
structure WsHost where
  parse : String → Option Json
  getWs : JsValue → Option Lambda
  invoke : Option Lambda → Body → InvokeResult

/-- One observable call made by the connection. -/
inductive WsEffect where
  | status (msg : String)
  | invoke (lambda : Option Lambda) (body : Body) (connectionId : String)
  | send (text : String)
deriving DecidableEq, Repr

/-- The text sent back on a failed invocation. -/
def errorMessage (connectionId : String) : String :=
  "\x7b\"message\":\"Internal server error\",\"connectionId\":\"" ++ connectionId ++
    "\",\"requestId\":\"xxxxxx=\"\x7d"

/-- The test `err || resp && resp.statusCode >= 400`. -/
def failed (r : InvokeResult) : Bool :=
  r.err.isSome ||
    (match r.resp with
     | none => false
     | some resp =>
       match resp.statusCode with
       | none => false
       | some code => decide (code ≥ 400))

/-- The callback `respondToError`. -/
def respondToError (connectionId : String) (r : InvokeResult) : List WsEffect :=
  if failed r then [WsEffect.send (errorMessage connectionId)] else []

/-- The local `lambda` after the `try` block: the function for the message's
action, when the message parses, its action is truthy and the getter knows it. -/
def actionLambda (host : WsHost) (data : String) : Option Lambda :=
  match host.parse data with
  | none => none
  | some payload =>
    match payload.action with
    | .error _ => none
    | .ok action => if action.truthy then host.getWs action else none

/-- The listener of the `message` event. -/
def message (host : WsHost) (connectionId : String) (data : String) (isBinary : Bool) :
    List WsEffect :=
  let msg := if isBinary then Body.buffer data else Body.text data
  match actionLambda host data with
  | some lambda =>
    [WsEffect.status ("ws/" ++ lambda.name ++ ": " ++ connectionId),
     WsEffect.invoke (some lambda) msg connectionId] ++
      respondToError connectionId (host.invoke (some lambda) msg)
  | none =>
    [WsEffect.status ("ws/default: " ++ connectionId),
     WsEffect.invoke (host.getWs (JsValue.string "default")) msg connectionId] ++
      respondToError connectionId (host.invoke (host.getWs (JsValue.string "default")) msg)

def isInvoke : WsEffect → Bool
  | .invoke _ _ _ => true
  | _ => false

def isSend : WsEffect → Bool
  | .send _ => true
  | _ => false

/-- The function the spec routes a message to: the one registered for its
action when the message parses as JSON, has a truthy action field and the
inventory has a function for that action; otherwise the one registered as
`default`. -/
def routed (host : WsHost) (data : String) : Option Lambda :=
  match host.parse data with
  | some (Json.object fields) =>
    match fields.lookup "action" with
    | some action =>
      if action.truthy then
        match host.getWs action with
        | some lambda => some lambda
        | none => host.getWs (JsValue.string "default")
      else host.getWs (JsValue.string "default")
    | none => host.getWs (JsValue.string "default")
  | _ => host.getWs (JsValue.string "default")

/-! ## Concrete projects -/

/-- A host with POSIX paths; every reload, fingerprint, stop and start succeeds. -/
def posixHost (reloaded : Inventory) : Host :=
  { join := posixJoin
    sep := "/"
    inventory := fun _ => .ok reloaded
    fingerprint := fun _ => .ok true
    fingerprintMs := fun _ => 0
    sandboxEnd := fun _ => none
    sandboxStart := fun _ => none
    restartMs := fun _ => 0 }

/-- A project in `/proj` with a manifest, preferences, shared and views roots, a
static folder and one watcher plugin. -/
def fullInventory : Inventory :=
  { inv :=
    { project :=
        { cwd := "/proj", manifest := some "/proj/app.arc",
          localPreferencesFile := some "/proj/prefs.arc",
          globalPreferencesFile := some "/home/dev/.prefs.arc" }
      static := some { folder := some "public" }
      shared := some { src := some "/proj/src/shared" }
      views := some { src := some "/proj/src/views" }
      watcher := some [{ plugin := "lint" }] } }

/-- The same project with its manifest kept inside the shared-source root. -/
def overlapInventory : Inventory :=
  { inv := { fullInventory.inv with
      project := { fullInventory.inv.project with manifest := some "/proj/src/shared/app.arc" } } }

/-- A project with a shared-source root and one plugin, without static serving. -/
def sharedInventory : Inventory :=
  { inv := { fullInventory.inv with static := none, views := none } }

/-- A project with static serving and neither a shared nor a views root. -/
def staticInventory : Inventory :=
  { inv := { fullInventory.inv with shared := none, views := none } }

/-- A POSIX host on which the inventory reader, the fingerprinter and the
engine's stop fail, and the engine's start succeeds. -/
def failingHost : Host :=
  { join := posixJoin
    sep := "/"
    inventory := fun _ => .error "Invalid manifest"
    fingerprint := fun _ => .error "EACCES"
    fingerprintMs := fun _ => 0
    sandboxEnd := fun _ => some "Server not running"
    sandboxStart := fun _ => none
    restartMs := fun _ => 0 }

/-- A project without static serving and with three watcher plugins. -/
def pluginInventory : Inventory :=
  { inv := { fullInventory.inv with
      static := none, shared := none, views := none,
      watcher := some [{ plugin := "first" }, { plugin := "second" }, { plugin := "third" }] } }

/-- The second plugin rejects with `undefined`; the others complete. -/
def secondRejectsUndefined : Nat → PluginOutcome
  | 1 => .raises .nullish
  | _ => .completes

/-- The second plugin throws an `Error`; the others complete. -/
def secondThrowsError : Nat → PluginOutcome
  | 1 => .raises (.value (some "boom"))
  | _ => .completes

/-- Every plugin completes. -/
def allComplete : Nat → PluginOutcome := fun _ => .completes

def projConfig : Config := { cwd := "/proj", debounce := 25, symlink := true }

def idleLoop : Loop := { now := 0, nextId := 0, pending := [] }

/-- The session `runWatcher` starts with for `inventory`. -/
def idleSession (inventory : Inventory) : Session :=
  { sys := { w := initWatcher inventory, loop := idleLoop, log := [] }, running := none }

/-- An update of a function's source file at `time`, with the sentinel absent. -/
def sourceChange (time : Nat) : Notification :=
  changeAt "/proj/src/http/get-index/index.js" time

/-- A connection host that parses two sample messages, knows the functions
`default` and `echo`, and whose `echo` answers with status 500. -/
def sampleWsHost : WsHost :=
  { parse := fun data =>
      if data = "\x7b\"action\":\"echo\"\x7d" then
        some (Json.object [("action", JsValue.string "echo")])
      else if data = "\x7b\"action\":\"nope\"\x7d" then
        some (Json.object [("action", JsValue.string "nope")])
      else if data = "null" then some Json.null
      else none
    getWs := fun name =>
      if name = JsValue.string "default" then some { name := "default" }
      else if name = JsValue.string "echo" then some { name := "echo" }
      else none
    invoke := fun lambda _ =>
      if lambda = some { name := "echo" } then
        { err := none, resp := some { statusCode := some 500 } }
      else { err := none, resp := some { statusCode := some 200 } } }

/-- A notification that a file was added. -/
def addAt (path : String) (time : Nat) : Notification :=
  { time := time, exists_ := false, event := "add", filename := path }

/-- A manifest change at time 5 and an asset added at time 8, whose plugin run
has settled: a reload timer and a fingerprint timer are left pending. -/
def timersPending : List Step :=
  [Step.notify (changeAt "/proj/app.arc" 5), Step.notify (addAt "/proj/public/old.png" 8),
   Step.settle allComplete]

/-! ## Theorems -/

theorem gate_open {w : Watcher} {exists_ : Bool} {event : String}
    (hgate : passesGate w exists_ event = true) :
    ignoredEvents.contains event = false ∧ w.pluginsRunning = false ∧ exists_ = false := by
  unfold passesGate at hgate
  cases hp : w.paused <;> cases hr : w.pluginsRunning <;> cases exists_ <;>
    simp_all

theorem handle_gate_open (cfg : Config) (host : Host) (w : Watcher) (loop : Loop)
    (exists_ : Bool) (event filename : String) (hgate : passesGate w exists_ event = true) :
    handle cfg host w loop exists_ event filename =
      rules cfg host (normalize event) filename
        { w := (unpause cfg w false).1, loop := loop, ran := false, restarting := false,
          effects := (unpause cfg w false).2 ++
            [Effect.debugStatus ("Watcher: '" ++ normalize event ++ "' on " ++ filename)] } := by
  obtain ⟨hign, hrun, hex⟩ := gate_open hgate
  subst hex
  have hign' : event ∉ ignoredEvents := by simpa using hign
  unfold handle
  simp [hign', hrun]

/-- The first four rules in closed form: the first one whose condition holds acts. -/
theorem chain_eq (cfg : Config) (host : Host) (ev f : String) (r : Run)
    (hran : r.ran = false) :
    viewsRule ev f (sharedRule ev f (preferencesRule cfg host ev f (manifestRule cfg ev f r)))
      = if manifestCond r.w ev f then
          scheduleArcEvent cfg Callback.manifestReload { r with ran := true, restarting := true }
        else if preferencesCond cfg host r.w ev f then
          scheduleArcEvent cfg Callback.preferencesReload
            { r with ran := true, restarting := true }
        else if sourceCond r.w.shared ev f then
          { r with ran := true, effects := r.effects ++ [Effect.rehydrate rehydrateShared] }
        else if sourceCond r.w.views ev f then
          { r with ran := true, effects := r.effects ++ [Effect.rehydrate rehydrateViews] }
        else r := by
  by_cases h1 : manifestCond r.w ev f = true
  · simp [manifestRule, preferencesRule, sharedRule, viewsRule, h1, scheduleArcEvent]
  · by_cases h2 : preferencesCond cfg host r.w ev f = true
    · simp [manifestRule, preferencesRule, sharedRule, viewsRule, h1, h2, hran, scheduleArcEvent]
    · by_cases h3 : sourceCond r.w.shared ev f = true
      · simp [manifestRule, preferencesRule, sharedRule, viewsRule, h1, h2, h3, hran]
      · by_cases h4 : sourceCond r.w.views ev f = true
        · simp [manifestRule, preferencesRule, sharedRule, viewsRule, h1, h2, h3, h4, hran]
        · simp [manifestRule, preferencesRule, sharedRule, viewsRule, h1, h2, h3, h4, hran]

@[simp] theorem clearTimeout_nextId (l : Loop) (h : Option Nat) :
    (l.clearTimeout h).nextId = l.nextId := by
  cases h <;> rfl

@[simp] theorem clearTimeout_now (l : Loop) (h : Option Nat) :
    (l.clearTimeout h).now = l.now := by
  cases h <;> rfl

theorem isStaticAsset_congr (cfg : Config) (host : Host) (a b : Watcher) (f : String)
    (h1 : a.inv = b.inv) (h2 : a.staticFolder = b.staticFolder) :
    isStaticAsset cfg host a f = isStaticAsset cfg host b f := by
  unfold isStaticAsset; rw [h1, h2]

theorem isStaticJson_congr (cfg : Config) (host : Host) (a b : Watcher) (f : String)
    (h1 : a.inv = b.inv) (h2 : a.staticFolder = b.staticFolder) (h3 : a.shared = b.shared) :
    isStaticJson cfg host a f = isStaticJson cfg host b f := by
  unfold isStaticJson; rw [h1, h2, h3]

@[simp] theorem isStaticAsset_scheduleArc (cfg : Config) (host : Host) (cb : Callback)
    (r : Run) (f : String) :
    isStaticAsset cfg host (scheduleArcEvent cfg cb r).w f = isStaticAsset cfg host r.w f := rfl

@[simp] theorem isStaticJson_scheduleArc (cfg : Config) (host : Host) (cb : Callback)
    (r : Run) (f : String) :
    isStaticJson cfg host (scheduleArcEvent cfg cb r).w f = isStaticJson cfg host r.w f := rfl

/-- The calls of one run of the rule chain, in closed form. -/
theorem rules_effects (cfg : Config) (host : Host) (ev f : String) (r : Run)
    (hran : r.ran = false) (hres : r.restarting = false) :
    (rules cfg host ev f r).effects =
      r.effects ++ chainEffects cfg host r.w r.loop.nextId ev f ++
        (match isStaticAsset cfg host r.w f, isStaticJson cfg host r.w f with
         | .ok asset, .ok json => tailEffects cfg host r.w r.loop.nextId ev f asset json
         | _, _ => []) := by
  unfold rules
  simp only []
  rw [chain_eq cfg host ev f r hran]
  by_cases h1 : manifestCond r.w ev f = true
  · simp only [h1, if_true]
    simp only [isStaticAsset_scheduleArc, isStaticJson_scheduleArc]
    rcases isStaticAsset cfg host r.w f with ea | a <;>
      rcases isStaticJson cfg host r.w f with ej | j <;>
      simp [Run.finish, scheduleArcEvent, chainEffects, tailEffects, claimed, restartingAfter,
        staticRule, pluginStage, h1, Loop.setTimeout]
  · simp only [h1, Bool.false_eq_true, if_false]
    by_cases h2 : preferencesCond cfg host r.w ev f = true
    · simp only [h2, if_true, isStaticAsset_scheduleArc, isStaticJson_scheduleArc]
      rcases isStaticAsset cfg host r.w f with ea | a <;>
        rcases isStaticJson cfg host r.w f with ej | j <;>
        simp [Run.finish, scheduleArcEvent, chainEffects, tailEffects, claimed, restartingAfter,
          staticRule, pluginStage, h1, h2, Loop.setTimeout]
    · simp only [h2, Bool.false_eq_true, if_false]
      by_cases h3 : sourceCond r.w.shared ev f = true
      · simp only [h3, if_true]
        rcases isStaticAsset cfg host r.w f with ea | a <;>
          rcases isStaticJson cfg host r.w f with ej | j <;>
          simp [Run.finish, chainEffects, tailEffects, claimed, restartingAfter,
            staticRule, pluginStage, h1, h2, h3, hres]
        split <;> simp
      · simp only [h3, Bool.false_eq_true, if_false]
        by_cases h4 : sourceCond r.w.views ev f = true
        · simp only [h4, if_true]
          rcases isStaticAsset cfg host r.w f with ea | a <;>
            rcases isStaticJson cfg host r.w f with ej | j <;>
            simp [Run.finish, chainEffects, tailEffects, claimed, restartingAfter,
              staticRule, pluginStage, h1, h2, h3, h4, hres]
          split <;> simp
        · simp only [h4, Bool.false_eq_true, if_false]
          rcases isStaticAsset cfg host r.w f with ea | a <;>
            rcases isStaticJson cfg host r.w f with ej | j <;>
            simp [Run.finish, chainEffects, tailEffects, claimed, restartingAfter,
              staticRule, pluginStage, h1, h2, h3, h4, hres, hran, scheduleFingerprint,
              Loop.setTimeout]
          split_ifs <;> simp_all

theorem unpause_fst (cfg : Config) (w : Watcher) :
    (unpause cfg w false).1 = { w with paused := false } := by
  unfold unpause
  cases hp : w.paused
  · cases w; simp_all
  · simp

/-- The calls of one dispatch that reaches the rule chain, in closed form. -/
theorem handle_effects (cfg : Config) (host : Host) (w : Watcher) (loop : Loop)
    (exists_ : Bool) (event filename : String) (hgate : passesGate w exists_ event = true) :
    (handle cfg host w loop exists_ event filename).effects =
      (unpause cfg w false).2 ++
        [Effect.debugStatus ("Watcher: '" ++ normalize event ++ "' on " ++ filename)] ++
        chainEffects cfg host w loop.nextId (normalize event) filename ++
        (match isStaticAsset cfg host w filename, isStaticJson cfg host w filename with
         | .ok asset, .ok json =>
           tailEffects cfg host w loop.nextId (normalize event) filename asset json
         | _, _ => []) := by
  rw [handle_gate_open cfg host w loop exists_ event filename hgate, rules_effects _ _ _ _ _ rfl rfl]
  have hrun := (gate_open hgate).2.1
  simp only [unpause_fst]
  rfl

theorem fired_append (a b : List Effect) : fired (a ++ b) = fired a ++ fired b := by
  simp [fired, List.filterMap_append]

theorem fired_unpause (cfg : Config) (w : Watcher) : fired (unpause cfg w false).2 = [] := by
  unfold unpause
  cases w.paused <;> cases cfg.symlink <;> simp [fired, firedBy, rehydrateAll]

theorem fired_tailEffects (cfg : Config) (host : Host) (w : Watcher) (next : Nat)
    (ev f : String) (a j : Bool) :
    fired (tailEffects cfg host w next ev f a j) =
      if !claimed cfg host w ev f && anyChange ev && a && !j then [Rule.static] else [] := by
  unfold tailEffects
  rw [fired_append]
  split_ifs <;> simp [fired, firedBy]

theorem fired_handle (cfg : Config) (host : Host) (w : Watcher) (loop : Loop) (exists_ : Bool)
    (event filename : String) (hgate : passesGate w exists_ event = true) :
    fired (handle cfg host w loop exists_ event filename).effects
      = (firstRule cfg host w (normalize event) filename).toList := by
  rw [handle_effects cfg host w loop exists_ event filename hgate]
  simp only [fired_append, fired_unpause]
  generalize normalize event = ev
  unfold chainEffects firstRule staticCond
  by_cases h1 : manifestCond w ev filename = true <;>
  by_cases h2 : preferencesCond cfg host w ev filename = true <;>
  by_cases h3 : sourceCond w.shared ev filename = true <;>
  by_cases h4 : sourceCond w.views ev filename = true <;>
  rcases isStaticAsset cfg host w filename with ea | a <;>
  rcases isStaticJson cfg host w filename with ej | j <;>
  simp [h1, h2, h3, h4, fired_tailEffects, claimed, rehydrateShared, rehydrateViews] <;>
  simp [fired, firedBy]
  all_goals (split <;> simp)

theorem any_unpause (cfg : Config) (w : Watcher) (p : Effect → Bool)
    (hs : ∀ m, p (Effect.status m) = false) (hr : ∀ a, p (Effect.rehydrate a) = false) :
    (unpause cfg w false).2.any p = false := by
  unfold unpause
  cases w.paused <;> cases cfg.symlink <;> simp [hs, hr]

theorem arc_chain (cfg : Config) (host : Host) (w : Watcher) (next : Nat) (ev f : String) :
    (chainEffects cfg host w next ev f).any isArcSchedule = restartingAfter cfg host w ev f := by
  unfold chainEffects restartingAfter
  split_ifs <;> simp_all [isArcSchedule]

theorem arc_tail (cfg : Config) (host : Host) (w : Watcher) (next : Nat) (ev f : String)
    (a j : Bool) : (tailEffects cfg host w next ev f a j).any isArcSchedule = false := by
  unfold tailEffects
  rw [List.any_append]
  split_ifs <;> simp [isArcSchedule]

theorem plugin_chain (cfg : Config) (host : Host) (w : Watcher) (next : Nat) (ev f : String) :
    (chainEffects cfg host w next ev f).any isPluginRun = false := by
  unfold chainEffects
  split_ifs <;> simp [isPluginRun]

theorem plugin_tail (cfg : Config) (host : Host) (w : Watcher) (next : Nat) (ev f : String)
    (a j : Bool) :
    (tailEffects cfg host w next ev f a j).any isPluginRun =
      (!w.pluginsRunning && !j && !restartingAfter cfg host w ev f &&
        hasPlugins w.watcherPlugins && pluginEvents.contains ev) := by
  unfold tailEffects
  rw [List.any_append]
  split_ifs with h1 h2 h2
  · simp [isPluginRun]; simpa using h2
  · simp [isPluginRun]; simpa using h2
  · simp [isPluginRun]; simpa using h2
  · simp [isPluginRun]; simpa using h2

theorem fingerprint_chain (cfg : Config) (host : Host) (w : Watcher) (next : Nat)
    (ev f : String) : (chainEffects cfg host w next ev f).any isFingerprintSchedule = false := by
  unfold chainEffects
  split_ifs <;> simp [isFingerprintSchedule]

theorem fingerprint_tail (cfg : Config) (host : Host) (w : Watcher) (next : Nat)
    (ev f : String) (a j : Bool) :
    (tailEffects cfg host w next ev f a j).any isFingerprintSchedule =
      (!claimed cfg host w ev f && anyChange ev && a && !j) := by
  unfold tailEffects
  rw [List.any_append]
  split_ifs with h1 h2 h2
  · simp [isFingerprintSchedule]; simpa using h1
  · simp [isFingerprintSchedule]; simpa using h1
  · simp [isFingerprintSchedule]; simpa using h1
  · simp [isFingerprintSchedule]; simpa using h1

/-- The configuration-reload timer is scheduled exactly when one of the first
two rules claims the event. -/
theorem arc_handle (cfg : Config) (host : Host) (w : Watcher) (loop : Loop) (exists_ : Bool)
    (event filename : String) (hgate : passesGate w exists_ event = true) :
    (handle cfg host w loop exists_ event filename).effects.any isArcSchedule
      = restartingAfter cfg host w (normalize event) filename := by
  rw [handle_effects cfg host w loop exists_ event filename hgate]
  simp only [List.any_append, any_unpause cfg w isArcSchedule (fun _ => rfl) (fun _ => rfl),
    arc_chain]
  rcases isStaticAsset cfg host w filename with ea | a <;>
  rcases isStaticJson cfg host w filename with ej | j <;>
  simp [arc_tail, isArcSchedule]

/-- The plugin pipeline starts exactly when both static tests evaluate, the
event is no `static.json` write, the dispatch is not restarting, a plugin is
registered and the kind is a plugin event. -/
theorem plugin_handle (cfg : Config) (host : Host) (w : Watcher) (loop : Loop) (exists_ : Bool)
    (event filename : String) (hgate : passesGate w exists_ event = true) :
    (handle cfg host w loop exists_ event filename).effects.any isPluginRun
      = match isStaticAsset cfg host w filename, isStaticJson cfg host w filename with
        | .ok _, .ok json =>
          !json && !restartingAfter cfg host w (normalize event) filename &&
            hasPlugins w.watcherPlugins && pluginEvents.contains (normalize event)
        | _, _ => false := by
  rw [handle_effects cfg host w loop exists_ event filename hgate]
  have hrun := (gate_open hgate).2.1
  simp only [List.any_append, any_unpause cfg w isPluginRun (fun _ => rfl) (fun _ => rfl),
    plugin_chain]
  rcases isStaticAsset cfg host w filename with ea | a <;>
  rcases isStaticJson cfg host w filename with ej | j <;>
  simp [plugin_tail, isPluginRun, hrun]

/-- The fingerprint timer is scheduled exactly when no earlier rule claimed the
event and the static rule's condition holds. -/
theorem fingerprint_handle (cfg : Config) (host : Host) (w : Watcher) (loop : Loop)
    (exists_ : Bool) (event filename : String) (hgate : passesGate w exists_ event = true) :
    (handle cfg host w loop exists_ event filename).effects.any isFingerprintSchedule
      = match isStaticAsset cfg host w filename, isStaticJson cfg host w filename with
        | .ok asset, .ok json =>
          !claimed cfg host w (normalize event) filename && anyChange (normalize event) &&
            asset && !json
        | _, _ => false := by
  rw [handle_effects cfg host w loop exists_ event filename hgate]
  simp only [List.any_append,
    any_unpause cfg w isFingerprintSchedule (fun _ => rfl) (fun _ => rfl), fingerprint_chain]
  rcases isStaticAsset cfg host w filename with ea | a <;>
  rcases isStaticJson cfg host w filename with ej | j <;>
  simp [fingerprint_tail, isFingerprintSchedule]

theorem countP_le_fired (l : List Effect) : l.countP isArcSchedule ≤ (fired l).length := by
  induction l with
  | nil => simp [fired]
  | cons e l ih =>
    unfold fired at ih ⊢
    rw [List.countP_cons]
    cases e with
    | setTimeout id cb delay => cases cb <;> simp [isArcSchedule, firedBy, List.filterMap_cons] <;> omega
    | rehydrate a =>
      simp only [isArcSchedule, Bool.false_eq_true, if_false, Nat.add_zero]
      exact le_trans ih (List.Sublist.length_le (List.Sublist.filterMap _ (List.sublist_cons_self _ _)))
    | _ => simpa [isArcSchedule, firedBy, List.filterMap_cons] using ih

/-- A dispatch that schedules the configuration-reload timer starts no plugin run. -/
theorem restart_suppresses_plugins (cfg : Config) (host : Host) (w : Watcher)
    (loop : Loop) (exists_ : Bool) (event filename : String)
    (hgate : passesGate w exists_ event = true) :
    (handle cfg host w loop exists_ event filename).effects.any isArcSchedule = true →
      (handle cfg host w loop exists_ event filename).effects.any isPluginRun = false := by
  rw [plugin_handle cfg host w loop exists_ event filename hgate,
    arc_handle cfg host w loop exists_ event filename hgate]
  intro h
  rcases isStaticAsset cfg host w filename with ea | a <;>
  rcases isStaticJson cfg host w filename with ej | j <;>
  simp [h]

/-! ## The claims -/

/-- C1: for every event that gets past the pause gate, the trigger rules that
act in the dispatch are exactly the first rule, in the order manifest,
env/preferences, shared, views, static, whose condition is true, so at most one
of them acts; and an update of the manifest path causes no shared-mode
rehydration, whatever the shared-source root is. -/
theorem C1_first_matching_rule_acts (cfg : Config) (host : Host) (w : Watcher) (loop : Loop)
    (exists_ : Bool) (event filename : String) (hgate : passesGate w exists_ event = true) :
    fired (handle cfg host w loop exists_ event filename).effects
        = (firstRule cfg host w (normalize event) filename).toList ∧
      (fired (handle cfg host w loop exists_ event filename).effects).length ≤ 1 ∧
      (normalize event = "update" → some filename = w.manifest →
        ∀ a, a.only = some "shared" →
          Effect.rehydrate a ∉ (handle cfg host w loop exists_ event filename).effects) := by
  have hf := fired_handle cfg host w loop exists_ event filename hgate
  refine ⟨hf, ?_, ?_⟩
  · rw [hf]; cases firstRule cfg host w (normalize event) filename <;> simp
  · intro hev hm a ha hmem
    have hfirst : firstRule cfg host w (normalize event) filename = some Rule.manifest := by
      simp [firstRule, manifestCond, fileUpdate, hev, hm]
    have : Rule.shared ∈ fired (handle cfg host w loop exists_ event filename).effects := by
      unfold fired
      rw [List.mem_filterMap]
      exact ⟨_, hmem, by simp [firedBy, ha]⟩
    rw [hf, hfirst] at this
    simp at this

/-- C1 at a manifest kept inside the shared-source root: only the manifest rule acts. -/
theorem C1_first_matching_rule_acts_witness :
    fired (handle projConfig (posixHost overlapInventory) (initWatcher overlapInventory)
        idleLoop false "change" "/proj/src/shared/app.arc").effects = [Rule.manifest] :=
  (C1_first_matching_rule_acts projConfig (posixHost overlapInventory)
    (initWatcher overlapInventory) idleLoop false "change" "/proj/src/shared/app.arc"
    (by decide)).1.trans (by decide)

/-- C2, refuted as stated: an update under the shared-source root gets past the
pause gate, is claimed by the shared rule, and still starts the plugin pipeline. -/
theorem C2_shared_change_runs_plugins :
    passesGate (initWatcher sharedInventory) false "change" = true ∧
      fired (handle projConfig (posixHost sharedInventory) (initWatcher sharedInventory)
        idleLoop false "change" "/proj/src/shared/util.js").effects = [Rule.shared] ∧
      (handle projConfig (posixHost sharedInventory) (initWatcher sharedInventory)
        idleLoop false "change" "/proj/src/shared/util.js").effects.any isPluginRun = true := by
  decide

/-- C2, amended: for every event that gets past the pause gate, the plugin
pipeline is not started when the dispatch scheduled the configuration-reload
timer; it is started exactly when that timer was not scheduled, both static
tests evaluated with the event not being a `static.json` write, a plugin is
registered and the kind is add, update or remove, whether or not a rehydration
or the fingerprint timer was triggered in the same dispatch. -/
theorem C2_plugins_suppressed_by_restart_only (cfg : Config) (host : Host) (w : Watcher)
    (loop : Loop) (exists_ : Bool) (event filename : String)
    (hgate : passesGate w exists_ event = true) :
    ((handle cfg host w loop exists_ event filename).effects.any isArcSchedule = true →
      (handle cfg host w loop exists_ event filename).effects.any isPluginRun = false) ∧
    ((handle cfg host w loop exists_ event filename).effects.any isPluginRun = true ↔
      (handle cfg host w loop exists_ event filename).effects.any isArcSchedule = false ∧
        (∃ asset, isStaticAsset cfg host w filename = .ok asset) ∧
        isStaticJson cfg host w filename = .ok false ∧
        hasPlugins w.watcherPlugins = true ∧ normalize event ∈ pluginEvents) := by
  rw [plugin_handle cfg host w loop exists_ event filename hgate,
    arc_handle cfg host w loop exists_ event filename hgate]
  rcases isStaticAsset cfg host w filename with ea | a <;>
  rcases isStaticJson cfg host w filename with ej | j <;>
  cases restartingAfter cfg host w (normalize event) filename <;>
  simp
  all_goals (cases j <;> simp)

/-- C2 amended, at a preferences change with a plugin registered: no plugin runs. -/
theorem C2_plugins_suppressed_by_restart_only_witness :
    (handle projConfig (posixHost fullInventory) (initWatcher fullInventory)
      idleLoop false "add" "/proj/prefs.arc").effects.any isPluginRun = false :=
  (C2_plugins_suppressed_by_restart_only projConfig (posixHost fullInventory)
    (initWatcher fullInventory) idleLoop false "add" "/proj/prefs.arc" (by decide)).1 (by decide)


/-- C3: for every event that gets past the pause gate, the configuration-reload
timer is scheduled in the dispatch exactly when the kind is update and the path
is the manifest path, or the kind is add, update or remove and the path is the
`.env` file or one of the two preferences files; it is scheduled at most once,
and when it is scheduled no plugin run starts. -/
theorem C3_reload_timer_iff_config_change (cfg : Config) (host : Host) (w : Watcher)
    (loop : Loop) (exists_ : Bool) (event filename : String)
    (hgate : passesGate w exists_ event = true) :
    ((handle cfg host w loop exists_ event filename).effects.any isArcSchedule = true ↔
      (normalize event = "update" ∧ some filename = w.manifest) ∨
      ((normalize event = "add" ∨ normalize event = "update" ∨ normalize event = "remove") ∧
        (filename = host.join [cfg.cwd, ".env"] ∨
          some filename = w.inv.project.localPreferencesFile ∨
          some filename = w.inv.project.globalPreferencesFile))) ∧
    (handle cfg host w loop exists_ event filename).effects.countP isArcSchedule ≤ 1 ∧
    ((handle cfg host w loop exists_ event filename).effects.any isArcSchedule = true →
      (handle cfg host w loop exists_ event filename).effects.any isPluginRun = false) := by
  refine ⟨?_, ?_, (restart_suppresses_plugins cfg host w loop exists_ event filename hgate)⟩
  · rw [arc_handle cfg host w loop exists_ event filename hgate]
    simp [restartingAfter, manifestCond, preferencesCond, fileUpdate, anyChange, or_assoc]
  · exact le_trans (countP_le_fired _)
      (by rw [fired_handle cfg host w loop exists_ event filename hgate]
          cases firstRule cfg host w (normalize event) filename <;> simp)

/-- C3 at the removal of the `.env` file: the timer is scheduled. -/
theorem C3_reload_timer_iff_config_change_witness :
    (handle projConfig (posixHost fullInventory) (initWatcher fullInventory)
      idleLoop false "unlink" "/proj/.env").effects.any isArcSchedule = true :=
  (C3_reload_timer_iff_config_change projConfig (posixHost fullInventory)
    (initWatcher fullInventory) idleLoop false "unlink" "/proj/.env" (by decide)).1.2
    (Or.inr ⟨by decide, by decide⟩)

/-- C5: a non-ignored event that arrives while a plugin run is in progress, or
while the watcher is paused and the sentinel exists, changes nothing: the
watcher state, the timers and the event loop are the same, no call is made and
nothing is thrown. -/
theorem C5_busy_or_paused_event_dropped (cfg : Config) (host : Host) (w : Watcher)
    (loop : Loop) (exists_ : Bool) (event filename : String)
    (hign : ignoredEvents.contains event = false)
    (hbusy : w.pluginsRunning = true ∨ (w.paused = true ∧ exists_ = true)) :
    handle cfg host w loop exists_ event filename
      = { w := w, loop := loop, effects := [], thrown := none } := by
  have hign' : event ∉ ignoredEvents := by simpa using hign
  unfold handle
  rcases hbusy with h | ⟨h1, h2⟩
  · simp [hign', h]
  · simp [hign', h1, h2]

/-- C5 at a manifest update seen while paused with the sentinel present. -/
theorem C5_busy_or_paused_event_dropped_witness :
    handle projConfig (posixHost fullInventory)
        { initWatcher fullInventory with paused := true } idleLoop true "change" "/proj/app.arc"
      = { w := { initWatcher fullInventory with paused := true }, loop := idleLoop,
          effects := [], thrown := none } :=
  C5_busy_or_paused_event_dropped projConfig (posixHost fullInventory)
    { initWatcher fullInventory with paused := true } idleLoop true "change" "/proj/app.arc"
    (by decide) (Or.inr ⟨rfl, rfl⟩)

/-- C7: a non-ignored event that arrives while the watcher is not paused, no
plugin run is in progress and the sentinel exists sets `paused`, emits the one
status message `Watcher temporarily paused` and does nothing else. -/
theorem C7_sentinel_pauses_watcher (cfg : Config) (host : Host) (w : Watcher)
    (loop : Loop) (event filename : String)
    (hign : ignoredEvents.contains event = false)
    (hp : w.paused = false) (hrun : w.pluginsRunning = false) :
    handle cfg host w loop true event filename
      = { w := { w with paused := true }, loop := loop,
          effects := [Effect.status "Watcher temporarily paused"], thrown := none } := by
  have hign' : event ∉ ignoredEvents := by simpa using hign
  unfold handle
  simp [hign', hp, hrun]

/-- C7 at a shared-source update that arrives with the sentinel present. -/
theorem C7_sentinel_pauses_watcher_witness :
    handle projConfig (posixHost fullInventory) (initWatcher fullInventory) idleLoop true
        "change" "/proj/src/shared/util.js"
      = { w := { initWatcher fullInventory with paused := true }, loop := idleLoop,
          effects := [Effect.status "Watcher temporarily paused"], thrown := none } :=
  C7_sentinel_pauses_watcher projConfig (posixHost fullInventory) (initWatcher fullInventory)
    idleLoop "change" "/proj/src/shared/util.js" (by decide) rfl rfl

theorem chain_prepend (cfg : Config) (host : Host) (ev f : String) (r : Run)
    (pre : List Effect) :
    viewsRule ev f (sharedRule ev f (preferencesRule cfg host ev f
        (manifestRule cfg ev f { r with effects := pre ++ r.effects })))
      = { viewsRule ev f (sharedRule ev f (preferencesRule cfg host ev f
            (manifestRule cfg ev f r))) with
          effects := pre ++ (viewsRule ev f (sharedRule ev f (preferencesRule cfg host ev f
            (manifestRule cfg ev f r)))).effects } := by
  unfold viewsRule sharedRule preferencesRule manifestRule
  by_cases h1 : manifestCond r.w ev f = true
  · simp [h1, scheduleArcEvent]
  · by_cases hr : r.ran = true
    · simp [h1, hr]
    · by_cases h2 : preferencesCond cfg host r.w ev f = true
      · simp [h1, h2, hr, scheduleArcEvent]
      · by_cases h3 : sourceCond r.w.shared ev f = true
        · simp [h1, h2, h3, hr]
        · by_cases h4 : sourceCond r.w.views ev f = true
          · simp [h1, h2, h3, h4, hr]
          · simp [h1, h2, h3, h4, hr]

theorem staticRule_prepend (cfg : Config) (ev : String) (a j : Bool) (r : Run)
    (pre : List Effect) :
    staticRule cfg ev a j { r with effects := pre ++ r.effects }
      = { staticRule cfg ev a j r with effects := pre ++ (staticRule cfg ev a j r).effects } := by
  unfold staticRule
  split_ifs <;> simp [scheduleFingerprint]

theorem pluginStage_prepend (ev f : String) (j : Bool) (r : Run) (pre : List Effect) :
    pluginStage ev f j { r with effects := pre ++ r.effects }
      = { pluginStage ev f j r with effects := pre ++ (pluginStage ev f j r).effects } := by
  unfold pluginStage
  split_ifs <;> simp

/-- Calls made before the rule chain stay in front of the calls of the chain
and do not change what the chain does. -/
theorem rules_prepend (cfg : Config) (host : Host) (ev f : String) (r : Run)
    (pre : List Effect) :
    rules cfg host ev f { r with effects := pre ++ r.effects }
      = { rules cfg host ev f r with effects := pre ++ (rules cfg host ev f r).effects } := by
  unfold rules
  simp only []
  rw [chain_prepend]
  generalize viewsRule ev f (sharedRule ev f (preferencesRule cfg host ev f
    (manifestRule cfg ev f r))) = r4
  simp only []
  rcases isStaticAsset cfg host r4.w f with ea | a
  · simp [Run.finish]
  · rcases isStaticJson cfg host r4.w f with ej | j
    · simp [Run.finish]
    · simp only [staticRule_prepend, pluginStage_prepend]
      simp [Run.finish]

theorem rehydrate_mem_chain (cfg : Config) (host : Host) (w : Watcher) (next : Nat)
    (ev f : String) (a : RehydrateArgs)
    (h : Effect.rehydrate a ∈ chainEffects cfg host w next ev f) :
    (a = rehydrateShared ∧ sourceCond w.shared ev f = true) ∨
      (a = rehydrateViews ∧ sourceCond w.views ev f = true) := by
  unfold chainEffects at h
  split_ifs at h <;> simp_all

theorem rehydrate_not_mem_tail (cfg : Config) (host : Host) (w : Watcher) (next : Nat)
    (ev f : String) (asset json : Bool) (a : RehydrateArgs) :
    Effect.rehydrate a ∉ tailEffects cfg host w next ev f asset json := by
  unfold tailEffects
  split_ifs <;> simp

/-- A `rehydrate` call of a dispatch that reaches the rule chain comes from the
unpause branch or from the shared or views rule. -/
theorem rehydrate_mem_handle (cfg : Config) (host : Host) (w : Watcher) (loop : Loop)
    (exists_ : Bool) (event filename : String) (a : RehydrateArgs)
    (hgate : passesGate w exists_ event = true)
    (h : Effect.rehydrate a ∈ (handle cfg host w loop exists_ event filename).effects) :
    (a = rehydrateAll ∧ w.paused = true ∧ cfg.symlink = true) ∨
      (a = rehydrateShared ∧ sourceCond w.shared (normalize event) filename = true) ∨
      (a = rehydrateViews ∧ sourceCond w.views (normalize event) filename = true) := by
  rw [handle_effects cfg host w loop exists_ event filename hgate] at h
  simp only [List.mem_append] at h
  rcases h with ((h | h) | h) | h
  · left
    unfold unpause at h
    cases hp : w.paused <;> cases hs : cfg.symlink <;> simp_all
  · simp at h
  · right; exact rehydrate_mem_chain _ _ _ _ _ _ _ h
  · exfalso
    revert h
    rcases isStaticAsset cfg host w filename with ea | as <;>
    rcases isStaticJson cfg host w filename with ej | j <;>
    intro h
    · simp at h
    · simp at h
    · simp at h
    · exact rehydrate_not_mem_tail _ _ _ _ _ _ _ _ _ h

/-- A forced rehydration only comes from the unpause branch. -/
theorem forced_rehydrate_only_on_unpause (cfg : Config) (host : Host) (w : Watcher)
    (loop : Loop) (exists_ : Bool) (event filename : String) (a : RehydrateArgs)
    (hforce : a.force = true)
    (h : Effect.rehydrate a ∈ (handle cfg host w loop exists_ event filename).effects) :
    passesGate w exists_ event = true ∧ a = rehydrateAll ∧ w.paused = true ∧
      cfg.symlink = true := by
  by_cases hgate : passesGate w exists_ event = true
  · rcases rehydrate_mem_handle cfg host w loop exists_ event filename a hgate h with
      h1 | h1 | h1
    · exact ⟨hgate, h1⟩
    · rw [h1.1] at hforce; simp [rehydrateShared] at hforce
    · rw [h1.1] at hforce; simp [rehydrateViews] at hforce
  · exfalso
    unfold handle at h
    unfold passesGate at hgate
    split_ifs at h <;> simp_all

/-- A dispatch from the unpaused state only makes trace, timer, rule-rehydration
and plugin calls. -/
theorem any_handle_unpaused (cfg : Config) (host : Host) (w : Watcher) (loop : Loop)
    (exists_ : Bool) (event filename : String) (p : Effect → Bool)
    (hgate : passesGate w exists_ event = true) (hpaused : w.paused = false)
    (hd : ∀ m, p (Effect.debugStatus m) = false)
    (hc : ∀ h, p (Effect.clearTimeout h) = false)
    (hs : ∀ i cb d, p (Effect.setTimeout i cb d) = false)
    (hr : p (Effect.rehydrate rehydrateShared) = false)
    (hv : p (Effect.rehydrate rehydrateViews) = false)
    (hp : ∀ f e l, p (Effect.runPlugins f e l) = false) :
    (handle cfg host w loop exists_ event filename).effects.any p = false := by
  rw [handle_effects cfg host w loop exists_ event filename hgate]
  have hu : (unpause cfg w false).2 = [] := by simp [unpause, hpaused]
  have hchain : (chainEffects cfg host w loop.nextId (normalize event) filename).any p = false := by
    unfold chainEffects
    split_ifs <;> simp [hc, hs, hr, hv]
  have htail : ∀ a j,
      (tailEffects cfg host w loop.nextId (normalize event) filename a j).any p = false := by
    intro a j
    unfold tailEffects
    rw [List.any_append]
    split_ifs <;> simp [hc, hs, hp]
  simp only [List.any_append, hu, hchain]
  rcases isStaticAsset cfg host w filename with ea | a <;>
  rcases isStaticJson cfg host w filename with ej | j <;>
  simp [hd, htail]

/-- The rule chain never changes `paused`. -/
theorem rules_paused (cfg : Config) (host : Host) (ev f : String) (r : Run) :
    (rules cfg host ev f r).w.paused = r.w.paused := by
  have h4 : (viewsRule ev f (sharedRule ev f (preferencesRule cfg host ev f
      (manifestRule cfg ev f r)))).w.paused = r.w.paused := by
    unfold viewsRule sharedRule preferencesRule manifestRule
    split_ifs <;> simp [scheduleArcEvent]
  unfold rules
  simp only []
  generalize viewsRule ev f (sharedRule ev f (preferencesRule cfg host ev f
    (manifestRule cfg ev f r))) = r4 at h4 ⊢
  rcases isStaticAsset cfg host r4.w f with ea | a
  · simpa [Run.finish] using h4
  · rcases isStaticJson cfg host r4.w f with ej | j
    · simpa [Run.finish] using h4
    · simp only [Run.finish, pluginStage, staticRule]
      split_ifs <;> simpa [scheduleFingerprint] using h4

/-- The state a dispatch starts from once the unpause branch has run. -/
theorem handle_unpausing (cfg : Config) (host : Host) (w : Watcher) (loop : Loop)
    (event filename : String) (hign : ignoredEvents.contains event = false)
    (hp : w.paused = true) (hrun : w.pluginsRunning = false) :
    handle cfg host w loop false event filename =
      { handle cfg host { w with paused := false } loop false event filename with
        effects := (Effect.status "Watcher no longer paused" ::
            (if cfg.symlink then [Effect.rehydrate rehydrateAll] else [])) ++
          (handle cfg host { w with paused := false } loop false event filename).effects } := by
  have hign' : event ∉ ignoredEvents := by simpa using hign
  have g1 : passesGate w false event = true := by simp [passesGate, hign', hp, hrun]
  have g2 : passesGate { w with paused := false } false event = true := by
    simp [passesGate, hign', hrun]
  rw [handle_gate_open cfg host w loop false event filename g1,
    handle_gate_open cfg host { w with paused := false } loop false event filename g2]
  have hu2 : unpause cfg { w with paused := false } false = ({ w with paused := false }, []) := by
    simp [unpause]
  have hu1 : unpause cfg w false = ({ w with paused := false },
      Effect.status "Watcher no longer paused" ::
        (if cfg.symlink then [Effect.rehydrate rehydrateAll] else [])) := by
    simp [unpause, hp]
  rw [hu1, hu2]
  exact rules_prepend cfg host (normalize event) filename
    { w := { w with paused := false }, loop := loop, ran := false, restarting := false,
      effects := [] ++
        [Effect.debugStatus ("Watcher: '" ++ normalize event ++ "' on " ++ filename)] }
    (Effect.status "Watcher no longer paused" ::
      (if cfg.symlink then [Effect.rehydrate rehydrateAll] else []))

/-- C6: a non-ignored event that arrives while the watcher is paused, no plugin
run is in progress and the sentinel is gone leaves the paused state, emits the
status message `Watcher no longer paused` once, calls the forced, unscoped
rehydration exactly when symlinking is enabled, and then treats the event as
the unpaused watcher would; and a forced rehydration is called in no dispatch
but such a one. -/
theorem C6_unpause_forces_rehydration (cfg : Config) (host : Host) (w : Watcher)
    (loop : Loop) (event filename : String) (hign : ignoredEvents.contains event = false)
    (hp : w.paused = true) (hrun : w.pluginsRunning = false) :
    (handle cfg host w loop false event filename).w.paused = false ∧
    (handle cfg host w loop false event filename).effects =
      (Effect.status "Watcher no longer paused" ::
          (if cfg.symlink then [Effect.rehydrate rehydrateAll] else [])) ++
        (handle cfg host { w with paused := false } loop false event filename).effects ∧
    (handle cfg host w loop false event filename).w =
      (handle cfg host { w with paused := false } loop false event filename).w ∧
    (handle cfg host w loop false event filename).loop =
      (handle cfg host { w with paused := false } loop false event filename).loop ∧
    (handle cfg host w loop false event filename).thrown =
      (handle cfg host { w with paused := false } loop false event filename).thrown ∧
    (handle cfg host w loop false event filename).effects.count
      (Effect.status "Watcher no longer paused") = 1 ∧
    ((∃ a, a.force = true ∧
        Effect.rehydrate a ∈ (handle cfg host w loop false event filename).effects) ↔
      cfg.symlink = true) ∧
    (rehydrateAll.force = true ∧ rehydrateAll.only = none) ∧
    (∀ (w2 : Watcher) (loop2 : Loop) (exists2 : Bool) (event2 filename2 : String)
        (a : RehydrateArgs), a.force = true →
      Effect.rehydrate a ∈ (handle cfg host w2 loop2 exists2 event2 filename2).effects →
      a = rehydrateAll ∧ cfg.symlink = true ∧ w2.paused = true ∧ w2.pluginsRunning = false ∧
        exists2 = false ∧ ignoredEvents.contains event2 = false) := by
  have hu := handle_unpausing cfg host w loop event filename hign hp hrun
  have hign' : event ∉ ignoredEvents := by simpa using hign
  have g2 : passesGate { w with paused := false } false event = true := by
    simp [passesGate, hign', hrun]
  have hnone : ∀ e : Effect, (∀ m, e ≠ Effect.debugStatus m) → (∀ h, e ≠ Effect.clearTimeout h) →
      (∀ i cb d, e ≠ Effect.setTimeout i cb d) → e ≠ Effect.rehydrate rehydrateShared →
      e ≠ Effect.rehydrate rehydrateViews → (∀ f ev l, e ≠ Effect.runPlugins f ev l) →
      e ∉ (handle cfg host { w with paused := false } loop false event filename).effects := by
    intro e h1 h2 h3 h4 h5 h6 hmem
    have := any_handle_unpaused cfg host { w with paused := false } loop false event filename
      (fun x => decide (x = e)) g2 rfl
      (fun m => by simpa using (h1 m).symm) (fun h => by simpa using (h2 h).symm)
      (fun i cb d => by simpa using (h3 i cb d).symm) (by simpa using h4.symm)
      (by simpa using h5.symm) (fun f ev l => by simpa using (h6 f ev l).symm)
    rw [List.any_eq_false] at this
    exact this e hmem (by simp)
  refine ⟨?_, by rw [hu], by rw [hu], by rw [hu], by rw [hu], ?_, ?_, ⟨rfl, rfl⟩, ?_⟩
  · rw [hu]
    have g := handle_gate_open cfg host { w with paused := false } loop false event filename g2
    show (handle cfg host { w with paused := false } loop false event filename).w.paused = false
    rw [g, rules_paused]
    simp [unpause]
  · rw [hu]
    show List.count _ (_ ++ _) = 1
    rw [List.count_append, List.count_eq_zero_of_not_mem
      (hnone _ (by simp) (by simp) (by simp) (by simp) (by simp) (by simp))]
    cases cfg.symlink <;> simp [List.count_cons]
  · constructor
    · rintro ⟨a, hf, hmem⟩
      exact (forced_rehydrate_only_on_unpause cfg host w loop false event filename a hf hmem).2.2.2
    · intro hs
      refine ⟨rehydrateAll, rfl, ?_⟩
      rw [hu]
      show _ ∈ _ ++ _
      simp [hs]
  · intro w2 loop2 exists2 event2 filename2 a hf hmem
    obtain ⟨hg, ha, hpa, hs⟩ :=
      forced_rehydrate_only_on_unpause cfg host w2 loop2 exists2 event2 filename2 a hf hmem
    obtain ⟨h1, h2, h3⟩ := gate_open hg
    exact ⟨ha, hs, hpa, h2, h3, h1⟩

/-- C6 at a views update that arrives after the sentinel was removed: the
watcher resumes, restores the symlinks and the views rule still acts. -/
theorem C6_unpause_forces_rehydration_witness :
    (handle projConfig (posixHost fullInventory)
        { initWatcher fullInventory with paused := true } idleLoop false "change"
        "/proj/src/views/page.js").effects =
      (Effect.status "Watcher no longer paused" ::
          (if projConfig.symlink then [Effect.rehydrate rehydrateAll] else [])) ++
        (handle projConfig (posixHost fullInventory)
          { { initWatcher fullInventory with paused := true } with paused := false }
          idleLoop false "change" "/proj/src/views/page.js").effects :=
  (C6_unpause_forces_rehydration projConfig (posixHost fullInventory)
    { initWatcher fullInventory with paused := true } idleLoop "change"
    "/proj/src/views/page.js" (by decide) rfl rfl).2.1

theorem includesChars_iff (s t : List Char) : includesChars s t = true ↔ t <:+: s := by
  induction s with
  | nil => simp [includesChars, List.isPrefixOf_iff_prefix]
  | cons c s ih =>
    simp only [includesChars, Bool.or_eq_true, ih, List.isPrefixOf_iff_prefix,
      List.infix_cons_iff]

theorem includes_self (s : String) : includes s s = true := by
  unfold includes
  rw [includesChars_iff]

/-- A dispatch stopped by the pause gate schedules nothing and starts nothing. -/
theorem any_handle_blocked (cfg : Config) (host : Host) (w : Watcher) (loop : Loop)
    (exists_ : Bool) (event filename : String) (p : Effect → Bool)
    (hgate : ¬ passesGate w exists_ event = true)
    (hd : ∀ m, p (Effect.debugStatus m) = false) (hs : ∀ m, p (Effect.status m) = false) :
    (handle cfg host w loop exists_ event filename).effects.any p = false := by
  unfold handle
  unfold passesGate at hgate
  split_ifs <;> simp_all

theorem rehydrate_filter_tail (cfg : Config) (host : Host) (w : Watcher) (next : Nat)
    (ev f : String) (asset json : Bool) :
    (tailEffects cfg host w next ev f asset json).filter isRehydrate = [] := by
  unfold tailEffects
  rw [List.filter_append]
  split_ifs <;> simp [isRehydrate]

/-- C8: a remove event on a path that contains the configured shared-source
root and is neither the `.env` file nor a preferences file, dispatched with
the pause gate open, makes exactly one `rehydrate` call, the one with scope `shared`
and no force flag, and schedules neither the configuration-reload timer nor
the fingerprint timer, so that the event loop and both timer slots are as
before, whatever the views root and the static folder are. -/
theorem C8_shared_remove_rehydrates_once (cfg : Config) (host : Host) (w : Watcher)
    (loop : Loop) (filename root : String)
    (hp : w.paused = false) (hrun : w.pluginsRunning = false)
    (hshared : w.shared = some root) (hroot : root ≠ "")
    (hunder : includes filename root = true)
    (henv : filename ≠ host.join [cfg.cwd, ".env"])
    (hlocal : some filename ≠ w.inv.project.localPreferencesFile)
    (hglobal : some filename ≠ w.inv.project.globalPreferencesFile) :
    (handle cfg host w loop false "unlink" filename).effects.filter isRehydrate
        = [Effect.rehydrate rehydrateShared] ∧
      (rehydrateShared.only = some "shared" ∧ rehydrateShared.force = false) ∧
      (handle cfg host w loop false "unlink" filename).effects.any isArcSchedule = false ∧
      (handle cfg host w loop false "unlink" filename).effects.any isFingerprintSchedule
        = false ∧
      (handle cfg host w loop false "unlink" filename).loop = loop ∧
      (handle cfg host w loop false "unlink" filename).w.timers = w.timers := by
  have hgate : passesGate w false "unlink" = true := by
    simp [passesGate, hp, hrun, ignoredEvents]
  have hn : normalize "unlink" = "remove" := by decide
  have h1 : manifestCond w "remove" filename = false := by
    simp [manifestCond, fileUpdate]
  have h2 : preferencesCond cfg host w "remove" filename = false := by
    simp [preferencesCond, henv, hlocal, hglobal]
  have h3 : sourceCond w.shared "remove" filename = true := by
    simp [sourceCond, updateOrRemove, hshared, hroot, hunder]
  have hframe : (handle cfg host w loop false "unlink" filename).loop = loop ∧
      (handle cfg host w loop false "unlink" filename).w.timers = w.timers := by
    have hu : unpause cfg w false = (w, []) := by simp [unpause, hp]
    rw [handle_gate_open cfg host w loop false "unlink" filename hgate, hn, hu]
    unfold rules
    simp only []
    rw [chain_eq cfg host "remove" filename _ rfl]
    simp only [h1, h2, h3, Bool.false_eq_true, if_false, if_true]
    rcases isStaticAsset cfg host w filename with ea | a <;>
    rcases isStaticJson cfg host w filename with ej | j <;>
    simp [Run.finish, staticRule, pluginStage]
    constructor <;> split_ifs <;> rfl
  refine ⟨?_, ⟨rfl, rfl⟩, ?_, ?_, hframe.1, hframe.2⟩
  · rw [handle_effects cfg host w loop false "unlink" filename hgate, hn]
    have hu : (unpause cfg w false).2 = [] := by simp [unpause, hp]
    simp only [List.filter_append, hu]
    have hc : chainEffects cfg host w loop.nextId "remove" filename
        = [Effect.rehydrate rehydrateShared] := by
      simp [chainEffects, h1, h2, h3]
    rw [hc]
    rcases isStaticAsset cfg host w filename with ea | a <;>
    rcases isStaticJson cfg host w filename with ej | j <;>
    simp [isRehydrate, rehydrate_filter_tail]
  · rw [arc_handle cfg host w loop false "unlink" filename hgate, hn]
    simp [restartingAfter, h1, h2]
  · rw [fingerprint_handle cfg host w loop false "unlink" filename hgate, hn]
    rcases isStaticAsset cfg host w filename with ea | a <;>
    rcases isStaticJson cfg host w filename with ej | j <;>
    simp [claimed, h3]

/-- C8 at the removal of a file of the shared-source root. -/
theorem C8_shared_remove_rehydrates_once_witness :
    (handle projConfig (posixHost fullInventory) (initWatcher fullInventory) idleLoop false
        "unlink" "/proj/src/shared/util.js").effects.filter isRehydrate
      = [Effect.rehydrate rehydrateShared] :=
  (C8_shared_remove_rehydrates_once projConfig (posixHost fullInventory)
    (initWatcher fullInventory) idleLoop "/proj/src/shared/util.js" "/proj/src/shared"
    rfl rfl rfl (by decide) (by decide) (by decide) (by decide) (by decide)).1

/-- C9, refuted as stated: an update of a file in a sibling directory whose name
starts with the shared root's string, and of a file elsewhere whose path
contains that string, each trigger a shared-mode rehydration although neither
path is under the shared-source root. -/
theorem C9_sibling_path_rehydrates_shared :
    underRoot "/proj/src/shared" "/proj/src/shared-old/util.js" = false ∧
      Effect.rehydrate rehydrateShared ∈
        (handle projConfig (posixHost sharedInventory) (initWatcher sharedInventory) idleLoop
          false "change" "/proj/src/shared-old/util.js").effects ∧
      underRoot "/proj/src/shared" "/proj/backup/proj/src/shared/util.js" = false ∧
      Effect.rehydrate rehydrateShared ∈
        (handle projConfig (posixHost sharedInventory) (initWatcher sharedInventory) idleLoop
          false "change" "/proj/backup/proj/src/shared/util.js").effects := by
  decide

/-- C9, amended: in every dispatch, a shared-mode rehydration is triggered only
if the normalized kind is update or remove and the shared-source root is a
non-empty string that occurs somewhere in the path, as `String.includes` finds
it. -/
theorem C9_shared_rehydration_needs_substring (cfg : Config) (host : Host) (w : Watcher)
    (loop : Loop) (exists_ : Bool) (event filename : String) (a : RehydrateArgs)
    (honly : a.only = some "shared")
    (hmem : Effect.rehydrate a ∈ (handle cfg host w loop exists_ event filename).effects) :
    (normalize event = "update" ∨ normalize event = "remove") ∧
      ∃ root, w.shared = some root ∧ root ≠ "" ∧ root.data <:+: filename.data := by
  by_cases hgate : passesGate w exists_ event = true
  · rcases rehydrate_mem_handle cfg host w loop exists_ event filename a hgate hmem with
      h | h | h
    · rw [h.1] at honly; simp [rehydrateAll] at honly
    · have hc := h.2
      unfold sourceCond at hc
      cases hs : w.shared with
      | none => simp [hs] at hc
      | some root =>
        simp only [hs, Bool.and_eq_true, bne_iff_ne, ne_eq] at hc
        refine ⟨by simpa [updateOrRemove] using hc.1, root, rfl, hc.2.1, ?_⟩
        exact (includesChars_iff _ _).1 hc.2.2
    · rw [h.1] at honly; simp [rehydrateViews] at honly
  · exfalso
    have := any_handle_blocked cfg host w loop exists_ event filename
      (fun e => decide (e = Effect.rehydrate a)) hgate (by simp) (by simp)
    rw [List.any_eq_false] at this
    exact this _ hmem (by simp)

/-- C9 amended, at the sibling directory: the root does occur in the path. -/
theorem C9_shared_rehydration_needs_substring_witness :
    (normalize "change" = "update" ∨ normalize "change" = "remove") ∧
      ∃ root, (initWatcher sharedInventory).shared = some root ∧ root ≠ "" ∧
        root.data <:+: "/proj/src/shared-old/util.js".data :=
  C9_shared_rehydration_needs_substring projConfig (posixHost sharedInventory)
    (initWatcher sharedInventory) idleLoop false "change" "/proj/src/shared-old/util.js"
    rehydrateShared rfl (by decide)

/-- C10: in every dispatch, from every watcher state, of an event of any kind
whose path is the `static.json` manifest of the static folder, the fingerprint
timer is not scheduled. -/
theorem C10_static_json_never_fingerprints (cfg : Config) (host : Host) (w : Watcher)
    (loop : Loop) (exists_ : Bool) (event filename folder : String)
    (hfolder : w.staticFolder = some folder)
    (hpath : filename = host.join [cfg.cwd, folder, "static.json"]) :
    (handle cfg host w loop exists_ event filename).effects.any isFingerprintSchedule
      = false := by
  by_cases hgate : passesGate w exists_ event = true
  · rw [fingerprint_handle cfg host w loop exists_ event filename hgate]
    have hj : isStaticJson cfg host w filename = .ok true ∨
        isStaticJson cfg host w filename = .ok false ∧
          isStaticAsset cfg host w filename = .ok false := by
      unfold isStaticJson isStaticAsset
      cases w.inv.static with
      | none => right; exact ⟨rfl, rfl⟩
      | some st =>
        left
        simp [pathJoin, allStrings, hfolder, ← hpath, includes_self]
    rcases hj with hj | ⟨hj, ha⟩
    · rw [hj]
      rcases isStaticAsset cfg host w filename with ea | a <;> simp
    · rw [hj, ha]; simp
  · exact any_handle_blocked cfg host w loop exists_ event filename isFingerprintSchedule hgate
      (fun _ => rfl) (fun _ => rfl)

/-- C10 at a rewrite of `/proj/public/static.json`. -/
theorem C10_static_json_never_fingerprints_witness :
    (handle projConfig (posixHost fullInventory) (initWatcher fullInventory) idleLoop false
      "change" "/proj/public/static.json").effects.any isFingerprintSchedule = false :=
  C10_static_json_never_fingerprints projConfig (posixHost fullInventory)
    (initWatcher fullInventory) idleLoop false "change" "/proj/public/static.json" "public"
    rfl (by decide)

/-- What a manifest update does to an open watcher: it replaces the pending
configuration timer by a fresh one and touches nothing else. -/
theorem handle_manifest_update (cfg : Config) (host : Host) (w : Watcher) (loop : Loop)
    (m : String) (hm : w.manifest = some m) (hp : w.paused = false)
    (hrun : w.pluginsRunning = false) :
    (handle cfg host w loop false "change" m).w
        = { w with timers := { w.timers with arcEvent := some loop.nextId } } ∧
      (handle cfg host w loop false "change" m).loop
        = ((loop.clearTimeout w.timers.arcEvent).setTimeout
            Callback.manifestReload cfg.debounce).2 ∧
      (handle cfg host w loop false "change" m).effects
        = [Effect.debugStatus ("Watcher: 'update' on " ++ m),
           Effect.clearTimeout w.timers.arcEvent,
           Effect.setTimeout loop.nextId Callback.manifestReload cfg.debounce] := by
  have hgate : passesGate w false "change" = true := by
    simp [passesGate, hp, hrun, ignoredEvents]
  have hn : normalize "change" = "update" := by decide
  have hu : unpause cfg w false = (w, []) := by simp [unpause, hp]
  have h1 : manifestCond w "update" m = true := by simp [manifestCond, fileUpdate, hm]
  rw [handle_gate_open cfg host w loop false "change" m hgate, hn, hu]
  unfold rules
  simp only []
  rw [chain_eq cfg host "update" m _ rfl]
  simp only [h1, if_true, isStaticAsset_scheduleArc, isStaticJson_scheduleArc]
  rcases isStaticAsset cfg host w m with ea | a <;>
  rcases isStaticJson cfg host w m with ej | j <;>
  simp [Run.finish, scheduleArcEvent, staticRule, pluginStage, Loop.setTimeout]

theorem quiet_append {a b : List (Nat × Effect)} (ha : Quiet a) (hb : Quiet b) :
    Quiet (a ++ b) := by
  intro e he
  rcases List.mem_append.1 he with h | h
  · exact ha e h
  · exact hb e h

theorem quiet_thrown (now : Nat) (thrown : Option String) :
    Quiet (match thrown with
      | some err => [(now, Effect.thrown err)]
      | none => []) := by
  cases thrown <;> simp [Quiet, isInventoryCall, isSandboxEnd, isSandboxStart]

/-- The first update of a burst arms the timer. -/
theorem deliver_first (cfg : Config) (host : Host) (w : Watcher) (l : Loop) (m : String)
    (t : Nat) (hm : w.manifest = some m) (hp : w.paused = false)
    (hrun : w.pluginsRunning = false) (hpend : l.pending = []) (hnow : l.now ≤ t) :
    Armed cfg m t (deliver cfg host { w := w, loop := l, log := [] } (changeAt m t)) := by
  have hadv : advance cfg host t { w := w, loop := l, log := [] }
      = { w := w, loop := { l with now := t }, log := [] } := by
    simp [advance, dueTimers, hpend, Nat.max_eq_right hnow]
  unfold deliver
  simp only [changeAt, hadv]
  obtain ⟨h1, h2, h3⟩ := handle_manifest_update cfg host w { l with now := t } m hm hp hrun
  refine ⟨?_, ?_, ?_, ?_, ?_, ?_⟩
  · simp only [h1]; exact hm
  · simp only [h1]; exact hp
  · simp only [h1]; exact hrun
  · simp only [h2]; simp [Loop.setTimeout]
  · refine ⟨l.nextId, ?_, ?_⟩
    · simp only [h1]
    · simp only [h2]
      cases hw : w.timers.arcEvent <;> simp [Loop.setTimeout, Loop.clearTimeout, hpend]
  · simp only [h3, List.nil_append]
    refine quiet_append ?_ (quiet_thrown _ _)
    simp [Quiet, stamp, isInventoryCall, isSandboxEnd, isSandboxStart]

/-- A further update inside the debounce window replaces the timer. -/
theorem deliver_next (cfg : Config) (host : Host) (s : Sys) (m : String) (t u : Nat)
    (hs : Armed cfg m t s) (htu : t ≤ u) (hwin : u < t + cfg.debounce) :
    Armed cfg m u (deliver cfg host s (changeAt m u)) := by
  obtain ⟨hm, hp, hrun, hnow, ⟨id, hid, hpend⟩, hq⟩ := hs
  have hadv : advance cfg host u s = { s with loop := { s.loop with now := u } } := by
    have hd : dueTimers s.loop.pending u = [] := by
      have hnd : ¬ (t + cfg.debounce ≤ u) := by omega
      simp [dueTimers, hpend, List.filter_cons, hnd]
    simp [advance, hd, hnow, Nat.max_eq_right htu]
  unfold deliver
  simp only [changeAt, hadv]
  obtain ⟨h1, h2, h3⟩ :=
    handle_manifest_update cfg host s.w { s.loop with now := u } m hm hp hrun
  refine ⟨?_, ?_, ?_, ?_, ?_, ?_⟩
  · simp only [h1]; exact hm
  · simp only [h1]; exact hp
  · simp only [h1]; exact hrun
  · simp only [h2]; simp [Loop.setTimeout]
  · refine ⟨s.loop.nextId, ?_, ?_⟩
    · simp only [h1]
    · simp only [h2]
      simp [Loop.setTimeout, Loop.clearTimeout, hid, hpend]
  · simp only [h3]
    refine quiet_append (quiet_append hq ?_) (quiet_thrown _ _)
    simp [Quiet, stamp, isInventoryCall, isSandboxEnd, isSandboxStart]

theorem reloadTimes_append (a b : List (Nat × Effect)) :
    reloadTimes (a ++ b) = reloadTimes a ++ reloadTimes b := by
  simp [reloadTimes]

theorem callCount_append (p : Effect → Bool) (a b : List (Nat × Effect)) :
    callCount p (a ++ b) = callCount p a + callCount p b := by
  simp [callCount]

theorem quiet_reloadTimes {log : List (Nat × Effect)} (h : Quiet log) : reloadTimes log = [] := by
  unfold reloadTimes
  rw [List.map_eq_nil_iff, List.filter_eq_nil_iff]
  intro e he
  simp [(h e he).1]

theorem quiet_callCount {log : List (Nat × Effect)} (h : Quiet log) :
    callCount isSandboxEnd log = 0 ∧ callCount isSandboxStart log = 0 := by
  unfold callCount
  constructor
  · rw [List.length_eq_zero, List.filter_eq_nil_iff]
    intro e he
    simp [(h e he).2.1]
  · rw [List.length_eq_zero, List.filter_eq_nil_iff]
    intro e he
    simp [(h e he).2.2]

/-- The calls of one restart: one stop and one start, no reload. -/
theorem restart_calls (host : Host) (now at_ : Nat) (cwd : String) (inventory : Inventory) :
    reloadTimes (stamp at_ (restart host now cwd inventory)) = [] ∧
      callCount isSandboxEnd (stamp at_ (restart host now cwd inventory)) = 1 ∧
      callCount isSandboxStart (stamp at_ (restart host now cwd inventory)) = 1 := by
  unfold restart
  cases host.sandboxEnd now <;> cases host.sandboxStart now <;>
    simp [reloadTimes, callCount, stamp, isInventoryCall, isSandboxEnd, isSandboxStart]

/-- The calls of one firing of the reload closure: the inventory reader is
called once, and the engine is restarted once exactly when the reload succeeds. -/
theorem reloadCallback_calls (cfg : Config) (host : Host) (msg : String) (now : Nat)
    (w : Watcher) :
    reloadTimes (stamp now (reloadCallback cfg host msg now w).2) = [now] ∧
      (∀ r, host.inventory now = .ok r →
        callCount isSandboxEnd (stamp now (reloadCallback cfg host msg now w).2) = 1 ∧
        callCount isSandboxStart (stamp now (reloadCallback cfg host msg now w).2) = 1 ∧
        (reloadCallback cfg host msg now w).1.inventory = r) := by
  unfold reloadCallback
  cases hinv : host.inventory now with
  | error err => simp [reloadTimes, stamp, isInventoryCall]
  | ok result =>
    obtain ⟨h1, h2, h3⟩ := restart_calls host now now cfg.cwd result
    simp only [stamp, List.map_append] at h1 h2 h3 ⊢
    refine ⟨?_, ?_⟩
    · rw [reloadTimes_append, h1]
      simp [reloadTimes, isInventoryCall]
    · intro r hr
      cases hr
      rw [callCount_append, callCount_append, h2, h3]
      simp [callCount, isSandboxEnd, isSandboxStart, refreshInventory]

/-- The end of a burst: the armed reload fires one debounce after the latest
event, once, and not before. -/
theorem advance_armed (cfg : Config) (host : Host) (s : Sys) (m : String) (t horizon : Nat)
    (hs : Armed cfg m t s) :
    reloadTimes (advance cfg host horizon s).log
        = (if t + cfg.debounce ≤ horizon then [t + cfg.debounce] else []) ∧
      (t + cfg.debounce ≤ horizon → ∀ r, host.inventory (t + cfg.debounce) = .ok r →
        callCount isSandboxEnd (advance cfg host horizon s).log = 1 ∧
        callCount isSandboxStart (advance cfg host horizon s).log = 1 ∧
        (advance cfg host horizon s).w.inventory = r) := by
  obtain ⟨hm, hp, hrun, hnow, ⟨id, hid, hpend⟩, hq⟩ := hs
  by_cases hdue : t + cfg.debounce ≤ horizon
  · have hd : dueTimers s.loop.pending horizon
        = [{ id := id, due := t + cfg.debounce, cb := Callback.manifestReload }] := by
      simp [dueTimers, hpend, List.filter_cons, hdue, insertByDue]
    have hmax : max s.loop.now (t + cfg.debounce) = t + cfg.debounce := by
      rw [hnow]; exact Nat.max_eq_right (Nat.le_add_right _ _)
    obtain ⟨c1, c2⟩ := reloadCallback_calls cfg host
      "Loaded latest Architect project manifest" (t + cfg.debounce) s.w
    simp only [advance, hd, List.foldl_cons, List.foldl_nil, fire, runCallback, hmax, hdue,
      if_true]
    refine ⟨?_, ?_⟩
    · rw [reloadTimes_append, quiet_reloadTimes hq, c1]; rfl
    · intro _ r hr
      obtain ⟨e1, e2, e3⟩ := c2 r hr
      rw [callCount_append, callCount_append, (quiet_callCount hq).1, (quiet_callCount hq).2,
        e1, e2]
      exact ⟨rfl, rfl, e3⟩
  · have hd : dueTimers s.loop.pending horizon = [] := by
      simp [dueTimers, hpend, List.filter_cons, hdue]
    simp only [advance, hd, List.foldl_nil, hdue, if_false]
    exact ⟨quiet_reloadTimes hq, fun h => h.elim⟩

/-- A burst keeps the watcher armed, for the time of its latest event. -/
theorem run_armed (cfg : Config) (host : Host) (m : String) (times : List Nat) :
    ∀ (s : Sys) (t : Nat), Armed cfg m t s →
      List.Chain (fun a b => a ≤ b ∧ b < a + cfg.debounce) t times →
      Armed cfg m ((t :: times).getLast (List.cons_ne_nil t times))
        (run cfg host s (times.map (changeAt m))) := by
  induction times with
  | nil => intro s t hs _; simpa [run] using hs
  | cons u rest ih =>
    intro s t hs hc
    rw [List.chain_cons] at hc
    have hstep := deliver_next cfg host s m t u hs hc.1.1 hc.1.2
    have := ih (deliver cfg host s (changeAt m u)) u hstep hc.2
    simpa [run, List.getLast_cons_cons] using this

/-- C4: in a burst of one or more updates of the manifest, each less than the
debounce duration after the one before, delivered to an open watcher with no
timer pending, at most one configuration-reload timer is pending after each
event; the inventory reader is called once, one debounce duration after the
last event and not before; and when that reload succeeds the engine is stopped
once and started once, with the reloaded inventory held from then on. -/
theorem C4_burst_reloads_once (cfg : Config) (host : Host) (w : Watcher) (l : Loop)
    (m : String) (times : List Nat) (horizon : Nat)
    (hm : w.manifest = some m) (hp : w.paused = false) (hrun : w.pluginsRunning = false)
    (hpend : l.pending = []) (hne : times ≠ []) (hnow : l.now ≤ times.head hne)
    (hburst : times.Chain' (fun a b => a ≤ b ∧ b < a + cfg.debounce)) :
    (∀ k, ((run cfg host { w := w, loop := l, log := [] }
        ((times.take k).map (changeAt m))).loop.pending.filter isReloadTimer).length ≤ 1) ∧
      reloadTimes (advance cfg host horizon
          (run cfg host { w := w, loop := l, log := [] } (times.map (changeAt m)))).log
        = (if times.getLast hne + cfg.debounce ≤ horizon
            then [times.getLast hne + cfg.debounce] else []) ∧
      (times.getLast hne + cfg.debounce ≤ horizon →
        ∀ r, host.inventory (times.getLast hne + cfg.debounce) = .ok r →
          callCount isSandboxEnd (advance cfg host horizon
            (run cfg host { w := w, loop := l, log := [] } (times.map (changeAt m)))).log = 1 ∧
          callCount isSandboxStart (advance cfg host horizon
            (run cfg host { w := w, loop := l, log := [] } (times.map (changeAt m)))).log = 1 ∧
          (advance cfg host horizon
            (run cfg host { w := w, loop := l, log := [] }
              (times.map (changeAt m)))).w.inventory = r) := by
  cases times with
  | nil => exact absurd rfl hne
  | cons t0 rest =>
    have hfirst := deliver_first cfg host w l m t0 hm hp hrun hpend hnow
    have harmed := run_armed cfg host m rest _ t0 hfirst hburst
    refine ⟨?_, ?_⟩
    · intro k
      cases k with
      | zero => simp [run, hpend]
      | succ k =>
        have hc : List.Chain (fun a b => a ≤ b ∧ b < a + cfg.debounce) t0 (rest.take k) :=
          List.Chain'.take (l := t0 :: rest) hburst (k + 1)
        obtain ⟨-, -, -, -, ⟨id, -, hpe⟩, -⟩ := run_armed cfg host m (rest.take k) _ t0 hfirst hc
        have : run cfg host { w := w, loop := l, log := [] }
            (((t0 :: rest).take (k + 1)).map (changeAt m))
            = run cfg host (deliver cfg host { w := w, loop := l, log := [] } (changeAt m t0))
                ((rest.take k).map (changeAt m)) := by
          simp [run]
        rw [this, hpe]
        simp [isReloadTimer]
    · have : run cfg host { w := w, loop := l, log := [] } ((t0 :: rest).map (changeAt m))
          = run cfg host (deliver cfg host { w := w, loop := l, log := [] } (changeAt m t0))
              (rest.map (changeAt m)) := by
        simp [run]
      rw [this]
      exact advance_armed cfg host _ m _ horizon harmed

/-- C4 at three manifest updates 10 ms apart with a debounce of 25 ms: the one
reload comes at 55 ms. -/
theorem C4_burst_reloads_once_witness :
    reloadTimes (advance projConfig (posixHost fullInventory) 100
        (run projConfig (posixHost fullInventory)
          { w := initWatcher fullInventory, loop := idleLoop, log := [] }
          ([10, 20, 30].map (changeAt "/proj/app.arc")))).log = [55] :=
  (C4_burst_reloads_once projConfig (posixHost fullInventory) (initWatcher fullInventory)
    idleLoop "/proj/app.arc" [10, 20, 30] 100 rfl rfl rfl rfl (by decide) (by decide)
    (by simp [projConfig])).2.1.trans (by decide)


theorem fingerprintCallback_calls (host : Host) (now : Nat) (w : Watcher) :
    fingerprintTimes (stamp now (fingerprintCallback host now w).2) = [now] := by
  unfold fingerprintCallback
  cases host.fingerprint now with
  | error err => simp [fingerprintTimes, stamp, isFingerprintCall]
  | ok result => cases result <;> simp [fingerprintTimes, stamp, isFingerprintCall]

/-! ### Timers in the states the watcher reaches

Every state reached from the start of the watcher keeps its timers `Sound`.
In such a state the timers that are due fire in the order of their due times,
at most one fingerprint timer is pending, and only a dispatch of an asset under
the static folder schedules another. -/

theorem callCount_stamp_zero (p : Effect → Bool) (now : Nat) (l : List Effect)
    (h : l.any p = false) : callCount p (stamp now l) = 0 := by
  unfold callCount stamp
  rw [List.length_eq_zero, List.filter_eq_nil_iff]
  intro e he
  rw [List.mem_map] at he
  obtain ⟨x, hx, rfl⟩ := he
  rw [List.any_eq_false] at h
  simpa using h x hx

theorem fingerprintTimes_append (a b : List (Nat × Effect)) :
    fingerprintTimes (a ++ b) = fingerprintTimes a ++ fingerprintTimes b := by
  simp [fingerprintTimes]

theorem runCallback_timers (cfg : Config) (host : Host) (cb : Callback) (now : Nat)
    (w : Watcher) : (runCallback cfg host cb now w).1.timers = w.timers := by
  cases cb
  · simp only [runCallback, reloadCallback]
    cases host.inventory now <;> simp [refreshInventory]
  · simp only [runCallback, reloadCallback]
    cases host.inventory now <;> simp [refreshInventory]
  · simp only [runCallback, fingerprintCallback]
    cases host.fingerprint now with
    | error e => rfl
    | ok r => cases r <;> rfl

theorem runCallback_fingerprintTimes (cfg : Config) (host : Host) (cb : Callback) (now : Nat)
    (w : Watcher) :
    fingerprintTimes (stamp now (runCallback cfg host cb now w).2)
      = if cb = Callback.fingerprint then [now] else [] := by
  cases cb
  · simp only [runCallback, reloadCallback, restart]
    cases host.inventory now <;> cases host.sandboxEnd now <;> cases host.sandboxStart now <;>
      simp [fingerprintTimes, stamp, isFingerprintCall]
  · simp only [runCallback, reloadCallback, restart]
    cases host.inventory now <;> cases host.sandboxEnd now <;> cases host.sandboxStart now <;>
      simp [fingerprintTimes, stamp, isFingerprintCall]
  · simpa [runCallback] using fingerprintCallback_calls host now w

theorem runCallback_no_schedule (cfg : Config) (host : Host) (cb : Callback) (now : Nat)
    (w : Watcher) :
    (runCallback cfg host cb now w).2.any isFingerprintSchedule = false := by
  cases cb
  · simp only [runCallback, reloadCallback, restart]
    cases host.inventory now <;> cases host.sandboxEnd now <;> cases host.sandboxStart now <;>
      simp [isFingerprintSchedule]
  · simp only [runCallback, reloadCallback, restart]
    cases host.inventory now <;> cases host.sandboxEnd now <;> cases host.sandboxStart now <;>
      simp [isFingerprintSchedule]
  · simp only [runCallback, fingerprintCallback]
    cases host.fingerprint now with
    | error e => simp [isFingerprintSchedule]
    | ok r => cases r <;> simp [isFingerprintSchedule]

/-- What firing a sequence of timers does to the loop, the timer slots and the
fingerprinter calls. -/
theorem foldl_fire (cfg : Config) (host : Host) (l : List Timer) :
    ∀ s : Sys,
      ((l.foldl (fire cfg host) s).loop.pending
          = s.loop.pending.filter (fun u => l.all (fun t => u.id != t.id))) ∧
        (l.foldl (fire cfg host) s).loop.nextId = s.loop.nextId ∧
        (l.foldl (fire cfg host) s).loop.now = l.foldl (fun m t => max m t.due) s.loop.now ∧
        (l.foldl (fire cfg host) s).w.timers = s.w.timers ∧
        fingerprintTimes (l.foldl (fire cfg host) s).log
          = fingerprintTimes s.log ++ fingerprintFireTimes s.loop.now l ∧
        callCount isFingerprintSchedule (l.foldl (fire cfg host) s).log
          = callCount isFingerprintSchedule s.log := by
  induction l with
  | nil => intro s; simp [fingerprintFireTimes]
  | cons t rest ih =>
    intro s
    obtain ⟨h1, h2, h3, h4, h5, h6⟩ := ih (fire cfg host s t)
    simp only [List.foldl_cons]
    refine ⟨?_, ?_, ?_, ?_, ?_, ?_⟩
    · rw [h1]
      simp only [fire, List.filter_filter, List.all_cons]
      congr 1
      funext u
      simp [Bool.and_comm]
    · rw [h2]; rfl
    · rw [h3]; rfl
    · rw [h4]; simp only [fire]; exact runCallback_timers _ _ _ _ _
    · rw [h5]
      simp only [fire, fingerprintTimes_append, runCallback_fingerprintTimes,
        fingerprintFireTimes, List.append_assoc]
    · rw [h6]
      simp only [fire, callCount_append]
      rw [callCount_stamp_zero _ _ _ (runCallback_no_schedule _ _ _ _ _)]
      rfl

theorem insertByDue_perm (t : Timer) (l : List Timer) : (insertByDue t l).Perm (t :: l) := by
  induction l with
  | nil => simp [insertByDue]
  | cons u rest ih =>
    unfold insertByDue
    split_ifs
    · exact List.Perm.refl _
    · exact (List.Perm.cons u ih).trans (List.Perm.swap t u rest)

theorem insertByDue_sorted (t : Timer) (l : List Timer)
    (h : l.Pairwise (fun a b => a.due ≤ b.due)) :
    (insertByDue t l).Pairwise (fun a b => a.due ≤ b.due) := by
  induction l with
  | nil => simp [insertByDue]
  | cons u rest ih =>
    unfold insertByDue
    rw [List.pairwise_cons] at h
    split_ifs with hlt
    · rw [List.pairwise_cons]
      refine ⟨?_, List.pairwise_cons.2 h⟩
      intro a ha
      rcases List.mem_cons.1 ha with rfl | ha
      · exact Nat.le_of_lt hlt
      · exact Nat.le_trans (Nat.le_of_lt hlt) (h.1 a ha)
    · rw [List.pairwise_cons]
      refine ⟨?_, ih h.2⟩
      intro a ha
      rcases List.mem_cons.1 ((insertByDue_perm t rest).mem_iff.1 ha) with rfl | ha
      · exact Nat.le_of_not_lt hlt
      · exact h.1 a ha

theorem foldl_insertByDue (l : List Timer) :
    ∀ acc : List Timer, acc.Pairwise (fun a b => a.due ≤ b.due) →
      (l.foldl (fun acc t => insertByDue t acc) acc).Perm (l ++ acc) ∧
        (l.foldl (fun acc t => insertByDue t acc) acc).Pairwise (fun a b => a.due ≤ b.due) := by
  induction l with
  | nil => intro acc h; exact ⟨List.Perm.refl _, h⟩
  | cons t rest ih =>
    intro acc h
    obtain ⟨hp, hs⟩ := ih (insertByDue t acc) (insertByDue_sorted t acc h)
    refine ⟨?_, hs⟩
    simp only [List.foldl_cons]
    refine hp.trans ?_
    refine ((insertByDue_perm t acc).append_left rest).trans ?_
    simp

/-- The timers that fire are the pending timers due by `time`, ordered by due time. -/
theorem dueTimers_spec (pending : List Timer) (time : Nat) :
    (dueTimers pending time).Perm (pending.filter (fun t => t.due ≤ time)) ∧
      (dueTimers pending time).Pairwise (fun a b => a.due ≤ b.due) := by
  obtain ⟨hp, hs⟩ := foldl_insertByDue (pending.filter (fun t => t.due ≤ time)) []
    List.Pairwise.nil
  exact ⟨by simpa [dueTimers] using hp, hs⟩

theorem mem_dueTimers (pending : List Timer) (time : Nat) (t : Timer) :
    t ∈ dueTimers pending time ↔ t ∈ pending ∧ t.due ≤ time := by
  rw [(dueTimers_spec pending time).1.mem_iff]
  simp

/-- In a firing sequence ordered by due time that starts no later than its
first timer, every timer fires when it is due. -/
theorem fingerprintFireTimes_sorted (l : List Timer) :
    ∀ now, l.Pairwise (fun a b => a.due ≤ b.due) → (∀ t ∈ l, now ≤ t.due) →
      fingerprintFireTimes now l = ((l.filter isFingerprintTimer).map (fun t => t.due)) := by
  induction l with
  | nil => intro now _ _; simp [fingerprintFireTimes]
  | cons t rest ih =>
    intro now hs hn
    rw [List.pairwise_cons] at hs
    have hmax : max now t.due = t.due := Nat.max_eq_right (hn t (List.mem_cons_self _ _))
    have h1 := ih t.due hs.2 (fun u hu => hs.1 u hu)
    simp only [fingerprintFireTimes, hmax, h1, List.filter_cons, isFingerprintTimer]
    by_cases hc : t.cb = Callback.fingerprint <;> simp [hc]

theorem foldl_max_le (l : List Timer) (time : Nat) :
    ∀ now, (∀ t ∈ l, t.due ≤ time) → l.foldl (fun m t => max m t.due) now ≤ max now time := by
  induction l with
  | nil => intro now _; exact Nat.le_max_left _ _
  | cons t rest ih =>
    intro now h
    simp only [List.foldl_cons]
    refine Nat.le_trans (ih _ (fun u hu => h u (List.mem_cons_of_mem _ hu))) ?_
    have := h t (List.mem_cons_self _ _)
    omega

theorem le_foldl_max (l : List Timer) :
    ∀ now, now ≤ l.foldl (fun m t => max m t.due) now := by
  induction l with
  | nil => intro now; exact Nat.le_refl _
  | cons t rest ih =>
    intro now
    simp only [List.foldl_cons]
    exact Nat.le_trans (Nat.le_max_left _ _) (ih _)

theorem sound_fingerprint_pending {w : Watcher} {l : Loop} (h : Sound w l) :
    (l.pending.filter isFingerprintTimer).length ≤ 1 := by
  obtain ⟨hnd, -, -, -, hslot, -⟩ := h
  have hsub : ((l.pending.filter isFingerprintTimer).map (fun t => t.id)).Nodup :=
    hnd.sublist ((List.filter_sublist _).map _)
  match hf : l.pending.filter isFingerprintTimer with
  | [] => simp
  | [_] => simp
  | a :: b :: rest =>
    exfalso
    have ha : a ∈ l.pending.filter isFingerprintTimer := by rw [hf]; simp
    have hb : b ∈ l.pending.filter isFingerprintTimer := by rw [hf]; simp
    rw [List.mem_filter] at ha hb
    have ha' := hslot a ha.1
    have hb' := hslot b hb.1
    simp only [isFingerprintTimer, decide_eq_true_eq] at ha hb
    rw [if_pos ha.2] at ha'
    rw [if_pos hb.2] at hb'
    have hid : a.id = b.id := by
      rw [ha'] at hb'; exact Option.some.inj hb'
    rw [hf] at hsub
    simp [hid] at hsub

theorem perm_short {α : Type} {p q : List α} (h : p.Perm q) (hq : q.length ≤ 1) : p = q := by
  match q, hq with
  | [], _ => exact List.perm_nil.1 h
  | [a], _ => exact List.perm_singleton.1 h

/-- What letting the clock reach `time` does in a sound state: the timers due
by then leave the loop, the fingerprint timer among them calls the
fingerprinter when it is due, and nothing is scheduled. -/
theorem advance_spec (cfg : Config) (host : Host) (time : Nat) (s : Sys)
    (h : Sound s.w s.loop) :
    (advance cfg host time s).loop.pending = s.loop.pending.filter (fun u => time < u.due) ∧
      (advance cfg host time s).loop.nextId = s.loop.nextId ∧
      (advance cfg host time s).loop.now = max s.loop.now time ∧
      (advance cfg host time s).w.timers = s.w.timers ∧
      fingerprintTimes (advance cfg host time s).log
        = fingerprintTimes s.log ++
            ((s.loop.pending.filter isFingerprintTimer).filter
              (fun t => t.due ≤ time)).map (fun t => t.due) ∧
      callCount isFingerprintSchedule (advance cfg host time s).log
        = callCount isFingerprintSchedule s.log := by
  obtain ⟨f1, f2, f3, f4, f5, f6⟩ := foldl_fire cfg host (dueTimers s.loop.pending time) s
  obtain ⟨hperm, hsorted⟩ := dueTimers_spec s.loop.pending time
  have hone := sound_fingerprint_pending h
  obtain ⟨hnd, hbound, -, -, -, -⟩ := h
  have hinj := List.inj_on_of_nodup_map hnd
  refine ⟨?_, ?_, ?_, ?_, ?_, ?_⟩
  · show (List.foldl (fire cfg host) s (dueTimers s.loop.pending time)).loop.pending = _
    rw [f1]
    apply List.filter_congr
    intro u hu
    by_cases hdue : u.due ≤ time
    · have hmem : u ∈ dueTimers s.loop.pending time := (mem_dueTimers _ _ _).2 ⟨hu, hdue⟩
      have h1 : (dueTimers s.loop.pending time).all (fun t => u.id != t.id) = false := by
        rw [List.all_eq_false]
        exact ⟨u, hmem, by simp⟩
      rw [h1]
      simp [hdue]
    · have h1 : (dueTimers s.loop.pending time).all (fun t => u.id != t.id) = true := by
        rw [List.all_eq_true]
        intro t ht
        obtain ⟨htp, htd⟩ := (mem_dueTimers _ _ _).1 ht
        simp only [bne_iff_ne, ne_eq]
        intro hid
        have := hinj hu htp hid
        subst this
        exact hdue htd
      rw [h1]
      simp only [Nat.not_le] at hdue
      simp [hdue]
  · exact f2
  · show max (List.foldl (fire cfg host) s (dueTimers s.loop.pending time)).loop.now time = _
    rw [f3]
    have hle := foldl_max_le (dueTimers s.loop.pending time) time s.loop.now
      (fun t ht => ((mem_dueTimers _ _ _).1 ht).2)
    have hge := le_foldl_max (dueTimers s.loop.pending time) s.loop.now
    omega
  · exact f4
  · show fingerprintTimes (List.foldl (fire cfg host) s (dueTimers s.loop.pending time)).log = _
    rw [f5, fingerprintFireTimes_sorted _ _ hsorted
      (fun t ht => (hbound t ((mem_dueTimers _ _ _).1 ht).1).2)]
    congr 2
    apply perm_short
    · refine (hperm.filter _).trans ?_
      rw [List.filter_filter, List.filter_filter]
      apply List.Perm.of_eq
      apply List.filter_congr
      intro u _
      exact Bool.and_comm _ _
    · exact Nat.le_trans (List.length_filter_le _ _) hone
  · exact f6

theorem advance_sound (cfg : Config) (host : Host) (time : Nat) (s : Sys)
    (h : Sound s.w s.loop) :
    Sound (advance cfg host time s).w (advance cfg host time s).loop := by
  obtain ⟨a1, a2, a3, a4, -, -⟩ := advance_spec cfg host time s h
  obtain ⟨hnd, hbound, harc, hfp, hslot, halias⟩ := h
  unfold Sound
  rw [a1, a2, a3, a4]
  refine ⟨?_, ?_, harc, hfp, ?_, halias⟩
  · exact hnd.sublist ((List.filter_sublist _).map _)
  · intro t ht
    rw [List.mem_filter] at ht
    have := hbound t ht.1
    have hd : time < t.due := by simpa using ht.2
    exact ⟨this.1, by omega⟩
  · intro t ht
    rw [List.mem_filter] at ht
    exact hslot t ht.1

/-- The loop and the timer slots after the rule chain, in closed form. -/
theorem rules_loop (cfg : Config) (host : Host) (ev f : String) (r : Run)
    (hran : r.ran = false) (hres : r.restarting = false) :
    ((rules cfg host ev f r).loop, (rules cfg host ev f r).w.timers) =
      if restartingAfter cfg host r.w ev f then
        (((r.loop.clearTimeout r.w.timers.arcEvent).setTimeout
            (if manifestCond r.w ev f then Callback.manifestReload
              else Callback.preferencesReload) cfg.debounce).2,
          { r.w.timers with arcEvent := some r.loop.nextId })
      else
        match isStaticAsset cfg host r.w f, isStaticJson cfg host r.w f with
        | .ok asset, .ok json =>
          if !claimed cfg host r.w ev f && anyChange ev && asset && !json then
            (((r.loop.clearTimeout r.w.timers.fingerprint).setTimeout
                Callback.fingerprint cfg.debounce).2,
              { r.w.timers with fingerprint := some r.loop.nextId })
          else (r.loop, r.w.timers)
        | _, _ => (r.loop, r.w.timers) := by
  unfold rules
  simp only []
  rw [chain_eq cfg host ev f r hran]
  by_cases h1 : manifestCond r.w ev f = true
  · simp only [h1, if_true, isStaticAsset_scheduleArc, isStaticJson_scheduleArc]
    rcases isStaticAsset cfg host r.w f with ea | a <;>
      rcases isStaticJson cfg host r.w f with ej | j <;>
      simp [Run.finish, scheduleArcEvent, restartingAfter, staticRule, pluginStage, h1,
        Loop.setTimeout]
  · simp only [h1, Bool.false_eq_true, if_false]
    by_cases h2 : preferencesCond cfg host r.w ev f = true
    · simp only [h2, if_true, isStaticAsset_scheduleArc, isStaticJson_scheduleArc]
      rcases isStaticAsset cfg host r.w f with ea | a <;>
        rcases isStaticJson cfg host r.w f with ej | j <;>
        simp [Run.finish, scheduleArcEvent, restartingAfter, staticRule, pluginStage, h1, h2,
          Loop.setTimeout]
    · simp only [h2, Bool.false_eq_true, if_false]
      by_cases h3 : sourceCond r.w.shared ev f = true
      · simp only [h3, if_true]
        rcases isStaticAsset cfg host r.w f with ea | a <;>
          rcases isStaticJson cfg host r.w f with ej | j <;>
          simp [Run.finish, claimed, restartingAfter, staticRule, pluginStage, h1, h2, h3, hres]
        constructor <;> split_ifs <;> rfl
      · simp only [h3, Bool.false_eq_true, if_false]
        by_cases h4 : sourceCond r.w.views ev f = true
        · simp only [h4, if_true]
          rcases isStaticAsset cfg host r.w f with ea | a <;>
            rcases isStaticJson cfg host r.w f with ej | j <;>
            simp [Run.finish, claimed, restartingAfter, staticRule, pluginStage, h1, h2, h3,
              h4, hres]
          constructor <;> split_ifs <;> rfl
        · simp only [h4, Bool.false_eq_true, if_false]
          rcases isStaticAsset cfg host r.w f with ea | a <;>
            rcases isStaticJson cfg host r.w f with ej | j
          · simp [Run.finish, restartingAfter, h1, h2]
          · simp [Run.finish, restartingAfter, h1, h2]
          · simp [Run.finish, restartingAfter, h1, h2]
          · by_cases hs : (anyChange ev = true ∧ a = true) ∧ j = false
            · obtain ⟨⟨ha1, ha2⟩, ha3⟩ := hs
              subst ha2; subst ha3
              simp [Run.finish, claimed, restartingAfter, staticRule, pluginStage, h1, h2, h3,
                h4, hres, hran, ha1, scheduleFingerprint, Loop.setTimeout]
              constructor <;> split_ifs <;> rfl
            · have hs' : (anyChange ev && a && !j) = false := by
                cases hq : (anyChange ev && a && !j) with
                | false => rfl
                | true =>
                  exfalso; apply hs
                  simp only [Bool.and_eq_true, Bool.not_eq_true'] at hq
                  exact hq
              simp only [Run.finish, claimed, restartingAfter, staticRule, pluginStage, h1, h2,
                h3, h4, hres, hran, Bool.or_self, Bool.not_false, Bool.true_and, hs',
                Bool.false_eq_true, if_false]
              split_ifs <;> rfl

/-- What a dispatch does to the timers: nothing, or it replaces the timer of
the configuration slot, or it replaces the timer of the fingerprint slot; and
it logs a fingerprint schedule in the last case only. -/
theorem handle_loop_cases (cfg : Config) (host : Host) (w : Watcher) (loop : Loop)
    (exists_ : Bool) (event filename : String) :
    ((handle cfg host w loop exists_ event filename).loop = loop ∧
      (handle cfg host w loop exists_ event filename).w.timers = w.timers ∧
      (handle cfg host w loop exists_ event filename).effects.any isFingerprintSchedule
        = false) ∨
    (∃ cb, cb ≠ Callback.fingerprint ∧
      (handle cfg host w loop exists_ event filename).loop
        = ((loop.clearTimeout w.timers.arcEvent).setTimeout cb cfg.debounce).2 ∧
      (handle cfg host w loop exists_ event filename).w.timers
        = { w.timers with arcEvent := some loop.nextId } ∧
      (handle cfg host w loop exists_ event filename).effects.any isFingerprintSchedule
        = false) ∨
    ((handle cfg host w loop exists_ event filename).loop
        = ((loop.clearTimeout w.timers.fingerprint).setTimeout
            Callback.fingerprint cfg.debounce).2 ∧
      (handle cfg host w loop exists_ event filename).w.timers
        = { w.timers with fingerprint := some loop.nextId } ∧
      (handle cfg host w loop exists_ event filename).effects.any isFingerprintSchedule
        = true) := by
  by_cases hgate : passesGate w exists_ event = true
  · have hfp := fingerprint_handle cfg host w loop exists_ event filename hgate
    have hl := rules_loop cfg host (normalize event) filename
      { w := (unpause cfg w false).1, loop := loop, ran := false, restarting := false,
        effects := (unpause cfg w false).2 ++
          [Effect.debugStatus ("Watcher: '" ++ normalize event ++ "' on " ++ filename)] }
      rfl rfl
    rw [← handle_gate_open cfg host w loop exists_ event filename hgate] at hl
    simp only [unpause_fst] at hl
    have e1 : restartingAfter cfg host { w with paused := false } (normalize event) filename
        = restartingAfter cfg host w (normalize event) filename := rfl
    have e2 : claimed cfg host { w with paused := false } (normalize event) filename
        = claimed cfg host w (normalize event) filename := rfl
    have e3 : isStaticAsset cfg host { w with paused := false } filename
        = isStaticAsset cfg host w filename := rfl
    have e4 : isStaticJson cfg host { w with paused := false } filename
        = isStaticJson cfg host w filename := rfl
    have e5 : manifestCond { w with paused := false } (normalize event) filename
        = manifestCond w (normalize event) filename := rfl
    rw [e1, e2, e3, e4, e5] at hl
    rw [hfp]
    cases hr : restartingAfter cfg host w (normalize event) filename with
    | true =>
      right; left
      rw [hr] at hl
      simp only [if_true, Prod.mk.injEq] at hl
      have hcl : claimed cfg host w (normalize event) filename = true := by
        simp only [restartingAfter, Bool.or_eq_true] at hr
        simp only [claimed, Bool.or_eq_true]
        exact Or.inl (Or.inl hr)
      refine ⟨_, ?_, hl.1, hl.2, ?_⟩
      · split_ifs <;> simp
      · rcases isStaticAsset cfg host w filename with ea | a <;>
        rcases isStaticJson cfg host w filename with ej | j <;>
        simp [hcl]
    | false =>
      rw [hr] at hl
      simp only [Bool.false_eq_true, if_false] at hl
      revert hl
      rcases isStaticAsset cfg host w filename with ea | a <;>
      rcases isStaticJson cfg host w filename with ej | j <;>
      intro hl
      · left; simp only [Prod.mk.injEq] at hl; exact ⟨hl.1, hl.2, rfl⟩
      · left; simp only [Prod.mk.injEq] at hl; exact ⟨hl.1, hl.2, rfl⟩
      · left; simp only [Prod.mk.injEq] at hl; exact ⟨hl.1, hl.2, rfl⟩
      · simp only [] at hl ⊢
        cases hc : (!claimed cfg host w (normalize event) filename &&
            anyChange (normalize event) && a && !j) with
        | true =>
          right; right
          rw [hc] at hl
          simp only [if_true, Prod.mk.injEq] at hl
          exact ⟨hl.1, hl.2, rfl⟩
        | false =>
          left
          rw [hc] at hl
          simp only [Bool.false_eq_true, if_false, Prod.mk.injEq] at hl
          exact ⟨hl.1, hl.2, rfl⟩
  · left
    refine ⟨?_, ?_, any_handle_blocked cfg host w loop exists_ event filename
      isFingerprintSchedule hgate (fun _ => rfl) (fun _ => rfl)⟩
    · unfold handle
      unfold passesGate at hgate
      split_ifs <;> simp_all
    · unfold handle
      unfold passesGate at hgate
      split_ifs <;> simp_all

theorem mem_clearTimeout {l : Loop} {h : Option Nat} {t : Timer}
    (ht : t ∈ (l.clearTimeout h).pending) : t ∈ l.pending ∧ h ≠ some t.id := by
  cases h with
  | none => exact ⟨ht, by simp⟩
  | some i =>
    simp only [Loop.clearTimeout, List.mem_filter, bne_iff_ne, ne_eq] at ht
    exact ⟨ht.1, by simpa using fun h => ht.2 h.symm⟩

theorem clearTimeout_sublist (l : Loop) (h : Option Nat) :
    (l.clearTimeout h).pending.Sublist l.pending := by
  cases h with
  | none => exact List.Sublist.refl _
  | some i => exact List.filter_sublist _

/-- Replacing the timer of the configuration slot keeps the timers sound. -/
theorem sound_schedule_arc (w w2 : Watcher) (l : Loop) (cb : Callback) (delay : Nat)
    (h : Sound w l) (hcb : cb ≠ Callback.fingerprint)
    (hw : w2.timers = { w.timers with arcEvent := some l.nextId }) :
    Sound w2 ((l.clearTimeout w.timers.arcEvent).setTimeout cb delay).2 := by
  obtain ⟨hnd, hbound, harc, hfp, hslot, halias⟩ := h
  have hmem : ∀ t, t ∈ ((l.clearTimeout w.timers.arcEvent).setTimeout cb delay).2.pending →
      (t ∈ l.pending ∧ w.timers.arcEvent ≠ some t.id) ∨
        t = { id := l.nextId, due := l.now + delay, cb := cb } := by
    intro t ht
    simp only [Loop.setTimeout, clearTimeout_nextId, clearTimeout_now, List.mem_append,
      List.mem_singleton] at ht
    rcases ht with ht | ht
    · exact Or.inl (mem_clearTimeout ht)
    · exact Or.inr ht
  refine ⟨?_, ?_, ?_, ?_, ?_, ?_⟩
  · simp only [Loop.setTimeout, clearTimeout_nextId, clearTimeout_now, List.map_append,
      List.map_cons, List.map_nil]
    rw [List.nodup_append]
    refine ⟨hnd.sublist ((clearTimeout_sublist _ _).map _), by simp, ?_⟩
    intro i hi hj
    simp only [List.mem_singleton] at hj
    subst hj
    rw [List.mem_map] at hi
    obtain ⟨t, ht, hid⟩ := hi
    have := (hbound t (mem_clearTimeout ht).1).1
    omega
  · intro t ht
    rcases hmem t ht with ⟨hp, -⟩ | rfl
    · have := hbound t hp
      simp only [Loop.setTimeout, clearTimeout_nextId, clearTimeout_now]
      exact ⟨by omega, this.2⟩
    · simp only [Loop.setTimeout, clearTimeout_nextId, clearTimeout_now]
      exact ⟨by omega, by omega⟩
  · intro i hi
    rw [hw] at hi
    simp only [Option.some.injEq] at hi
    simp only [Loop.setTimeout, clearTimeout_nextId]
    omega
  · intro i hi
    rw [hw] at hi
    have := hfp i hi
    simp only [Loop.setTimeout, clearTimeout_nextId]
    omega
  · intro t ht
    rcases hmem t ht with ⟨hp, hne⟩ | rfl
    · have := hslot t hp
      by_cases hc : t.cb = Callback.fingerprint
      · rw [if_pos hc] at this ⊢
        rw [hw]; exact this
      · rw [if_neg hc] at this
        exact absurd this hne
    · rw [if_neg hcb, hw]
  · intro i hi
    rw [hw] at hi ⊢
    simp only [Option.some.injEq] at hi
    subst hi
    intro hf
    have := hfp _ hf
    omega

/-- Replacing the timer of the fingerprint slot keeps the timers sound. -/
theorem sound_schedule_fingerprint (w w2 : Watcher) (l : Loop) (delay : Nat)
    (h : Sound w l) (hw : w2.timers = { w.timers with fingerprint := some l.nextId }) :
    Sound w2 ((l.clearTimeout w.timers.fingerprint).setTimeout Callback.fingerprint delay).2 := by
  obtain ⟨hnd, hbound, harc, hfp, hslot, halias⟩ := h
  have hmem : ∀ t,
      t ∈ ((l.clearTimeout w.timers.fingerprint).setTimeout Callback.fingerprint delay).2.pending →
      (t ∈ l.pending ∧ w.timers.fingerprint ≠ some t.id) ∨
        t = { id := l.nextId, due := l.now + delay, cb := Callback.fingerprint } := by
    intro t ht
    simp only [Loop.setTimeout, clearTimeout_nextId, clearTimeout_now, List.mem_append,
      List.mem_singleton] at ht
    rcases ht with ht | ht
    · exact Or.inl (mem_clearTimeout ht)
    · exact Or.inr ht
  refine ⟨?_, ?_, ?_, ?_, ?_, ?_⟩
  · simp only [Loop.setTimeout, clearTimeout_nextId, clearTimeout_now, List.map_append,
      List.map_cons, List.map_nil]
    rw [List.nodup_append]
    refine ⟨hnd.sublist ((clearTimeout_sublist _ _).map _), by simp, ?_⟩
    intro i hi hj
    simp only [List.mem_singleton] at hj
    subst hj
    rw [List.mem_map] at hi
    obtain ⟨t, ht, hid⟩ := hi
    have := (hbound t (mem_clearTimeout ht).1).1
    omega
  · intro t ht
    rcases hmem t ht with ⟨hp, -⟩ | rfl
    · have := hbound t hp
      simp only [Loop.setTimeout, clearTimeout_nextId, clearTimeout_now]
      exact ⟨by omega, this.2⟩
    · simp only [Loop.setTimeout, clearTimeout_nextId, clearTimeout_now]
      exact ⟨by omega, by omega⟩
  · intro i hi
    rw [hw] at hi
    have := harc i hi
    simp only [Loop.setTimeout, clearTimeout_nextId]
    omega
  · intro i hi
    rw [hw] at hi
    simp only [Option.some.injEq] at hi
    simp only [Loop.setTimeout, clearTimeout_nextId]
    omega
  · intro t ht
    rcases hmem t ht with ⟨hp, hne⟩ | rfl
    · have := hslot t hp
      by_cases hc : t.cb = Callback.fingerprint
      · rw [if_pos hc] at this
        exact absurd this hne
      · rw [if_neg hc] at this ⊢
        rw [hw]; exact this
    · simp [hw]
  · intro i hi
    rw [hw] at hi ⊢
    intro hf
    have hf' : l.nextId = i := Option.some.inj hf
    have := harc i hi
    omega

/-- A dispatch keeps the timers sound. -/
theorem handle_sound (cfg : Config) (host : Host) (w : Watcher) (loop : Loop)
    (exists_ : Bool) (event filename : String) (h : Sound w loop) :
    Sound (handle cfg host w loop exists_ event filename).w
      (handle cfg host w loop exists_ event filename).loop := by
  rcases handle_loop_cases cfg host w loop exists_ event filename with
    ⟨h1, h2, -⟩ | ⟨cb, hcb, h1, h2, -⟩ | ⟨h1, h2, -⟩
  · rw [h1]
    unfold Sound at h ⊢
    rw [h2]; exact h
  · rw [h1]
    exact sound_schedule_arc w _ loop cb cfg.debounce h hcb h2
  · rw [h1]
    exact sound_schedule_fingerprint w _ loop cfg.debounce h h2

theorem sound_init (inventory : Inventory) : Sound (initWatcher inventory) idleLoop := by
  simp [Sound, initWatcher, refreshInventory, idleLoop]

/-- No dispatch makes a call outside the trace, status, timer, rehydration and
plugin-run calls. -/
theorem any_handle (cfg : Config) (host : Host) (w : Watcher) (loop : Loop)
    (exists_ : Bool) (event filename : String) (p : Effect → Bool)
    (hd : ∀ m, p (Effect.debugStatus m) = false)
    (hst : ∀ m, p (Effect.status m) = false)
    (hc : ∀ h, p (Effect.clearTimeout h) = false)
    (hs : ∀ i cb d, p (Effect.setTimeout i cb d) = false)
    (hr : ∀ a, p (Effect.rehydrate a) = false)
    (hp : ∀ f e l, p (Effect.runPlugins f e l) = false) :
    (handle cfg host w loop exists_ event filename).effects.any p = false := by
  by_cases hgate : passesGate w exists_ event = true
  · rw [handle_effects cfg host w loop exists_ event filename hgate]
    have hchain : (chainEffects cfg host w loop.nextId (normalize event) filename).any p
        = false := by
      unfold chainEffects
      split_ifs <;> simp [hc, hs, hr]
    have htail : ∀ a j,
        (tailEffects cfg host w loop.nextId (normalize event) filename a j).any p = false := by
      intro a j
      unfold tailEffects
      rw [List.any_append]
      split_ifs <;> simp [hc, hs, hp]
    simp only [List.any_append, any_unpause cfg w p hst hr, hchain]
    rcases isStaticAsset cfg host w filename with ea | a <;>
    rcases isStaticJson cfg host w filename with ej | j <;>
    simp [hd, htail]
  · exact any_handle_blocked cfg host w loop exists_ event filename p hgate hd hst

theorem fingerprintTimes_stamp_nil (now : Nat) (l : List Effect)
    (h : l.any isFingerprintCall = false) : fingerprintTimes (stamp now l) = [] := by
  unfold fingerprintTimes stamp
  rw [List.map_eq_nil_iff, List.filter_eq_nil_iff]
  intro e he
  rw [List.mem_map] at he
  obtain ⟨x, hx, rfl⟩ := he
  rw [List.any_eq_false] at h
  simpa using h x hx

theorem callCount_stamp_pos (p : Effect → Bool) (now : Nat) (l : List Effect)
    (h : l.any p = true) : 0 < callCount p (stamp now l) := by
  unfold callCount stamp
  rw [List.any_eq_true] at h
  obtain ⟨x, hx, hpx⟩ := h
  rw [List.length_pos_iff_exists_mem]
  exact ⟨(now, x), by
    rw [List.mem_filter]
    exact ⟨List.mem_map.2 ⟨x, hx, rfl⟩, hpx⟩⟩

theorem thrown_fingerprintTimes (now : Nat) (thrown : Option String) :
    fingerprintTimes (match thrown with
      | some err => [(now, Effect.thrown err)]
      | none => []) = [] ∧
    callCount isFingerprintSchedule (match thrown with
      | some err => [(now, Effect.thrown err)]
      | none => []) = 0 := by
  cases thrown <;> simp [fingerprintTimes, callCount, isFingerprintCall, isFingerprintSchedule]

/-- What delivering a notification does in a sound state. -/
theorem deliver_spec (cfg : Config) (host : Host) (s : Sys) (n : Notification)
    (h : Sound s.w s.loop) :
    Sound (deliver cfg host s n).w (deliver cfg host s n).loop ∧
      fingerprintTimes (deliver cfg host s n).log
        = fingerprintTimes s.log ++
            ((s.loop.pending.filter isFingerprintTimer).filter
              (fun t => t.due ≤ n.time)).map (fun t => t.due) ∧
      callCount isFingerprintSchedule s.log
        ≤ callCount isFingerprintSchedule (deliver cfg host s n).log ∧
      (callCount isFingerprintSchedule (deliver cfg host s n).log
          = callCount isFingerprintSchedule s.log →
        (deliver cfg host s n).loop.pending.filter isFingerprintTimer
          = (s.loop.pending.filter isFingerprintTimer).filter (fun t => n.time < t.due)) := by
  obtain ⟨a1, a2, a3, a4, a5, a6⟩ := advance_spec cfg host n.time s h
  have hs1 := advance_sound cfg host n.time s h
  have hcall := any_handle cfg host (advance cfg host n.time s).w (advance cfg host n.time s).loop
    n.exists_ n.event n.filename isFingerprintCall (fun _ => rfl) (fun _ => rfl) (fun _ => rfl)
    (fun _ _ _ => rfl) (fun _ => rfl) (fun _ _ _ => rfl)
  have hlog : (deliver cfg host s n).log = (advance cfg host n.time s).log ++
      stamp (advance cfg host n.time s).loop.now
        (handle cfg host (advance cfg host n.time s).w (advance cfg host n.time s).loop
          n.exists_ n.event n.filename).effects ++
      (match (handle cfg host (advance cfg host n.time s).w (advance cfg host n.time s).loop
          n.exists_ n.event n.filename).thrown with
        | some err => [((advance cfg host n.time s).loop.now, Effect.thrown err)]
        | none => []) := rfl
  have hcount : callCount isFingerprintSchedule (deliver cfg host s n).log
      = callCount isFingerprintSchedule s.log +
        callCount isFingerprintSchedule (stamp (advance cfg host n.time s).loop.now
          (handle cfg host (advance cfg host n.time s).w (advance cfg host n.time s).loop
            n.exists_ n.event n.filename).effects) := by
    rw [hlog, callCount_append, callCount_append, (thrown_fingerprintTimes _ _).2, a6]
    rfl
  refine ⟨handle_sound cfg host _ _ _ _ _ hs1, ?_, ?_, ?_⟩
  · rw [hlog, fingerprintTimes_append, fingerprintTimes_append,
      (thrown_fingerprintTimes _ _).1, fingerprintTimes_stamp_nil _ _ hcall, a5]
    simp
  · rw [hcount]; exact Nat.le_add_right _ _
  · intro heq
    rw [hcount] at heq
    have hzero : callCount isFingerprintSchedule (stamp (advance cfg host n.time s).loop.now
        (handle cfg host (advance cfg host n.time s).w (advance cfg host n.time s).loop
          n.exists_ n.event n.filename).effects) = 0 := by omega
    have hpend : (deliver cfg host s n).loop.pending.filter isFingerprintTimer
        = (advance cfg host n.time s).loop.pending.filter isFingerprintTimer := by
      show (handle cfg host (advance cfg host n.time s).w (advance cfg host n.time s).loop
          n.exists_ n.event n.filename).loop.pending.filter isFingerprintTimer = _
      rcases handle_loop_cases cfg host (advance cfg host n.time s).w
          (advance cfg host n.time s).loop n.exists_ n.event n.filename with
        ⟨h1, -, -⟩ | ⟨cb, hcb, h1, -, -⟩ | ⟨-, -, h3⟩
      · rw [h1]
      · rw [h1]
        simp only [Loop.setTimeout, List.filter_append]
        have hnew : List.filter isFingerprintTimer
            [{ id := ((advance cfg host n.time s).loop.clearTimeout
                  (advance cfg host n.time s).w.timers.arcEvent).nextId,
               due := ((advance cfg host n.time s).loop.clearTimeout
                  (advance cfg host n.time s).w.timers.arcEvent).now + cfg.debounce,
               cb := cb }] = [] := by
          simp [isFingerprintTimer, hcb]
        rw [hnew, List.append_nil]
        cases harc : (advance cfg host n.time s).w.timers.arcEvent with
        | none => rfl
        | some i =>
          simp only [Loop.clearTimeout, List.filter_filter]
          apply List.filter_congr
          intro t ht
          by_cases hc : isFingerprintTimer t = true
          · obtain ⟨-, -, -, -, hslot, halias⟩ := hs1
            have hsl := hslot t ht
            simp only [isFingerprintTimer, decide_eq_true_eq] at hc
            rw [if_pos hc] at hsl
            have hne : t.id ≠ i := by
              intro hid
              subst hid
              exact halias _ harc hsl
            simp [hne, isFingerprintTimer, hc]
          · simp [hc]
      · exact absurd hzero (Nat.pos_iff_ne_zero.1 (callCount_stamp_pos _ _ _ h3))
    rw [hpend, a1, List.filter_filter, List.filter_filter]
    apply List.filter_congr
    intro t _
    exact Bool.and_comm _ _

theorem pluginLoop_any (outcome : Nat → PluginOutcome) (filename event : String)
    (p : Effect → Bool) (hi : ∀ q f e, p (Effect.invokePlugin q f e) = false)
    (hw : ∀ m, p (Effect.warn m) = false) (l : List Plugin) :
    ∀ index, (pluginLoop outcome filename event index l).1.any p = false := by
  induction l with
  | nil => intro index; rfl
  | cons q rest ih =>
    intro index
    unfold pluginLoop
    cases outcome index with
    | completes => simpa [hi] using ih (index + 1)
    | raises v =>
      cases v with
      | nullish => simp [catchBlock, hi]
      | value m => simpa [catchBlock, hi, hw] using ih (index + 1)

/-- A plugin run that settles leaves the loop, the timer slots, the
fingerprinter calls and the fingerprint schedules as they are. -/
theorem settle_spec (outcome : Nat → PluginOutcome) (ss : Session) :
    (settle outcome ss).sys.loop = ss.sys.loop ∧
      (settle outcome ss).sys.w.timers = ss.sys.w.timers ∧
      fingerprintTimes (settle outcome ss).sys.log = fingerprintTimes ss.sys.log ∧
      callCount isFingerprintSchedule (settle outcome ss).sys.log
        = callCount isFingerprintSchedule ss.sys.log := by
  unfold settle
  cases hr : ss.running with
  | none => simp
  | some r =>
    have h1 := pluginLoop_any outcome r.filename r.event isFingerprintCall
      (fun _ _ _ => rfl) (fun _ => rfl) r.plugins 0
    have h2 := pluginLoop_any outcome r.filename r.event isFingerprintSchedule
      (fun _ _ _ => rfl) (fun _ => rfl) r.plugins 0
    cases hres : (pluginLoop outcome r.filename r.event 0 r.plugins).2 with
    | none =>
      simp only [hres]
      refine ⟨trivial, trivial, ?_, ?_⟩
      · rw [fingerprintTimes_append, fingerprintTimes_stamp_nil _ _ h1, List.append_nil]
      · rw [callCount_append, callCount_stamp_zero _ _ _ h2]; rfl
    | some err =>
      simp only [hres]
      refine ⟨trivial, trivial, ?_, ?_⟩
      · rw [fingerprintTimes_append, fingerprintTimes_stamp_nil _ _
          (by simp [List.any_append, h1, isFingerprintCall]), List.append_nil]
      · rw [callCount_append, callCount_stamp_zero _ _ _
          (by simp [List.any_append, h2, isFingerprintSchedule])]
        rfl

theorem sound_congr {w w2 : Watcher} {l : Loop} (hw : w2.timers = w.timers) (h : Sound w l) :
    Sound w2 l := by
  unfold Sound at h ⊢
  rw [hw]; exact h

/-- Every step keeps the timers sound. -/
theorem step_sound (cfg : Config) (host : Host) (ss : Session) (st : Step)
    (h : Sound ss.sys.w ss.sys.loop) :
    Sound (step cfg host ss st).sys.w (step cfg host ss st).sys.loop := by
  cases st with
  | notify n => exact (deliver_spec cfg host ss.sys n h).1
  | settle o =>
    obtain ⟨h1, h2, -, -⟩ := settle_spec o ss
    show Sound (settle o ss).sys.w (settle o ss).sys.loop
    rw [h1]
    exact sound_congr h2 h

/-- The timers are sound in every state reached from a sound one. -/
theorem steps_sound (cfg : Config) (host : Host) (l : List Step) :
    ∀ ss : Session, Sound ss.sys.w ss.sys.loop →
      Sound (steps cfg host ss l).sys.w (steps cfg host ss l).sys.loop := by
  induction l with
  | nil => intro ss h; exact h
  | cons st rest ih =>
    intro ss h
    have : steps cfg host ss (st :: rest) = steps cfg host (step cfg host ss st) rest := by
      simp [steps]
    rw [this]
    exact ih _ (step_sound cfg host ss st h)

theorem schedule_count_mono (cfg : Config) (host : Host) (horizon : Nat) (l : List Step) :
    ∀ ss : Session, Sound ss.sys.w ss.sys.loop →
      callCount isFingerprintSchedule ss.sys.log
        ≤ callCount isFingerprintSchedule
            (advance cfg host horizon (steps cfg host ss l).sys).log := by
  induction l with
  | nil =>
    intro ss h
    exact Nat.le_of_eq (advance_spec cfg host horizon ss.sys h).2.2.2.2.2.symm
  | cons st rest ih =>
    intro ss h
    have hst : steps cfg host ss (st :: rest) = steps cfg host (step cfg host ss st) rest := by
      simp [steps]
    rw [hst]
    refine Nat.le_trans ?_ (ih _ (step_sound cfg host ss st h))
    cases st with
    | notify n => exact (deliver_spec cfg host ss.sys n h).2.2.1
    | settle o => exact Nat.le_of_eq (settle_spec o ss).2.2.2.symm

/-- From a sound state on, as long as the fingerprint timer is not scheduled
again, the pending fingerprint timer calls the fingerprinter once, when it is
due, and nothing else does. -/
theorem fingerprint_tracked (cfg : Config) (host : Host) (horizon : Nat) (l : List Step) :
    ∀ ss : Session, Sound ss.sys.w ss.sys.loop →
      callCount isFingerprintSchedule
          (advance cfg host horizon (steps cfg host ss l).sys).log
        = callCount isFingerprintSchedule ss.sys.log →
      (ss.sys.loop.pending.filter isFingerprintTimer = [] →
        fingerprintTimes (advance cfg host horizon (steps cfg host ss l).sys).log
          = fingerprintTimes ss.sys.log) ∧
      (∀ x, ss.sys.loop.pending.filter isFingerprintTimer = [x] →
        (fingerprintTimes (advance cfg host horizon (steps cfg host ss l).sys).log
            = fingerprintTimes ss.sys.log ∨
          fingerprintTimes (advance cfg host horizon (steps cfg host ss l).sys).log
            = fingerprintTimes ss.sys.log ++ [x.due]) ∧
        (x.due ≤ horizon →
          fingerprintTimes (advance cfg host horizon (steps cfg host ss l).sys).log
            = fingerprintTimes ss.sys.log ++ [x.due])) := by
  induction l with
  | nil =>
    intro ss h _
    have a5 := (advance_spec cfg host horizon ss.sys h).2.2.2.2.1
    refine ⟨?_, ?_⟩
    · intro hF
      show fingerprintTimes (advance cfg host horizon ss.sys).log = _
      rw [a5, hF]; simp
    · intro x hF
      have e : fingerprintTimes (advance cfg host horizon (steps cfg host ss []).sys).log
          = fingerprintTimes ss.sys.log ++
              (([x].filter (fun t => t.due ≤ horizon)).map (fun t => t.due)) := by
        show fingerprintTimes (advance cfg host horizon ss.sys).log = _
        rw [a5, hF]
      rw [e]
      by_cases hd : x.due ≤ horizon
      · simp [List.filter_cons, hd]
      · simp [List.filter_cons, hd]
  | cons st rest ih =>
    intro ss h hcount
    have hst : steps cfg host ss (st :: rest) = steps cfg host (step cfg host ss st) rest := by
      simp [steps]
    rw [hst] at hcount ⊢
    have hs' := step_sound cfg host ss st h
    have hmono := schedule_count_mono cfg host horizon rest (step cfg host ss st) hs'
    cases st with
    | notify n =>
      obtain ⟨-, d2, d3, d4⟩ := deliver_spec cfg host ss.sys n h
      have hc1 : callCount isFingerprintSchedule (deliver cfg host ss.sys n).log
          = callCount isFingerprintSchedule ss.sys.log :=
        Nat.le_antisymm (Nat.le_trans hmono (Nat.le_of_eq hcount)) d3
      have hF' := d4 hc1
      obtain ⟨i1, i2⟩ := ih (step cfg host ss (Step.notify n)) hs' (hcount.trans hc1.symm)
      refine ⟨?_, ?_⟩
      · intro hF
        rw [hF] at hF' d2
        have e : fingerprintTimes
              (advance cfg host horizon
                (steps cfg host (step cfg host ss (Step.notify n)) rest).sys).log
            = fingerprintTimes (deliver cfg host ss.sys n).log :=
          i1 (hF'.trans rfl)
        rw [e, d2]
        simp
      · intro x hF
        rw [hF] at hF' d2
        by_cases hd : x.due ≤ n.time
        · have hF2 : (deliver cfg host ss.sys n).loop.pending.filter isFingerprintTimer
              = [] := by
            rw [hF']; simp [List.filter_cons]; omega
          have e : fingerprintTimes
                (advance cfg host horizon
                  (steps cfg host (step cfg host ss (Step.notify n)) rest).sys).log
              = fingerprintTimes (deliver cfg host ss.sys n).log := i1 hF2
          have d2' : fingerprintTimes (deliver cfg host ss.sys n).log
              = fingerprintTimes ss.sys.log ++ [x.due] := by
            rw [d2]; simp [List.filter_cons, hd]
          rw [e, d2']
          exact ⟨Or.inr rfl, fun _ => rfl⟩
        · have hF2 : (deliver cfg host ss.sys n).loop.pending.filter isFingerprintTimer
              = [x] := by
            rw [hF']; simp [List.filter_cons]; omega
          have d2' : fingerprintTimes (deliver cfg host ss.sys n).log
              = fingerprintTimes ss.sys.log := by
            rw [d2]; simp [List.filter_cons, hd]
          have e : (fingerprintTimes
                (advance cfg host horizon
                  (steps cfg host (step cfg host ss (Step.notify n)) rest).sys).log
                = fingerprintTimes (deliver cfg host ss.sys n).log ∨
              fingerprintTimes
                (advance cfg host horizon
                  (steps cfg host (step cfg host ss (Step.notify n)) rest).sys).log
                = fingerprintTimes (deliver cfg host ss.sys n).log ++ [x.due]) ∧
              (x.due ≤ horizon →
                fingerprintTimes
                  (advance cfg host horizon
                    (steps cfg host (step cfg host ss (Step.notify n)) rest).sys).log
                  = fingerprintTimes (deliver cfg host ss.sys n).log ++ [x.due]) :=
            i2 x hF2
          rw [d2'] at e
          exact e
    | settle o =>
      obtain ⟨s1, -, s3, s4⟩ := settle_spec o ss
      obtain ⟨i1, i2⟩ := ih (step cfg host ss (Step.settle o)) hs' (hcount.trans s4.symm)
      have e3 : fingerprintTimes (step cfg host ss (Step.settle o)).sys.log
          = fingerprintTimes ss.sys.log := s3
      have e1 : (step cfg host ss (Step.settle o)).sys.loop = ss.sys.loop := s1
      rw [e1, e3] at i1 i2
      exact ⟨i1, i2⟩

/-- In a sound state, clearing the fingerprint handle removes the pending
fingerprint timers and no other timer. -/
theorem clearTimeout_fingerprint {w : Watcher} {l : Loop} (h : Sound w l) :
    (l.clearTimeout w.timers.fingerprint).pending
      = l.pending.filter (fun t => !isFingerprintTimer t) := by
  obtain ⟨-, -, -, -, hslot, halias⟩ := h
  cases hf : w.timers.fingerprint with
  | none =>
    show l.pending = _
    symm
    rw [List.filter_eq_self]
    intro t ht
    have hsl := hslot t ht
    by_cases hc : t.cb = Callback.fingerprint
    · rw [if_pos hc, hf] at hsl; cases hsl
    · simp [isFingerprintTimer, hc]
  | some i =>
    show l.pending.filter (fun t => t.id != i) = _
    apply List.filter_congr
    intro t ht
    have hsl := hslot t ht
    by_cases hc : t.cb = Callback.fingerprint
    · rw [if_pos hc, hf] at hsl
      have : i = t.id := Option.some.inj hsl
      simp [isFingerprintTimer, hc, this]
    · rw [if_neg hc] at hsl
      have hne : t.id ≠ i := by
        intro hid
        subst hid
        exact halias _ hsl hf
      simp [isFingerprintTimer, hc, hne]

/-- A dispatch schedules the fingerprint timer only for an asset under the
static folder that is not a `static.json`. -/
theorem schedule_needs_static (cfg : Config) (host : Host) (w : Watcher) (loop : Loop)
    (exists_ : Bool) (event filename : String)
    (h : (handle cfg host w loop exists_ event filename).effects.any isFingerprintSchedule
      = true) :
    isStaticAsset cfg host w filename = .ok true ∧
      isStaticJson cfg host w filename = .ok false := by
  by_cases hgate : passesGate w exists_ event = true
  · rw [fingerprint_handle cfg host w loop exists_ event filename hgate] at h
    rcases ha : isStaticAsset cfg host w filename with ea | a <;>
    rcases hj : isStaticJson cfg host w filename with ej | j <;>
    rw [ha, hj] at h <;> simp at h
    obtain ⟨⟨-, rfl⟩, rfl⟩ := h
    exact ⟨rfl, rfl⟩
  · rw [any_handle_blocked cfg host w loop exists_ event filename isFingerprintSchedule hgate
      (fun _ => rfl) (fun _ => rfl)] at h
    cases h

theorem deliver_schedule_count (cfg : Config) (host : Host) (s : Sys) (n : Notification)
    (h : Sound s.w s.loop) :
    callCount isFingerprintSchedule (deliver cfg host s n).log
      = callCount isFingerprintSchedule s.log +
        callCount isFingerprintSchedule (stamp (advance cfg host n.time s).loop.now
          (handle cfg host (advance cfg host n.time s).w (advance cfg host n.time s).loop
            n.exists_ n.event n.filename).effects) := by
  have a6 := (advance_spec cfg host n.time s h).2.2.2.2.2
  have hlog : (deliver cfg host s n).log = (advance cfg host n.time s).log ++
      stamp (advance cfg host n.time s).loop.now
        (handle cfg host (advance cfg host n.time s).w (advance cfg host n.time s).loop
          n.exists_ n.event n.filename).effects ++
      (match (handle cfg host (advance cfg host n.time s).w (advance cfg host n.time s).loop
          n.exists_ n.event n.filename).thrown with
        | some err => [((advance cfg host n.time s).loop.now, Effect.thrown err)]
        | none => []) := rfl
  rw [hlog, callCount_append, callCount_append, a6]
  generalize (handle cfg host (advance cfg host n.time s).w (advance cfg host n.time s).loop
    n.exists_ n.event n.filename).thrown = thrown
  cases thrown <;> simp [callCount, isFingerprintSchedule]

/-- While no event on a static asset arrives, the fingerprint timer is not
scheduled. -/
theorem no_static_no_schedule (cfg : Config) (host : Host) (horizon : Nat) (l : List Step) :
    ∀ ss : Session, Sound ss.sys.w ss.sys.loop →
      (∀ (pre post : List Step) (n : Notification), l = pre ++ Step.notify n :: post →
        ¬ (isStaticAsset cfg host (advance cfg host n.time (steps cfg host ss pre).sys).w
              n.filename = .ok true ∧
            isStaticJson cfg host (advance cfg host n.time (steps cfg host ss pre).sys).w
              n.filename = .ok false)) →
      callCount isFingerprintSchedule (advance cfg host horizon (steps cfg host ss l).sys).log
        = callCount isFingerprintSchedule ss.sys.log := by
  induction l with
  | nil =>
    intro ss h _
    exact (advance_spec cfg host horizon ss.sys h).2.2.2.2.2
  | cons st rest ih =>
    intro ss h hno
    have hst : steps cfg host ss (st :: rest) = steps cfg host (step cfg host ss st) rest := by
      simp [steps]
    rw [hst]
    have hrest : ∀ (pre post : List Step) (n : Notification),
        rest = pre ++ Step.notify n :: post →
        ¬ (isStaticAsset cfg host
              (advance cfg host n.time (steps cfg host (step cfg host ss st) pre).sys).w
              n.filename = .ok true ∧
            isStaticJson cfg host
              (advance cfg host n.time (steps cfg host (step cfg host ss st) pre).sys).w
              n.filename = .ok false) := by
      intro pre post n hl
      have := hno (st :: pre) post n (by rw [hl]; rfl)
      have hpre : steps cfg host ss (st :: pre) = steps cfg host (step cfg host ss st) pre := by
        simp [steps]
      rw [hpre] at this
      exact this
    rw [ih _ (step_sound cfg host ss st h) hrest]
    cases st with
    | notify n =>
      show callCount isFingerprintSchedule (deliver cfg host ss.sys n).log = _
      rw [deliver_schedule_count cfg host ss.sys n h]
      have hnot := hno [] rest n rfl
      have hany : (handle cfg host (advance cfg host n.time ss.sys).w
          (advance cfg host n.time ss.sys).loop n.exists_ n.event n.filename).effects.any
            isFingerprintSchedule = false := by
        cases hc : (handle cfg host (advance cfg host n.time ss.sys).w
          (advance cfg host n.time ss.sys).loop n.exists_ n.event n.filename).effects.any
            isFingerprintSchedule with
        | false => rfl
        | true => exact absurd (schedule_needs_static cfg host _ _ _ _ _ hc) hnot
      rw [callCount_stamp_zero _ _ _ hany]
      rfl
    | settle o => exact (settle_spec o ss).2.2.2

theorem clearTimeout_clock (l : Loop) (h : Option Nat) :
    (l.clearTimeout h).nextId = l.nextId ∧ (l.clearTimeout h).now = l.now := by
  cases h <;> exact ⟨rfl, rfl⟩

/-- What an add of a static asset does to an open watcher: it replaces the
fingerprint timer by a fresh one; the configuration timer is untouched. -/
theorem handle_static_add (cfg : Config) (host : Host) (w : Watcher) (loop : Loop)
    (filename : String) (hp : w.paused = false) (hrun : w.pluginsRunning = false)
    (hprefs : preferencesCond cfg host w "add" filename = false)
    (hasset : isStaticAsset cfg host w filename = .ok true)
    (hjson : isStaticJson cfg host w filename = .ok false) :
    (handle cfg host w loop false "add" filename).loop
        = ((loop.clearTimeout w.timers.fingerprint).setTimeout
            Callback.fingerprint cfg.debounce).2 ∧
      (handle cfg host w loop false "add" filename).w.timers
        = { w.timers with fingerprint := some loop.nextId } ∧
      (handle cfg host w loop false "add" filename).thrown = none := by
  have hgate : passesGate w false "add" = true := by
    simp [passesGate, hp, hrun, ignoredEvents]
  have hn : normalize "add" = "add" := by decide
  have hu : unpause cfg w false = (w, []) := by simp [unpause, hp]
  have h1 : manifestCond w "add" filename = false := by simp [manifestCond, fileUpdate]
  have h3 : ∀ root, sourceCond root "add" filename = false := by
    intro root; simp [sourceCond, updateOrRemove]
  rw [handle_gate_open cfg host w loop false "add" filename hgate, hn, hu]
  unfold rules
  simp only []
  rw [chain_eq cfg host "add" filename _ rfl]
  simp only [h1, hprefs, h3, Bool.false_eq_true, if_false, hasset, hjson]
  simp only [Run.finish, staticRule, pluginStage, anyChange]
  simp [scheduleFingerprint, Loop.setTimeout]
  refine ⟨?_, ?_⟩ <;> split_ifs <;> rfl

/-- C11, refuted as stated: an add of a file under the static folder that is
not the `static.json` manifest schedules no fingerprint timer when its path
contains the manifest's path further down, and none either when the project
has no shared-source root, where the dispatch throws instead. -/
theorem C11_static_add_without_fingerprint :
    (passesGate (initWatcher fullInventory) false "add" = true ∧
      includes "/proj/public/old/proj/public/static.json"
        (posixJoin ["/proj", "public"]) = true ∧
      "/proj/public/old/proj/public/static.json" ≠ posixJoin ["/proj", "public", "static.json"] ∧
      (handle projConfig (posixHost fullInventory) (initWatcher fullInventory) idleLoop false
        "add" "/proj/public/old/proj/public/static.json").effects.any isFingerprintSchedule
        = false) ∧
    (passesGate (initWatcher staticInventory) false "add" = true ∧
      includes "/proj/public/logo.png" (posixJoin ["/proj", "public"]) = true ∧
      (handle projConfig (posixHost staticInventory) (initWatcher staticInventory) idleLoop
        false "add" "/proj/public/logo.png").effects.any isFingerprintSchedule = false ∧
      (handle projConfig (posixHost staticInventory) (initWatcher staticInventory) idleLoop
        false "add" "/proj/public/logo.png").thrown = some typeError) := by
  decide

/-- C11, amended: in every state the watcher reaches, whatever timers are
pending, with static serving enabled and a shared-source root configured, an add
event whose path contains the static folder's path, contains neither the path
of `static.json` under the static folder nor the one under the shared root, and
is not the `.env` or a preferences file, dispatched with the gate open,
schedules the fingerprint timer in that dispatch: the pending fingerprint timer
is dropped, every other pending timer stays, and the new timer is due one
debounce duration later. If no further event on an asset under the static
folder arrives, whatever else arrives or settles, the fingerprinter is called
after the dispatch at that time only and never twice, and it is called once the
observation reaches that time. Here `s` is the state in which the event is
dispatched, after any `history` of notifications and plugin settlements, and
`ss` is the session after the dispatch. -/
theorem C11_static_add_schedules_fingerprint (cfg : Config) (host : Host)
    (inventory : Inventory) (history later : List Step) (time horizon : Nat) (exists_ : Bool)
    (filename folder root : String) (st : StaticCfg) (s : Sys) (ss : Session)
    (hs : s = advance cfg host time (steps cfg host (idleSession inventory) history).sys)
    (hss : ss = step cfg host (steps cfg host (idleSession inventory) history)
      (Step.notify { time := time, exists_ := exists_, event := "add", filename := filename }))
    (hgate : passesGate s.w exists_ "add" = true)
    (hstatic : s.w.inv.static = some st) (hfolder : s.w.staticFolder = some folder)
    (hshared : s.w.shared = some root)
    (hunder : includes filename (host.join [cfg.cwd, folder]) = true)
    (hjson1 : includes filename (host.join [cfg.cwd, folder, "static.json"]) = false)
    (hjson2 : includes filename (host.join [root, "static.json"]) = false)
    (henv : filename ≠ host.join [cfg.cwd, ".env"])
    (hlocal : some filename ≠ s.w.inv.project.localPreferencesFile)
    (hglobal : some filename ≠ s.w.inv.project.globalPreferencesFile)
    (hnone : ∀ (pre post : List Step) (n : Notification),
      later = pre ++ Step.notify n :: post →
      ¬ (isStaticAsset cfg host (advance cfg host n.time (steps cfg host ss pre).sys).w
            n.filename = .ok true ∧
          isStaticJson cfg host (advance cfg host n.time (steps cfg host ss pre).sys).w
            n.filename = .ok false)) :
    (handle cfg host s.w s.loop exists_ "add" filename).effects.any isFingerprintSchedule
        = true ∧
      ss.sys.loop.pending
        = s.loop.pending.filter (fun t => !isFingerprintTimer t) ++
            [{ id := s.loop.nextId, due := s.loop.now + cfg.debounce,
               cb := Callback.fingerprint }] ∧
      ss.sys.w.timers.fingerprint = some s.loop.nextId ∧
      s.loop.now = max (steps cfg host (idleSession inventory) history).sys.loop.now time ∧
      (fingerprintTimes (advance cfg host horizon (steps cfg host ss later).sys).log
          = fingerprintTimes s.log ∨
        fingerprintTimes (advance cfg host horizon (steps cfg host ss later).sys).log
          = fingerprintTimes s.log ++ [s.loop.now + cfg.debounce]) ∧
      (s.loop.now + cfg.debounce ≤ horizon →
        fingerprintTimes (advance cfg host horizon (steps cfg host ss later).sys).log
          = fingerprintTimes s.log ++ [s.loop.now + cfg.debounce]) := by
  have hbase : Sound (steps cfg host (idleSession inventory) history).sys.w
      (steps cfg host (idleSession inventory) history).sys.loop :=
    steps_sound cfg host history (idleSession inventory) (sound_init inventory)
  have hsound : Sound s.w s.loop := by
    rw [hs]; exact advance_sound cfg host time _ hbase
  have hssound : Sound ss.sys.w ss.sys.loop := by
    rw [hss]; exact step_sound cfg host _ _ hbase
  have hn : normalize "add" = "add" := by decide
  have hprefs : preferencesCond cfg host s.w "add" filename = false := by
    simp [preferencesCond, henv, hlocal, hglobal]
  have hasset : isStaticAsset cfg host s.w filename = .ok true := by
    simp [isStaticAsset, hstatic, hfolder, pathJoin, allStrings, hunder]
  have hjson : isStaticJson cfg host s.w filename = .ok false := by
    simp [isStaticJson, hstatic, hfolder, hshared, pathJoin, allStrings, hjson1, hjson2]
  have hsched : (handle cfg host s.w s.loop exists_ "add" filename).effects.any
      isFingerprintSchedule = true := by
    rw [fingerprint_handle cfg host s.w s.loop exists_ "add" filename hgate, hn, hasset, hjson]
    simp [claimed, manifestCond, fileUpdate, hprefs, sourceCond, updateOrRemove, anyChange]
  have hloop : ss.sys.loop = (handle cfg host s.w s.loop exists_ "add" filename).loop := by
    rw [hss, hs]; rfl
  have hw : ss.sys.w = (handle cfg host s.w s.loop exists_ "add" filename).w := by
    rw [hss, hs]; rfl
  have hcalls : fingerprintTimes ss.sys.log = fingerprintTimes s.log := by
    rw [hss, hs]
    exact ((deliver_spec cfg host _ _ hbase).2.1).trans
      (advance_spec cfg host time _ hbase).2.2.2.2.1.symm
  have hpending : ss.sys.loop.pending
      = s.loop.pending.filter (fun t => !isFingerprintTimer t) ++
          [{ id := s.loop.nextId, due := s.loop.now + cfg.debounce,
             cb := Callback.fingerprint }] := by
    rcases handle_loop_cases cfg host s.w s.loop exists_ "add" filename with
      ⟨-, -, h3⟩ | ⟨cb, -, -, -, h3⟩ | ⟨h1, -, -⟩
    · rw [hsched] at h3; cases h3
    · rw [hsched] at h3; cases h3
    · rw [hloop, h1]
      simp only [Loop.setTimeout, clearTimeout_fingerprint hsound,
        (clearTimeout_clock s.loop s.w.timers.fingerprint).1,
        (clearTimeout_clock s.loop s.w.timers.fingerprint).2]
  have hslot : ss.sys.w.timers.fingerprint = some s.loop.nextId := by
    rcases handle_loop_cases cfg host s.w s.loop exists_ "add" filename with
      ⟨-, -, h3⟩ | ⟨cb, -, -, -, h3⟩ | ⟨-, h2, -⟩
    · rw [hsched] at h3; cases h3
    · rw [hsched] at h3; cases h3
    · rw [hw, h2]
  have hone : ss.sys.loop.pending.filter isFingerprintTimer
      = [{ id := s.loop.nextId, due := s.loop.now + cfg.debounce,
           cb := Callback.fingerprint }] := by
    rw [hpending, List.filter_append, List.filter_filter]
    simp [isFingerprintTimer]
  have hcount := no_static_no_schedule cfg host horizon later ss hssound hnone
  obtain ⟨t1, t2⟩ := (fingerprint_tracked cfg host horizon later ss hssound hcount).2 _ hone
  rw [hcalls] at t1 t2
  refine ⟨hsched, hpending, hslot, ?_, t1, t2⟩
  rw [hs]
  exact (advance_spec cfg host time _ hbase).2.2.1

/-- C11 amended, at the add of `/proj/public/logo.png` at time 10 while a
reload timer and an earlier fingerprint timer are pending, followed by a change
of a source file: the fingerprint timer is replaced, the reload timer stays,
and the fingerprinter is called once, at time 35. -/
theorem C11_static_add_schedules_fingerprint_witness :
    (advance projConfig (posixHost fullInventory) 10
        (steps projConfig (posixHost fullInventory) (idleSession fullInventory)
          timersPending).sys).loop.pending
      = [{ id := 0, due := 30, cb := Callback.manifestReload },
         { id := 1, due := 33, cb := Callback.fingerprint }] ∧
    (step projConfig (posixHost fullInventory)
        (steps projConfig (posixHost fullInventory) (idleSession fullInventory) timersPending)
        (Step.notify (addAt "/proj/public/logo.png" 10))).sys.loop.pending
      = [{ id := 0, due := 30, cb := Callback.manifestReload },
         { id := 2, due := 35, cb := Callback.fingerprint }] ∧
    fingerprintTimes (advance projConfig (posixHost fullInventory) 100
        (steps projConfig (posixHost fullInventory)
          (step projConfig (posixHost fullInventory)
            (steps projConfig (posixHost fullInventory) (idleSession fullInventory)
              timersPending)
            (Step.notify (addAt "/proj/public/logo.png" 10)))
          [Step.settle allComplete, Step.notify (sourceChange 20)]).sys).log = [35] := by
  have h := C11_static_add_schedules_fingerprint projConfig (posixHost fullInventory) fullInventory timersPending
    [Step.settle allComplete, Step.notify (sourceChange 20)] 10 100 false
    "/proj/public/logo.png" "public" "/proj/src/shared" { folder := some "public" }
    (advance projConfig (posixHost fullInventory) 10
      (steps projConfig (posixHost fullInventory) (idleSession fullInventory)
        timersPending).sys)
    (step projConfig (posixHost fullInventory)
      (steps projConfig (posixHost fullInventory) (idleSession fullInventory) timersPending)
      (Step.notify (addAt "/proj/public/logo.png" 10)))
    rfl rfl (by decide) (by decide) (by decide) (by decide) (by decide) (by decide)
    (by decide) (by decide) (by decide) (by decide)
    (by
      intro pre post n hl
      rcases pre with _ | ⟨a, pre⟩
      · simp at hl
      · rcases pre with _ | ⟨b, pre⟩
        · simp at hl
          obtain ⟨rfl, rfl, -⟩ := hl
          rintro ⟨h1, -⟩
          cases h1
        · simp at hl)
  exact ⟨by decide, h.2.1.trans (by decide), (h.2.2.2.2.2 (by decide)).trans (by decide)⟩

/-- C12: when the fingerprint timer fires, the watcher state is kept and the
fingerprinter is called; if it reports a change, a status line and one
`rehydrate` call with scope `staticJson` follow; if it reports no change,
nothing follows; if it reports an error, the error is reported and nothing
else follows. So `rehydrate` is called, once, exactly when the fingerprinter
succeeds and reports a change. -/
theorem C12_fingerprint_outcome_decides_rehydration (cfg : Config) (host : Host) (s : Sys)
    (t : Timer) (hcb : t.cb = Callback.fingerprint) :
    (fire cfg host s t).w = s.w ∧
    (host.fingerprint (max s.loop.now t.due) = .ok true →
      (fire cfg host s t).log = s.log ++ stamp (max s.loop.now t.due)
        [Effect.fingerprintCall s.w.inventory,
         Effect.status ("Regenerated " ++ interp s.w.staticFolder ++ host.sep ++
           "static.json in " ++ toString (host.fingerprintMs (max s.loop.now t.due)) ++ "ms"),
         Effect.rehydrate rehydrateStatic]) ∧
    (host.fingerprint (max s.loop.now t.due) = .ok false →
      (fire cfg host s t).log = s.log ++ stamp (max s.loop.now t.due)
        [Effect.fingerprintCall s.w.inventory]) ∧
    (∀ err, host.fingerprint (max s.loop.now t.due) = .error err →
      (fire cfg host s t).log = s.log ++ stamp (max s.loop.now t.due)
        [Effect.fingerprintCall s.w.inventory, Effect.error err]) ∧
    rehydrateStatic.only = some "staticJson" ∧
    callCount isRehydrate (fire cfg host s t).log = callCount isRehydrate s.log +
      (match host.fingerprint (max s.loop.now t.due) with
       | .ok true => 1
       | _ => 0) := by
  unfold fire
  simp only [hcb, runCallback, fingerprintCallback]
  cases hf : host.fingerprint (max s.loop.now t.due) with
  | error err => simp [callCount, stamp, isRehydrate, rehydrateStatic]
  | ok result => cases result <;> simp [callCount, stamp, isRehydrate, rehydrateStatic]

/-- C12 at a fingerprinter that fails: the error is reported, nothing is rehydrated. -/
theorem C12_fingerprint_outcome_decides_rehydration_witness :
    (fire projConfig failingHost
        { w := initWatcher fullInventory, loop := idleLoop, log := [] }
        { id := 0, due := 25, cb := Callback.fingerprint }).log
      = [] ++ stamp (max idleLoop.now 25)
          [Effect.fingerprintCall (initWatcher fullInventory).inventory, Effect.error "EACCES"] :=
  (C12_fingerprint_outcome_decides_rehydration projConfig failingHost
    { w := initWatcher fullInventory, loop := idleLoop, log := [] }
    { id := 0, due := 25, cb := Callback.fingerprint } rfl).2.2.2.1 "EACCES" rfl

/-- C13: when the configuration-reload timer fires and the inventory reader
reports an error, the error is reported once, the watcher state, with the held
inventory and everything derived from it, is what it was, and the engine is
neither stopped nor started. -/
theorem C13_failed_reload_keeps_inventory (cfg : Config) (host : Host) (s : Sys) (t : Timer)
    (err : String)
    (hcb : t.cb = Callback.manifestReload ∨ t.cb = Callback.preferencesReload)
    (herr : host.inventory (max s.loop.now t.due) = .error err) :
    (fire cfg host s t).w = s.w ∧
      (fire cfg host s t).log = s.log ++ stamp (max s.loop.now t.due)
        [Effect.ts, Effect.inventoryCall cfg.cwd, Effect.error err] ∧
      callCount isSandboxEnd (fire cfg host s t).log = callCount isSandboxEnd s.log ∧
      callCount isSandboxStart (fire cfg host s t).log = callCount isSandboxStart s.log := by
  unfold fire
  rcases hcb with h | h <;>
    simp [h, runCallback, reloadCallback, herr, callCount, stamp, isSandboxEnd, isSandboxStart]

/-- C13 at a manifest that no longer parses. -/
theorem C13_failed_reload_keeps_inventory_witness :
    (fire projConfig failingHost
        { w := initWatcher fullInventory, loop := idleLoop, log := [] }
        { id := 0, due := 25, cb := Callback.manifestReload }).w = initWatcher fullInventory :=
  (C13_failed_reload_keeps_inventory projConfig failingHost
    { w := initWatcher fullInventory, loop := idleLoop, log := [] }
    { id := 0, due := 25, cb := Callback.manifestReload } "Invalid manifest"
    (Or.inl rfl) rfl).1

/-- C14: when the configuration-reload timer fires and the inventory reader
succeeds with `r`, the watcher holds `r` and nothing of the inventory it held
before: its state is the one `runWatcher` sets up for `r`, with the timers and
flags kept, so every later event is dispatched against the manifest path,
preferences files, shared and views roots, static folder and plugins of `r`;
one status line names the manifest or the preferences after the rule whose
closure ran; and the engine is restarted once, with `r`. -/
theorem C14_reload_swaps_inventory (cfg : Config) (host : Host) (s : Sys) (t : Timer)
    (r : Inventory)
    (hcb : t.cb = Callback.manifestReload ∨ t.cb = Callback.preferencesReload)
    (hok : host.inventory (max s.loop.now t.due) = .ok r) :
    (fire cfg host s t).w =
        { initWatcher r with
          timers := s.w.timers, paused := s.w.paused, pluginsRunning := s.w.pluginsRunning } ∧
      ((fire cfg host s t).w.inventory = r ∧ (fire cfg host s t).w.inv = r.inv ∧
        (fire cfg host s t).w.manifest = r.inv.project.manifest ∧
        (fire cfg host s t).w.staticFolder = r.inv.static.bind (fun c => c.folder) ∧
        (fire cfg host s t).w.shared = r.inv.shared.bind (fun c => c.src) ∧
        (fire cfg host s t).w.views = r.inv.views.bind (fun c => c.src) ∧
        (fire cfg host s t).w.watcherPlugins = r.inv.watcher) ∧
      (fire cfg host s t).log = s.log ++ stamp (max s.loop.now t.due)
        ([Effect.ts, Effect.inventoryCall cfg.cwd,
          Effect.status (if t.cb = Callback.manifestReload
            then "Loaded latest Architect project manifest"
            else "Loaded latest project preferences")] ++
          restart host (max s.loop.now t.due) cfg.cwd r) ∧
      (restart host (max s.loop.now t.due) cfg.cwd r).filter
          (fun e => isSandboxEnd e || isSandboxStart e)
        = [Effect.sandboxEnd, Effect.sandboxStart cfg.cwd r true] ∧
      (∀ (loop : Loop) (exists_ : Bool) (event filename : String),
        handle cfg host (fire cfg host s t).w loop exists_ event filename =
          handle cfg host
            { initWatcher r with
              timers := s.w.timers, paused := s.w.paused,
              pluginsRunning := s.w.pluginsRunning }
            loop exists_ event filename) := by
  have hw : (fire cfg host s t).w =
      { initWatcher r with
        timers := s.w.timers, paused := s.w.paused, pluginsRunning := s.w.pluginsRunning } := by
    unfold fire
    rcases hcb with h | h <;>
      simp [h, runCallback, reloadCallback, hok, refreshInventory, initWatcher]
  refine ⟨hw, ?_, ?_, ?_, ?_⟩
  · rw [hw]; simp [initWatcher, refreshInventory]
  · unfold fire
    rcases hcb with h | h <;> simp [h, runCallback, reloadCallback, hok]
  · unfold restart
    cases host.sandboxEnd (max s.loop.now t.due) <;>
      cases host.sandboxStart (max s.loop.now t.due) <;>
      simp [isSandboxEnd, isSandboxStart]
  · intro loop exists_ event filename
    rw [hw]

/-- C14 at a reload that moves the manifest: the new path is the held one. -/
theorem C14_reload_swaps_inventory_witness :
    (fire projConfig (posixHost overlapInventory)
        { w := initWatcher fullInventory, loop := idleLoop, log := [] }
        { id := 0, due := 25, cb := Callback.manifestReload }).w
      = { initWatcher overlapInventory with
          timers := (initWatcher fullInventory).timers,
          paused := (initWatcher fullInventory).paused,
          pluginsRunning := (initWatcher fullInventory).pluginsRunning } :=
  (C14_reload_swaps_inventory projConfig (posixHost overlapInventory)
    { w := initWatcher fullInventory, loop := idleLoop, log := [] }
    { id := 0, due := 25, cb := Callback.manifestReload } overlapInventory
    (Or.inl rfl) rfl).1

/-- C15: whatever stop and start report, `restart` calls the engine's stop once
and then its start once, with the given inventory and the restart flag; it
reports the error of the stop, if any, before the start, and the error of the
start, if any; and it emits the `Sandbox reloaded` line exactly when the start
reports no error. -/
theorem C15_restart_stops_then_starts (host : Host) (now : Nat) (cwd : String)
    (inventory : Inventory) :
    (restart host now cwd inventory).filter (fun e => isSandboxEnd e || isSandboxStart e)
        = [Effect.sandboxEnd, Effect.sandboxStart cwd inventory true] ∧
      (restart host now cwd inventory).head? = some Effect.sandboxEnd ∧
      (restart host now cwd inventory).filterMap errorOf
        = (host.sandboxEnd now).toList ++ (host.sandboxStart now).toList ∧
      ((restart host now cwd inventory).takeWhile (fun e => !isSandboxStart e)).filterMap errorOf
        = (host.sandboxEnd now).toList ∧
      ((restart host now cwd inventory).any isDone = true ↔ host.sandboxStart now = none) ∧
      (restart host now cwd inventory).countP isDone ≤ 1 := by
  unfold restart
  cases host.sandboxEnd now <;> cases host.sandboxStart now <;>
    simp [isSandboxEnd, isSandboxStart, errorOf, isDone, List.takeWhile]

/-- A plugin run started by a dispatch is started with the renormalised kind,
the path of the event and the registered plugins. -/
theorem runPlugins_mem_handle (cfg : Config) (host : Host) (w : Watcher) (loop : Loop)
    (exists_ : Bool) (event filename : String) (f e : String) (l : List Plugin)
    (h : Effect.runPlugins f e l ∈ (handle cfg host w loop exists_ event filename).effects) :
    passesGate w exists_ event = true ∧ f = filename ∧ e = normalize event ∧
      l = w.watcherPlugins.getD [] ∧ normalize event ∈ pluginEvents := by
  by_cases hgate : passesGate w exists_ event = true
  · refine ⟨hgate, ?_⟩
    rw [handle_effects cfg host w loop exists_ event filename hgate] at h
    simp only [List.mem_append] at h
    rcases h with ((h | h) | h) | h
    · exfalso
      unfold unpause at h
      cases hp : w.paused <;> cases hs : cfg.symlink <;> simp_all
    · simp at h
    · exfalso
      unfold chainEffects at h
      split_ifs at h <;> simp at h
    · revert h
      rcases isStaticAsset cfg host w filename with ea | a <;>
      rcases isStaticJson cfg host w filename with ej | j <;>
      intro h
      · simp at h
      · simp at h
      · simp at h
      · unfold tailEffects at h
        rw [List.mem_append] at h
        rcases h with h | h
        · split_ifs at h <;> simp at h
        · split_ifs at h with hc
          · simp only [List.mem_singleton, Effect.runPlugins.injEq] at h
            simp only [Bool.and_eq_true] at hc
            exact ⟨h.1, h.2.1, h.2.2, by simpa using hc.2⟩
          · simp at h
  · exfalso
    have := any_handle_blocked cfg host w loop exists_ event filename
      (fun x => decide (x = Effect.runPlugins f e l)) hgate (by simp) (by simp)
    rw [List.any_eq_false] at this
    exact this _ h (by simp)

/-- C18: on the seven raw kinds the handler normalises as the reference
definition says. A dropped kind (`addDir`, `unlinkDir`, `ready`, `raw`) only
writes a trace line: state, timers and loop are kept and nothing else is
called, whether or not the pause sentinel exists. A kept kind is renamed
(`change` to `update`, `unlink` to `remove`, `add` as it is) to one of `add`,
`update`, `remove`, and that name is what the rule chain runs on and what a
plugin run is started with. -/
theorem C18_normaliser_matches_reference (k : RawKind) (cfg : Config) (host : Host)
    (w : Watcher) (loop : Loop) (exists_ : Bool) (filename : String) :
    match normalizeRef k with
    | none =>
      handle cfg host w loop exists_ k.name filename =
        { w := w, loop := loop, thrown := none,
          effects :=
            [Effect.debugStatus ("Watcher: ignored '" ++ k.name ++ "' on " ++ filename)] }
    | some kind =>
      ignoredEvents.contains k.name = false ∧ normalize k.name = kind ∧
        kind ∈ pluginEvents ∧
        (passesGate w exists_ k.name = true →
          handle cfg host w loop exists_ k.name filename =
            rules cfg host kind filename
              { w := (unpause cfg w false).1, loop := loop, ran := false, restarting := false,
                effects := (unpause cfg w false).2 ++
                  [Effect.debugStatus ("Watcher: '" ++ kind ++ "' on " ++ filename)] }) ∧
        (∀ f e l, Effect.runPlugins f e l ∈
            (handle cfg host w loop exists_ k.name filename).effects → e = kind) := by
  cases k
  case addDir => simp [normalizeRef, handle, RawKind.name, ignoredEvents]
  case unlinkDir => simp [normalizeRef, handle, RawKind.name, ignoredEvents]
  case ready => simp [normalizeRef, handle, RawKind.name, ignoredEvents]
  case raw => simp [normalizeRef, handle, RawKind.name, ignoredEvents]
  case add =>
    refine ⟨by decide, by decide, by decide, ?_, ?_⟩
    · intro hgate
      exact handle_gate_open cfg host w loop exists_ "add" filename hgate
    · intro f e l h
      exact (runPlugins_mem_handle cfg host w loop exists_ "add" filename f e l h).2.2.1
  case change =>
    refine ⟨by decide, by decide, by decide, ?_, ?_⟩
    · intro hgate
      exact handle_gate_open cfg host w loop exists_ "change" filename hgate
    · intro f e l h
      exact (runPlugins_mem_handle cfg host w loop exists_ "change" filename f e l h).2.2.1
  case unlink =>
    refine ⟨by decide, by decide, by decide, ?_, ?_⟩
    · intro hgate
      exact handle_gate_open cfg host w loop exists_ "unlink" filename hgate
    · intro f e l h
      exact (runPlugins_mem_handle cfg host w loop exists_ "unlink" filename f e l h).2.2.1

/-- C19, at a project with static serving and no shared-source root: the
dispatch of an update of a file in the static folder throws the `TypeError` of
`path.join`, after its trace line and before the static rule and the plugins. -/
theorem C19_static_without_shared_throws :
    passesGate (initWatcher staticInventory) false "change" = true ∧
      (initWatcher staticInventory).shared = none ∧
      handle projConfig (posixHost staticInventory) (initWatcher staticInventory) idleLoop
          false "change" "/proj/public/index.html"
        = { w := initWatcher staticInventory, loop := idleLoop,
            effects := [Effect.debugStatus "Watcher: 'update' on /proj/public/index.html"],
            thrown := some typeError } := by
  decide


/-- What an event that only the plugins react to does to an open watcher: the
busy flag is raised and one plugin run is started. -/
theorem handle_plugin_only (cfg : Config) (host : Host) (w : Watcher) (loop : Loop)
    (n : Notification) (hp : w.paused = false) (hrun : w.pluginsRunning = false)
    (hplug : hasPlugins w.watcherPlugins = true) (hn : pluginOnly cfg host w n = true) :
    handle cfg host w loop n.exists_ n.event n.filename =
      { w := { w with pluginsRunning := true }, loop := loop, thrown := none,
        effects :=
          [Effect.debugStatus ("Watcher: '" ++ normalize n.event ++ "' on " ++ n.filename),
           Effect.runPlugins n.filename (normalize n.event) (w.watcherPlugins.getD [])] } := by
  unfold pluginOnly at hn
  simp only [Bool.and_eq_true, Bool.not_eq_true'] at hn
  obtain ⟨⟨⟨⟨hex, hev⟩, hcl⟩, ha⟩, hj⟩ := hn
  have hign : ignoredEvents.contains n.event = false := by
    cases hc : ignoredEvents.contains n.event with
    | false => rfl
    | true =>
      exfalso
      have hm : n.event ∈ ignoredEvents := by simpa using hc
      simp only [ignoredEvents, List.mem_cons, List.mem_singleton, List.not_mem_nil,
        or_false] at hm
      rcases hm with h | h | h | h <;> rw [h] at hev <;> revert hev <;> decide
  have hign' : n.event ∉ ignoredEvents := by simpa using hign
  have hgate : passesGate w n.exists_ n.event = true := by
    simp [passesGate, hign', hp, hrun, hex]
  have hu : unpause cfg w false = (w, []) := by simp [unpause, hp]
  simp only [claimed, Bool.or_eq_false_iff] at hcl
  obtain ⟨⟨⟨h1, h2⟩, h3⟩, h4⟩ := hcl
  rw [handle_gate_open cfg host w loop n.exists_ n.event n.filename hgate, hu]
  unfold rules
  simp only []
  rw [chain_eq cfg host (normalize n.event) n.filename _ rfl]
  simp only [h1, h2, h3, h4, Bool.false_eq_true, if_false]
  revert ha hj
  rcases isStaticAsset cfg host w n.filename with ea | a <;>
  rcases isStaticJson cfg host w n.filename with ej | j <;>
  intro hx hy
  · simp at hx hy
  · simp at hx hy
  · simp at hx hy
  · simp only [Bool.not_eq_true'] at hx hy
    subst hx; subst hy
    have hev' : normalize n.event ∈ pluginEvents := by simpa using hev
    simp [Run.finish, staticRule, pluginStage, hrun, hplug, hev']

theorem pluginLoop_completes (outcome : Nat → PluginOutcome) (filename event : String)
    (hok : ∀ i, outcome i ≠ PluginOutcome.raises Raised.nullish) (l : List Plugin) :
    ∀ index, (pluginLoop outcome filename event index l).2 = none := by
  induction l with
  | nil => intro index; rfl
  | cons p rest ih =>
    intro index
    unfold pluginLoop
    cases ho : outcome index with
    | completes => simpa using ih (index + 1)
    | raises v =>
      cases v with
      | nullish => exact absurd ho (hok index)
      | value m => simpa [catchBlock] using ih (index + 1)

theorem pluginLoop_starts_no_run (outcome : Nat → PluginOutcome) (filename event : String)
    (l : List Plugin) :
    ∀ index, (pluginLoop outcome filename event index l).1.any isPluginRun = false := by
  induction l with
  | nil => intro index; rfl
  | cons p rest ih =>
    intro index
    unfold pluginLoop
    cases outcome index with
    | completes => simpa [isPluginRun] using ih (index + 1)
    | raises v =>
      cases v with
      | nullish => simp [catchBlock, isPluginRun]
      | value m => simpa [catchBlock, isPluginRun] using ih (index + 1)

theorem advance_idle (cfg : Config) (host : Host) (time : Nat) (s : Sys)
    (h : s.loop.pending = []) :
    advance cfg host time s = { s with loop := { s.loop with now := max s.loop.now time } } := by
  simp [advance, dueTimers, h]

/-- A notification that arrives during a plugin run is dropped by the handler. -/
theorem handle_busy (cfg : Config) (host : Host) (w : Watcher) (loop : Loop) (n : Notification)
    (hbusy : w.pluginsRunning = true) (hev : pluginEvents.contains (normalize n.event) = true) :
    handle cfg host w loop n.exists_ n.event n.filename
      = { w := w, loop := loop, effects := [], thrown := none } := by
  have hign : n.event ∉ ignoredEvents := by
    intro hm
    simp only [ignoredEvents, List.mem_cons, List.mem_singleton, List.not_mem_nil,
      or_false] at hm
    rcases hm with h | h | h | h <;> rw [h] at hev <;> revert hev <;> decide
  unfold handle
  simp [hign, hbusy]

/-- Along a sequence of steps whose notifications only the plugins react to
and whose plugin runs all end their loop, a run is started by exactly the
notifications that arrive while no run is in progress. -/
theorem steps_count (cfg : Config) (host : Host) (w : Watcher)
    (hp : w.paused = false) (hplug : hasPlugins w.watcherPlugins = true) (l : List Step) :
    ∀ (ss : Session) (busy : Bool),
      ss.sys.w = { w with pluginsRunning := busy } → ss.sys.loop.pending = [] →
      (busy = true → ss.running ≠ none) →
      (∀ n, Step.notify n ∈ l → pluginOnly cfg host w n = true) →
      (∀ o, Step.settle o ∈ l → ∀ i, o i ≠ PluginOutcome.raises Raised.nullish) →
      callCount isPluginRun (steps cfg host ss l).sys.log
        = callCount isPluginRun ss.sys.log + accepted busy l := by
  induction l with
  | nil => intro ss busy _ _ _ _ _; simp [steps, accepted]
  | cons st rest ih =>
    intro ss busy hw hpend hrunning hn ho
    have hn' : ∀ n, Step.notify n ∈ rest → pluginOnly cfg host w n = true :=
      fun n h => hn n (List.mem_cons_of_mem _ h)
    have ho' : ∀ o, Step.settle o ∈ rest → ∀ i, o i ≠ PluginOutcome.raises Raised.nullish :=
      fun o h => ho o (List.mem_cons_of_mem _ h)
    have hsteps : steps cfg host ss (st :: rest) = steps cfg host (step cfg host ss st) rest := by
      simp [steps]
    rw [hsteps]
    cases st with
    | notify n =>
      have hpo := hn n (List.mem_cons_self _ _)
      have hadv := advance_idle cfg host n.time ss.sys hpend
      have hAw : (advance cfg host n.time ss.sys).w = ss.sys.w := by rw [hadv]
      have hAp : (advance cfg host n.time ss.sys).loop.pending = [] := by rw [hadv]; exact hpend
      have hAl : (advance cfg host n.time ss.sys).log = ss.sys.log := by rw [hadv]
      cases busy with
      | false =>
        have hh := handle_plugin_only cfg host (advance cfg host n.time ss.sys).w
          (advance cfg host n.time ss.sys).loop n
          (by rw [hAw, hw]; exact hp) (by rw [hAw, hw]) (by rw [hAw, hw]; exact hplug)
          (by rw [hAw, hw]; exact hpo)
        have hsw : (step cfg host ss (Step.notify n)).sys.w
            = { w with pluginsRunning := true } := by
          simp only [step, deliver, hh]
          simp only [hAw, hw]
        have hsp : (step cfg host ss (Step.notify n)).sys.loop.pending = [] := by
          simp only [step, deliver, hh, hAp]
        have hsr : (step cfg host ss (Step.notify n)).running ≠ none := by
          simp only [step, hh, startedRun]
          simp
        have hsl : (step cfg host ss (Step.notify n)).sys.log
            = ss.sys.log ++ stamp (advance cfg host n.time ss.sys).loop.now
                [Effect.debugStatus
                  ("Watcher: '" ++ normalize n.event ++ "' on " ++ n.filename),
                 Effect.runPlugins n.filename (normalize n.event)
                  ((advance cfg host n.time ss.sys).w.watcherPlugins.getD [])] := by
          simp only [step, deliver, hh, hAl, List.append_nil]
        rw [ih (step cfg host ss (Step.notify n)) true hsw hsp (fun _ => hsr) hn' ho', hsl,
          callCount_append]
        simp [accepted, callCount, stamp, isPluginRun]
        omega
      | true =>
        have hev : pluginEvents.contains (normalize n.event) = true := by
          unfold pluginOnly at hpo
          simp only [Bool.and_eq_true] at hpo
          exact hpo.1.1.1.2
        have hh := handle_busy cfg host (advance cfg host n.time ss.sys).w
          (advance cfg host n.time ss.sys).loop n (by rw [hAw, hw]) hev
        have hsw : (step cfg host ss (Step.notify n)).sys.w
            = { w with pluginsRunning := true } := by
          simp only [step, deliver, hh]
          simp only [hAw, hw]
        have hsp : (step cfg host ss (Step.notify n)).sys.loop.pending = [] := by
          simp only [step, deliver, hh, hAp]
        have hsr : (step cfg host ss (Step.notify n)).running ≠ none := by
          simp only [step, hh, startedRun]
          exact hrunning rfl
        have hsl : (step cfg host ss (Step.notify n)).sys.log = ss.sys.log := by
          simp only [step, deliver, hh, hAl, stamp, List.map_nil, List.append_nil]
        rw [ih (step cfg host ss (Step.notify n)) true hsw hsp (fun _ => hsr) hn' ho', hsl]
        simp [accepted]
    | settle o =>
      have hok := ho o (List.mem_cons_self _ _)
      cases hr : ss.running with
      | none =>
        have hb : busy = false := by
          cases busy with
          | false => rfl
          | true => exact absurd hr (hrunning rfl)
        have hstep : step cfg host ss (Step.settle o) = ss := by
          simp [step, settle, hr]
        rw [hstep, ih ss false (by rw [hw, hb]) hpend (by simp) hn' ho']
        simp [accepted]
      | some r =>
        have hnone := pluginLoop_completes o r.filename r.event hok r.plugins 0
        have hstep : step cfg host ss (Step.settle o) =
            { sys := { ss.sys with
                w := { ss.sys.w with pluginsRunning := false }
                log := ss.sys.log ++ stamp ss.sys.loop.now
                  (pluginLoop o r.filename r.event 0 r.plugins).1 }
              running := none } := by
          simp only [step, settle, hr, hnone]
        rw [hstep, ih _ false (by simp [hw]) (by simpa using hpend) (by simp) hn' ho']
        simp only [callCount_append,
          callCount_stamp_zero isPluginRun _ _
            (pluginLoop_starts_no_run o r.filename r.event r.plugins 0)]
        simp [accepted]

theorem accepted_settledEach (o : Nat → PluginOutcome) (ns : List Notification) :
    accepted false (settledEach o ns) = ns.length := by
  induction ns with
  | nil => rfl
  | cons n rest ih =>
    simp only [settledEach, accepted, ih, List.length_cons, Bool.false_eq_true, if_false]
    omega

/-- C16, at three plugins of which the second rejects with `undefined`: the
`catch` block throws while reading `err.message`, so the run rejects after the
second plugin; the third plugin is never called, no warning names the second,
`pluginsRunning` stays true, and the next event is dropped. With an `Error`
thrown instead, all three plugins are called, the failure is reported and the
flag is lowered. -/
theorem C16_undefined_rejection_stops_pipeline :
    (invoked (((steps projConfig (posixHost pluginInventory) (idleSession pluginInventory)
          [Step.notify (sourceChange 5), Step.settle secondRejectsUndefined]).sys.log).map
          (fun e => e.2))
        = [{ plugin := "first" }, { plugin := "second" }] ∧
      (steps projConfig (posixHost pluginInventory) (idleSession pluginInventory)
          [Step.notify (sourceChange 5), Step.settle secondRejectsUndefined]).sys.log.getLast?
        = some (5, Effect.rejected messageError) ∧
      (steps projConfig (posixHost pluginInventory) (idleSession pluginInventory)
          [Step.notify (sourceChange 5),
           Step.settle secondRejectsUndefined]).sys.w.pluginsRunning = true ∧
      (steps projConfig (posixHost pluginInventory) (idleSession pluginInventory)
          [Step.notify (sourceChange 5), Step.settle secondRejectsUndefined,
           Step.notify (sourceChange 50)]).sys.log
        = (steps projConfig (posixHost pluginInventory) (idleSession pluginInventory)
          [Step.notify (sourceChange 5), Step.settle secondRejectsUndefined]).sys.log) ∧
    (invoked (((steps projConfig (posixHost pluginInventory) (idleSession pluginInventory)
          [Step.notify (sourceChange 5), Step.settle secondThrowsError]).sys.log).map
          (fun e => e.2))
        = [{ plugin := "first" }, { plugin := "second" }, { plugin := "third" }] ∧
      (5, Effect.warn "Watcher plugin second failed: boom") ∈
        (steps projConfig (posixHost pluginInventory) (idleSession pluginInventory)
          [Step.notify (sourceChange 5), Step.settle secondThrowsError]).sys.log ∧
      (steps projConfig (posixHost pluginInventory) (idleSession pluginInventory)
          [Step.notify (sourceChange 5),
           Step.settle secondThrowsError]).sys.w.pluginsRunning = false) := by
  decide

/-- C17, refuted as stated: of two updates of a source file, the second one
arriving before the plugin run of the first has settled, only the first starts
a plugin run. -/
theorem C17_event_during_run_starts_no_run :
    pluginOnly projConfig (posixHost pluginInventory) (initWatcher pluginInventory)
        (sourceChange 5) = true ∧
      pluginOnly projConfig (posixHost pluginInventory) (initWatcher pluginInventory)
        (sourceChange 6) = true ∧
      callCount isPluginRun
        (steps projConfig (posixHost pluginInventory) (idleSession pluginInventory)
          [Step.notify (sourceChange 5), Step.notify (sourceChange 6),
           Step.settle allComplete]).sys.log = 1 := by
  decide

/-- C17, amended: for a watcher that is not paused, has a plugin registered and
no timer pending, and a sequence of add, update and remove events that none of
the first four rules claims, whose paths are found to be neither static assets
nor `static.json`, interleaved with plugin runs that all end their loop, a
plugin run is started by exactly the events that arrive while no run is in
progress; an event that arrives during a run starts none. So there are as many
runs as events when every run settles before the next event arrives. -/
theorem C17_one_run_per_event_outside_runs (cfg : Config) (host : Host) (w : Watcher)
    (loop : Loop) (l : List Step)
    (hp : w.paused = false) (hrun : w.pluginsRunning = false)
    (hplug : hasPlugins w.watcherPlugins = true) (hpend : loop.pending = [])
    (hn : ∀ n, Step.notify n ∈ l → pluginOnly cfg host w n = true)
    (ho : ∀ o, Step.settle o ∈ l → ∀ i, o i ≠ PluginOutcome.raises Raised.nullish) :
    callCount isPluginRun
        (steps cfg host { sys := { w := w, loop := loop, log := [] }, running := none } l).sys.log
      = accepted false l ∧
    (∀ (ns : List Notification) (o : Nat → PluginOutcome),
      l = settledEach o ns →
      callCount isPluginRun
          (steps cfg host { sys := { w := w, loop := loop, log := [] }, running := none }
            l).sys.log
        = ns.length) := by
  have hw : w = { w with pluginsRunning := false } := by
    cases w; simp_all
  have h := steps_count cfg host w hp hplug l
    { sys := { w := w, loop := loop, log := [] }, running := none } false hw hpend (by simp)
    hn ho
  have h0 : callCount isPluginRun ([] : List (Nat × Effect)) = 0 := rfl
  simp only [h0, Nat.zero_add] at h
  refine ⟨h, ?_⟩
  intro ns o hl
  rw [h, hl, accepted_settledEach]

/-- C17 amended, at two updates each settled before the next step: two runs. -/
theorem C17_one_run_per_event_outside_runs_witness :
    callCount isPluginRun
        (steps projConfig (posixHost pluginInventory)
          { sys := { w := initWatcher pluginInventory, loop := idleLoop, log := [] },
            running := none }
          [Step.notify (sourceChange 5), Step.settle allComplete,
           Step.notify (sourceChange 9), Step.settle secondThrowsError]).sys.log
      = accepted false
          [Step.notify (sourceChange 5), Step.settle allComplete,
           Step.notify (sourceChange 9), Step.settle secondThrowsError] :=
  (C17_one_run_per_event_outside_runs projConfig (posixHost pluginInventory)
    (initWatcher pluginInventory) idleLoop
    [Step.notify (sourceChange 5), Step.settle allComplete,
     Step.notify (sourceChange 9), Step.settle secondThrowsError]
    rfl rfl rfl rfl
    (by
      intro n h
      simp only [List.mem_cons, Step.notify.injEq, List.mem_singleton, List.not_mem_nil,
        or_false, reduceCtorEq, false_or] at h
      rcases h with rfl | rfl <;> decide)
    (by
      intro o h i
      simp only [List.mem_cons, Step.settle.injEq, List.mem_singleton, List.not_mem_nil,
        or_false, reduceCtorEq, false_or] at h
      rcases h with rfl | rfl
      · simp [allComplete]
      · unfold secondThrowsError
        split <;> simp)).1

/-- The function the listener invokes is the one the spec routes to. -/
theorem invoked_eq_routed (host : WsHost) (data : String) :
    (match actionLambda host data with
      | some lambda => some lambda
      | none => host.getWs (JsValue.string "default")) = routed host data := by
  unfold actionLambda routed
  cases host.parse data with
  | none => rfl
  | some payload =>
    cases payload with
    | null => rfl
    | plain => simp [Json.action, JsValue.truthy]
    | object fields =>
      simp only [Json.action]
      cases fields.lookup "action" with
      | none => simp [JsValue.truthy]
      | some action =>
        simp only [Option.getD_some]
        cases action.truthy with
        | false => simp
        | true => simp

theorem failed_iff (r : InvokeResult) :
    failed r = true ↔
      r.err ≠ none ∨ ∃ resp code, r.resp = some resp ∧ resp.statusCode = some code ∧ code ≥ 400 := by
  unfold failed
  cases herr : r.err with
  | some e => simp
  | none =>
    cases hresp : r.resp with
    | none => simp
    | some resp =>
      cases hcode : resp.statusCode with
      | none => simp [hcode]
      | some code => simp [hcode]

/-- C20: for every message received on a connection, the listener invokes one
function, once, with the message as its body: the function registered for the
message's action when the message parses as JSON, has a truthy action field and
the inventory has a function for that action, and the function registered as
`default` otherwise; and it sends the error response, once, exactly when the
invocation reports an error or a response with a status code of at least 400. -/
theorem C20_message_invokes_routed_function (host : WsHost) (connectionId data : String)
    (isBinary : Bool) :
    (message host connectionId data isBinary).filter isInvoke
        = [WsEffect.invoke (routed host data)
            (if isBinary then Body.buffer data else Body.text data) connectionId] ∧
      (message host connectionId data isBinary).filter isSend
        = (if failed (host.invoke (routed host data)
              (if isBinary then Body.buffer data else Body.text data))
            then [WsEffect.send (errorMessage connectionId)] else []) ∧
      ((message host connectionId data isBinary).any isSend = true ↔
        (host.invoke (routed host data)
            (if isBinary then Body.buffer data else Body.text data)).err ≠ none ∨
          ∃ resp code,
            (host.invoke (routed host data)
              (if isBinary then Body.buffer data else Body.text data)).resp = some resp ∧
            resp.statusCode = some code ∧ code ≥ 400) := by
  have hr := invoked_eq_routed host data
  have hsend : (message host connectionId data isBinary).filter isSend
      = (if failed (host.invoke (routed host data)
            (if isBinary then Body.buffer data else Body.text data))
          then [WsEffect.send (errorMessage connectionId)] else []) := by
    unfold message respondToError
    cases ha : actionLambda host data with
    | some lambda =>
      rw [ha] at hr
      simp only [← hr]
      split_ifs <;> simp [isSend]
    | none =>
      rw [ha] at hr
      simp only [← hr]
      split_ifs <;> simp [isSend]
  refine ⟨?_, hsend, ?_⟩
  · unfold message respondToError
    cases ha : actionLambda host data with
    | some lambda =>
      rw [ha] at hr
      simp only [← hr]
      split_ifs <;> simp [isInvoke]
    | none =>
      rw [ha] at hr
      simp only [← hr]
      split_ifs <;> simp [isInvoke]
  · rw [← failed_iff]
    have hany : (message host connectionId data isBinary).any isSend
        = ((message host connectionId data isBinary).filter isSend).any isSend := by
      simp [List.any_filter]
    rw [hany, hsend]
    split_ifs with hf <;> simp_all [isSend]

/-- The sample connection at a message for `echo`, whose invocation answers
500: `echo` is invoked with the message and the error response is sent. -/
theorem message_echo_example :
    message sampleWsHost "abc123" "\x7b\"action\":\"echo\"\x7d" false
      = [WsEffect.status "ws/echo: abc123",
         WsEffect.invoke (some { name := "echo" })
           (Body.text "\x7b\"action\":\"echo\"\x7d") "abc123",
         WsEffect.send (errorMessage "abc123")] := by
  decide

end ArcWatcher
